import Mathlib

/-!
# STCP bundle source

A shallow embedding of `common/stcp/src/StcpBundleSource.cpp` (with
`common/stcp/include/StcpBundleSource.h`): the length-prefixed framing of a
bundle, the producer entry point `Forward`, the completion and timer handlers
run by the io_service thread, and the two index rings they share.

Conventions of the embedding.

* A byte is a natural number below 256; a byte buffer is a `List Nat`.
* `uint32_t` values are naturals reduced modulo `4294967296` at every point
  where the source narrows to 32 bits (`static_cast<uint32_t>`).
* `std::size_t` is 64 bits wide.  The seven statistics counters are naturals:
  a 64-bit counter does not wrap in any run that fits in memory and time.
* The sender object is a record; every member function is a function from the
  record (and its arguments) to the new record.  What a handler hands to the
  socket with `boost::asio::async_write` is appended to `asyncWrites`; an
  invocation of the registered callback adds one to `callbackInvocations`.
* Log output (`std::cout`, `std::cerr`) is not modelled.
* A `double` is the fraction it stands for, kept as a numerator and a
  denominator.  Each conversion, division and product of the pacer is rounded
  as IEEE 754 binary64 rounds it: to the nearest value with a significand of 53
  binary digits, ties to the even significand.  The values of the pacer stay
  clear of overflow and of the subnormal range for every rate from 1 to
  `2^64 - 1` and every 32-bit byte count, so neither is modelled.
-/

namespace Stcp

/-! ## The index ring -/

/-- Modelled from the spec: the class
`CircularIndexBufferSingleProducerSingleConsumerConfigurable`, whose header
`StcpBundleSource.h` includes but which is not among the source files.  The
spec (component `AckRing`) gives a queue of slot indices of fixed capacity `N`:
`head` is the next index to read, `len` the number of committed entries, and the
tail (next index to write) is `(head + len) mod N`. -/
structure CircularIndexBuffer where
  capacity : Nat
  head : Nat
  len : Nat
deriving DecidableEq, Repr

namespace CircularIndexBuffer

/-- Modelled from the spec: a ring constructed with capacity `N` is empty. -/
def init (N : Nat) : CircularIndexBuffer :=
  { capacity := N, head := 0, len := 0 }

/-- Modelled from the spec: the ring is full when it holds `N` entries. -/
def IsFull (r : CircularIndexBuffer) : Bool :=
  decide (r.capacity ≤ r.len)

/-- Modelled from the spec: the ring is empty when it holds no entry. -/
def IsEmpty (r : CircularIndexBuffer) : Bool :=
  decide (r.len = 0)

/-- Modelled from the spec: the index the next write goes to. -/
def tail (r : CircularIndexBuffer) : Nat :=
  (r.head + r.len) % r.capacity

/-- Modelled from the spec: `try_reserve_write`, the next write index in
`[0, N)` if the ring is not full and `none` if it is full; it does not advance
the tail.  The source tests the result against `UINT32_MAX`, which is the
`none` of this model. -/
def GetIndexForWrite (r : CircularIndexBuffer) : Option Nat :=
  if r.IsFull then none else some r.tail

/-- Modelled from the spec: `commit_write`, publishing the reserved slot. -/
def CommitWrite (r : CircularIndexBuffer) : CircularIndexBuffer :=
  { r with len := r.len + 1 }

/-- Modelled from the spec: `try_acquire_read`, the next read index if the ring
is not empty and `none` if it is empty. -/
def GetIndexForRead (r : CircularIndexBuffer) : Option Nat :=
  if r.IsEmpty then none else some r.head

/-- Modelled from the spec: `commit_read`, advancing the head past the entry
just read. -/
def CommitRead (r : CircularIndexBuffer) : CircularIndexBuffer :=
  { r with head := (r.head + 1) % r.capacity, len := r.len - 1 }

end CircularIndexBuffer

/-! ## The frame codec -/

/-- The four bytes that `boost::endian::native_to_big_inplace` followed by a
`memcpy` of the 32-bit word lay down: most significant byte first. -/
def bigEndianBytes32 (x : Nat) : List Nat :=
  [x / 16777216 % 256, x / 65536 % 256, x / 256 % 256, x % 256]

/-- The call `memcpy(&dst[offset], src, n)` on byte buffers: `n` bytes of `src`
replace the bytes of `dst` from `offset` on. -/
def memcpy (dst : List Nat) (offset : Nat) (src : List Nat) (n : Nat) : List Nat :=
  dst.take offset ++ src.take n ++ dst.drop (offset + n)

/-- The function `StcpBundleSource::GenerateDataUnit`.  `dataUnit` is the fresh
empty vector of the caller, `sizeContents` a `uint32_t`; `resize` fills the
vector with zero bytes before the two copies. -/
def GenerateDataUnit (contents : List Nat) (sizeContents : Nat) : List Nat :=
  let sizeContentsBigEndian := bigEndianBytes32 sizeContents
  let dataUnit := List.replicate (4 + sizeContents) 0
  let dataUnit := memcpy dataUnit 0 sizeContentsBigEndian 4
  if sizeContents ≠ 0 then memcpy dataUnit 4 contents sizeContents else dataUnit

/-! ## The sender -/

/-- The completion handler that a call of `boost::asio::async_write` binds to
the write. -/
inductive WriteHandler where
  | tcpSend
  | tcpSendKeepAlive
deriving DecidableEq, Repr

/-- One call of `boost::asio::async_write` on the socket: the bytes of the
buffer and the bound completion handler. -/
structure AsyncWrite where
  buffer : List Nat
  handler : WriteHandler
deriving DecidableEq, Repr

/-- The class `StcpBundleSource`: its data members, followed by what the
handlers do to the world outside the object (the socket, the timers and the
registered callback). -/
structure StcpBundleSource where
  /-- The keep-alive period in seconds. -/
  M_KEEP_ALIVE_INTERVAL_SECONDS : Nat
  /-- The configured rate in bits per second. -/
  M_RATE_BITS_PER_SEC : Nat
  /-- The number of slots of each ring. -/
  MAX_UNACKED : Nat
  m_bytesToAckByRateCb : CircularIndexBuffer
  m_bytesToAckByRateCbVec : List Nat
  m_groupingOfBytesToAckByRateVec : List Nat
  m_bytesToAckByTcpSendCallbackCb : CircularIndexBuffer
  m_bytesToAckByTcpSendCallbackCbVec : List Nat
  m_readyToForward : Bool
  m_dataServedAsKeepAlive : Bool
  m_rateTimerIsRunning : Bool
  m_totalDataSegmentsAckedByTcpSendCallback : Nat
  m_totalBytesAckedByTcpSendCallback : Nat
  m_totalDataSegmentsAckedByRate : Nat
  m_totalBytesAckedByRate : Nat
  m_totalDataSegmentsSent : Nat
  m_totalBundleBytesSent : Nat
  m_totalStcpBytesSent : Nat
  /-- Whether `m_tcpSocketPtr` holds a socket (it is null until `OnResolve`). -/
  m_tcpSocketPtr : Bool
  /-- Whether the socket held by `m_tcpSocketPtr` is open. -/
  socketIsOpen : Bool
  /-- The calls of `boost::asio::async_write` on the socket, oldest first. -/
  asyncWrites : List AsyncWrite
  /-- Whether `m_onSuccessfulAckCallback` holds a callback. -/
  m_onSuccessfulAckCallback : Bool
  /-- The number of times the registered callback has been invoked. -/
  callbackInvocations : Nat
  /-- Whether `m_newDataSignalerTimer` has been cancelled and its handler
  `OnNewData_TimerCancelled` has not run yet. -/
  newDataSignalerCancelled : Bool
  /-- The delay in microseconds `m_rateTimer` was last armed with, if it is
  armed. -/
  m_rateTimer : Option Nat
  /-- Whether `m_needToSendKeepAliveMessageTimer` is armed. -/
  m_needToSendKeepAliveMessageTimer : Bool
deriving DecidableEq, Repr

/-- The constructor `StcpBundleSource::StcpBundleSource`: both rings and their
side arrays get `maxUnacked` slots, the sender is not ready, no socket exists
and every counter is zero. -/
def StcpBundleSource.init (desiredKeeAliveIntervlSeconds rateBps maxUnacked : Nat) :
    StcpBundleSource :=
  { M_KEEP_ALIVE_INTERVAL_SECONDS := desiredKeeAliveIntervlSeconds
    M_RATE_BITS_PER_SEC := rateBps
    MAX_UNACKED := maxUnacked
    m_bytesToAckByRateCb := CircularIndexBuffer.init maxUnacked
    m_bytesToAckByRateCbVec := List.replicate maxUnacked 0
    m_groupingOfBytesToAckByRateVec := []
    m_bytesToAckByTcpSendCallbackCb := CircularIndexBuffer.init maxUnacked
    m_bytesToAckByTcpSendCallbackCbVec := List.replicate maxUnacked 0
    m_readyToForward := false
    m_dataServedAsKeepAlive := true
    m_rateTimerIsRunning := false
    m_totalDataSegmentsAckedByTcpSendCallback := 0
    m_totalBytesAckedByTcpSendCallback := 0
    m_totalDataSegmentsAckedByRate := 0
    m_totalBytesAckedByRate := 0
    m_totalDataSegmentsSent := 0
    m_totalBundleBytesSent := 0
    m_totalStcpBytesSent := 0
    m_tcpSocketPtr := false
    socketIsOpen := false
    asyncWrites := []
    m_onSuccessfulAckCallback := false
    callbackInvocations := 0
    newDataSignalerCancelled := false
    m_rateTimer := none
    m_needToSendKeepAliveMessageTimer := false }

/-- The function `StcpBundleSource::SetOnSuccessfulAckCallback`. -/
def SetOnSuccessfulAckCallback (s : StcpBundleSource) : StcpBundleSource :=
  { s with m_onSuccessfulAckCallback := true }

/-- The function `StcpBundleSource::ReadyToForward`. -/
def ReadyToForward (s : StcpBundleSource) : Bool × StcpBundleSource :=
  (s.m_readyToForward, s)

/-- The function `StcpBundleSource::SignalNewDataForwarded`: the signaler timer
is cancelled unless the rate timer is running. -/
def SignalNewDataForwarded (s : StcpBundleSource) : StcpBundleSource :=
  if !s.m_rateTimerIsRunning then { s with newDataSignalerCancelled := true } else s

/-- What a call of `Forward` leaves behind: the returned boolean, the sender
and the value of the reference argument `numUnackedBundles`. -/
structure ForwardResult where
  ret : Bool
  state : StcpBundleSource
  numUnackedBundles : Nat
deriving DecidableEq, Repr

/-- The function `StcpBundleSource::Forward`.  `bundleData` holds the `size`
bytes the pointer argument points to; `numUnackedBundles` is the caller's value
of the reference argument. -/
def Forward (s : StcpBundleSource) (bundleData : List Nat) (numUnackedBundles : Nat) :
    ForwardResult :=
  let size := bundleData.length
  if !s.m_readyToForward then
    { ret := false, state := s, numUnackedBundles := numUnackedBundles }
  else
    match s.m_bytesToAckByRateCb.GetIndexForWrite with
    | none => { ret := false, state := s, numUnackedBundles := numUnackedBundles }
    | some writeIndexRate =>
      match s.m_bytesToAckByTcpSendCallbackCb.GetIndexForWrite with
      | none => { ret := false, state := s, numUnackedBundles := numUnackedBundles }
      | some writeIndexTcpSendCallback =>
        let stcpDataUnit := GenerateDataUnit bundleData (size % 4294967296)
        let s := { s with
          m_totalDataSegmentsSent := s.m_totalDataSegmentsSent + 1
          m_totalBundleBytesSent := s.m_totalBundleBytesSent + size
          m_totalStcpBytesSent := s.m_totalStcpBytesSent + stcpDataUnit.length
          m_bytesToAckByRateCbVec :=
            s.m_bytesToAckByRateCbVec.set writeIndexRate (stcpDataUnit.length % 4294967296)
          m_bytesToAckByRateCb := s.m_bytesToAckByRateCb.CommitWrite
          m_bytesToAckByTcpSendCallbackCbVec :=
            s.m_bytesToAckByTcpSendCallbackCbVec.set writeIndexTcpSendCallback
              (stcpDataUnit.length % 4294967296)
          m_bytesToAckByTcpSendCallbackCb := s.m_bytesToAckByTcpSendCallbackCb.CommitWrite }
        let s := SignalNewDataForwarded s
        let s := { s with
          m_dataServedAsKeepAlive := true
          asyncWrites := s.asyncWrites
            ++ [{ buffer := stcpDataUnit, handler := WriteHandler.tcpSend }] }
        { ret := true, state := s, numUnackedBundles := 0 }

/-- The function `StcpBundleSource::GetTotalDataSegmentsAcked`. -/
def GetTotalDataSegmentsAcked (s : StcpBundleSource) : Nat × StcpBundleSource :=
  let totalAckedByTcpSend := s.m_totalDataSegmentsAckedByTcpSendCallback
  let totalAckedByRate := s.m_totalDataSegmentsAckedByRate
  (if totalAckedByTcpSend < totalAckedByRate then totalAckedByTcpSend else totalAckedByRate, s)

/-- The function `StcpBundleSource::GetTotalDataSegmentsSent`. -/
def GetTotalDataSegmentsSent (s : StcpBundleSource) : Nat × StcpBundleSource :=
  (s.m_totalDataSegmentsSent, s)

/-- The function `StcpBundleSource::DoStcpShutdown`. -/
def DoStcpShutdown (s : StcpBundleSource) : StcpBundleSource :=
  let s := { s with m_readyToForward := false }
  let s := if s.m_tcpSocketPtr && s.socketIsOpen then { s with socketIsOpen := false } else s
  { s with m_needToSendKeepAliveMessageTimer := false }

/-- The outcome an asio completion handler is called with, as far as the
handlers tell outcomes apart. -/
inductive ErrorCode where
  | success
  | eof
  | operation_aborted
  | other
deriving DecidableEq, Repr

/-- The function `StcpBundleSource::OnResolve`.  The connect it starts is taken
to open the socket. -/
def OnResolve (s : StcpBundleSource) (ec : ErrorCode) : StcpBundleSource :=
  if ec ≠ ErrorCode.success then s else { s with m_tcpSocketPtr := true, socketIsOpen := true }

/-- The function `StcpBundleSource::OnConnect`. -/
def OnConnect (s : StcpBundleSource) (ec : ErrorCode) : StcpBundleSource :=
  if ec ≠ ErrorCode.success then s
  else { s with m_readyToForward := true, m_needToSendKeepAliveMessageTimer := true }

/-- The function `StcpBundleSource::HandleTcpSend`, the completion handler of a
data write. -/
def HandleTcpSend (s : StcpBundleSource) (error : ErrorCode) (bytes_transferred : Nat) :
    StcpBundleSource :=
  if error ≠ ErrorCode.success then DoStcpShutdown s
  else
    match s.m_bytesToAckByTcpSendCallbackCb.GetIndexForRead with
    | none => s
    | some readIndex =>
      if s.m_bytesToAckByTcpSendCallbackCbVec.getD readIndex 0 = bytes_transferred then
        let s := { s with
          m_totalDataSegmentsAckedByTcpSendCallback :=
            s.m_totalDataSegmentsAckedByTcpSendCallback + 1
          m_totalBytesAckedByTcpSendCallback :=
            s.m_totalBytesAckedByTcpSendCallback
              + s.m_bytesToAckByTcpSendCallbackCbVec.getD readIndex 0
          m_bytesToAckByTcpSendCallbackCb := s.m_bytesToAckByTcpSendCallbackCb.CommitRead }
        if s.m_onSuccessfulAckCallback
            && decide (s.m_totalDataSegmentsAckedByTcpSendCallback
                ≤ s.m_totalDataSegmentsAckedByRate) then
          { s with callbackInvocations := s.callbackInvocations + 1 }
        else s
      else s

/-- The function `StcpBundleSource::HandleTcpSendKeepAlive`, the completion
handler of a keep-alive write. -/
def HandleTcpSendKeepAlive (s : StcpBundleSource) (error : ErrorCode) : StcpBundleSource :=
  if error ≠ ErrorCode.success then DoStcpShutdown s else s

/-- The function `StcpBundleSource::HandleTcpReceiveSome`. -/
def HandleTcpReceiveSome (s : StcpBundleSource) (error : ErrorCode) : StcpBundleSource :=
  if error = ErrorCode.success then s
  else if error = ErrorCode.eof then DoStcpShutdown s
  else s

/-- The loop behind `bitLength`: it halves `n` until nothing is left and counts
the halvings; `fuel` bounds the number of halvings. -/
def bitLengthAux : Nat → Nat → Nat → Nat
  | 0, _, count => count
  | fuel + 1, n, count => if n = 0 then count else bitLengthAux fuel (n / 2) (count + 1)

/-- The number of binary digits of `n`: 0 for 0, and `k` when
`2^(k-1) ≤ n < 2^k`. -/
def bitLength (n : Nat) : Nat := bitLengthAux n n 0

/-- The `double` nearest to the fraction `n / d`, as a numerator and a
denominator: `n / d` is scaled by a power of two so that its integer part `q`
has exactly 53 binary digits, `q` is rounded to the nearest integer `m` (up when
the remainder is more than half, or exactly half with `q` odd), and the result
is `m` scaled back.  With `up` and `t` as below the scaled fraction is
`n * 2^up / (d * 2^t)` and the result is `m * 2^t / 2^up`. -/
def roundToDouble (n d : Nat) : Nat × Nat :=
  if n = 0 then (0, 1)
  else
    let up := bitLength d + 52
    let t := bitLength (n * 2 ^ up / d) - 53
    let den := d * 2 ^ t
    let q := n * 2 ^ up / den
    let r := n * 2 ^ up % den
    let m := if 2 * r > den ∨ (2 * r = den ∧ q % 2 = 1) then q + 1 else q
    (m * 2 ^ (t - up), 2 ^ (up - t))

/-- The delay in microseconds that the rate timer charges for one ring entry of
`numBytes` bytes at `rateBps` bits per second, as the source computes it in
double precision: `M_RATE_BITS_PER_SEC` is converted to `double` (`rate`),
`1.0 / rate` is rounded (`inv`), the product with `numBitsDouble` is rounded
(`x3`), the product with `1e6` is rounded (`x4`), and `static_cast<uint64_t>`
drops the fraction.  `numBitsDouble` is `numBytes * 8` without rounding: the
entry is a `uint32_t`, so its conversion to `double` and the product with `8.0`
are exact.  At a rate of 0 the source divides by zero and converts infinity (or
a NaN) to `uint64_t`, which is undefined; the 0 returned here for that rate
stands for no behaviour of the source, and what is proved about delays is
proved for rates of at least 1. -/
def delayMicroSecOf (rateBps numBytes : Nat) : Nat :=
  if rateBps = 0 then 0
  else
    let rate := roundToDouble rateBps 1
    let inv := roundToDouble rate.2 rate.1
    let x3 := roundToDouble (inv.1 * (numBytes * 8)) inv.2
    let x4 := roundToDouble (x3.1 * 1000000) x3.2
    x4.1 / x4.2

/-- The `for` loop of `StcpBundleSource::TryRestartRateTimer`, run for at most
`fuel` iterations; it returns the sender and `delayMicroSec`. -/
def TryRestartRateTimer.loop : Nat → StcpBundleSource → Nat → StcpBundleSource × Nat
  | 0, s, delayMicroSec => (s, delayMicroSec)
  | fuel + 1, s, delayMicroSec =>
    match s.m_bytesToAckByRateCb.GetIndexForRead with
    | none => (s, delayMicroSec)
    | some readIndex =>
      let delayMicroSec := delayMicroSec
        + delayMicroSecOf s.M_RATE_BITS_PER_SEC (s.m_bytesToAckByRateCbVec.getD readIndex 0)
      let s := { s with
        m_bytesToAckByRateCb := s.m_bytesToAckByRateCb.CommitRead
        m_groupingOfBytesToAckByRateVec :=
          s.m_groupingOfBytesToAckByRateVec ++ [s.m_bytesToAckByRateCbVec.getD readIndex 0] }
      if delayMicroSec ≥ 10000 then (s, delayMicroSec)
      else TryRestartRateTimer.loop fuel s delayMicroSec

/-- The function `StcpBundleSource::TryRestartRateTimer`.  The loop reads one
ring entry per iteration, so the number of entries is fuel enough. -/
def TryRestartRateTimer (s : StcpBundleSource) : StcpBundleSource :=
  if !s.m_rateTimerIsRunning && decide (s.m_groupingOfBytesToAckByRateVec.length = 0) then
    let r := TryRestartRateTimer.loop s.m_bytesToAckByRateCb.len s 0
    let s := r.1
    let delayMicroSec := r.2
    if s.m_groupingOfBytesToAckByRateVec.length ≠ 0 then
      { s with m_rateTimer := some delayMicroSec, m_rateTimerIsRunning := true }
    else s
  else s

/-- The function `StcpBundleSource::OnNewData_TimerCancelled`, which also
re-arms the signaler (`RestartNewDataSignaler`). -/
def OnNewData_TimerCancelled (s : StcpBundleSource) (e : ErrorCode) : StcpBundleSource :=
  if e = ErrorCode.operation_aborted then
    TryRestartRateTimer { s with newDataSignalerCancelled := false }
  else s

/-- The function `StcpBundleSource::OnRate_TimerExpired`. -/
def OnRate_TimerExpired (s : StcpBundleSource) (e : ErrorCode) : StcpBundleSource :=
  let s := { s with m_rateTimerIsRunning := false, m_rateTimer := none }
  if e ≠ ErrorCode.operation_aborted then
    if s.m_groupingOfBytesToAckByRateVec.length > 0 then
      let s := { s with
        m_totalDataSegmentsAckedByRate :=
          s.m_totalDataSegmentsAckedByRate + s.m_groupingOfBytesToAckByRateVec.length
        m_totalBytesAckedByRate :=
          s.m_totalBytesAckedByRate + s.m_groupingOfBytesToAckByRateVec.sum
        m_groupingOfBytesToAckByRateVec := [] }
      let s :=
        if s.m_onSuccessfulAckCallback
            && decide (s.m_totalDataSegmentsAckedByRate
                ≤ s.m_totalDataSegmentsAckedByTcpSendCallback) then
          { s with callbackInvocations := s.callbackInvocations + 1 }
        else s
      TryRestartRateTimer s
    else s
  else s

/-- The function `StcpBundleSource::OnNeedToSendKeepAliveMessage_TimerExpired`.
The keep-alive word is the `uint32_t` zero, four zero bytes. -/
def OnNeedToSendKeepAliveMessage_TimerExpired (s : StcpBundleSource) (e : ErrorCode) :
    StcpBundleSource :=
  if e ≠ ErrorCode.operation_aborted then
    let s := { s with m_needToSendKeepAliveMessageTimer := false }
    let s :=
      if s.m_tcpSocketPtr then
        let s := { s with m_needToSendKeepAliveMessageTimer := true }
        if !s.m_dataServedAsKeepAlive then
          { s with asyncWrites := s.asyncWrites
            ++ [{ buffer := [0, 0, 0, 0], handler := WriteHandler.tcpSendKeepAlive }] }
        else s
      else s
    { s with m_dataServedAsKeepAlive := false }
  else s

/-! ## Runs of the sender -/

/-- One call into the sender: a call of `Forward` by a producer, or a handler
run by the io_service thread with the outcome it is given. -/
inductive Event where
  | forward (bundleData : List Nat) (numUnackedBundles : Nat)
  | setOnSuccessfulAckCallback
  | onResolve (ec : ErrorCode)
  | onConnect (ec : ErrorCode)
  | handleTcpSend (error : ErrorCode) (bytes_transferred : Nat)
  | handleTcpSendKeepAlive (error : ErrorCode)
  | handleTcpReceiveSome (error : ErrorCode)
  | onNewDataTimerCancelled (e : ErrorCode)
  | onRateTimerExpired (e : ErrorCode)
  | onNeedToSendKeepAliveMessageTimerExpired (e : ErrorCode)
deriving DecidableEq, Repr

/-- The sender after one event. -/
def step (s : StcpBundleSource) : Event → StcpBundleSource
  | Event.forward bundleData numUnackedBundles => (Forward s bundleData numUnackedBundles).state
  | Event.setOnSuccessfulAckCallback => SetOnSuccessfulAckCallback s
  | Event.onResolve ec => OnResolve s ec
  | Event.onConnect ec => OnConnect s ec
  | Event.handleTcpSend error bytes_transferred => HandleTcpSend s error bytes_transferred
  | Event.handleTcpSendKeepAlive error => HandleTcpSendKeepAlive s error
  | Event.handleTcpReceiveSome error => HandleTcpReceiveSome s error
  | Event.onNewDataTimerCancelled e => OnNewData_TimerCancelled s e
  | Event.onRateTimerExpired e => OnRate_TimerExpired s e
  | Event.onNeedToSendKeepAliveMessageTimerExpired e =>
    OnNeedToSendKeepAliveMessage_TimerExpired s e

/-- The bytes handed to the socket by the data writes of the sender (the writes
bound to `HandleTcpSend`), in the order of the writes. -/
def dataStream (s : StcpBundleSource) : List Nat :=
  ((s.asyncWrites.filter (fun w => decide (w.handler = WriteHandler.tcpSend))).map
    AsyncWrite.buffer).flatten

/-- All bytes handed to the socket, in the order of the writes. -/
def socketStream (s : StcpBundleSource) : List Nat :=
  (s.asyncWrites.map AsyncWrite.buffer).flatten

/-- A sender constructed with the header's default rate and `maxUnacked` ring
slots, after a successful resolve and a successful connect. -/
def connectedSender (maxUnacked : Nat) : StcpBundleSource :=
  OnConnect (OnResolve (StcpBundleSource.init 10 5000000 maxUnacked) ErrorCode.success)
    ErrorCode.success

/-- The sender after a list of events, oldest first. -/
def run (s : StcpBundleSource) (events : List Event) : StcpBundleSource :=
  events.foldl step s

/-- The payloads of the `Forward` calls of a run that returned true, in call
order. -/
def admitted : StcpBundleSource → List Event → List (List Nat)
  | _, [] => []
  | s, Event.forward bundleData numUnackedBundles :: events =>
    if (Forward s bundleData numUnackedBundles).ret then
      bundleData :: admitted (Forward s bundleData numUnackedBundles).state events
    else admitted (Forward s bundleData numUnackedBundles).state events
  | s, e :: events => admitted (step s e) events

/-- A connected sender with two slots per ring after two admitted frames, once
the pacer has drained the rate ring while no write has completed: the rate ring
is empty and the transport ring is full. -/
def rateDrainedSender : StcpBundleSource :=
  run (connectedSender 2)
    [Event.forward [1] 0, Event.forward [2] 0,
     Event.onNewDataTimerCancelled ErrorCode.operation_aborted]

/-- A run of a connected sender with two slots per ring: two admitted calls, a
call rejected by the full rings, the pacer draining the rate ring, the
completion of the first write, an idle keep-alive tick, and an admitted call
with an empty payload. -/
def exampleRun : List Event :=
  [Event.forward [0xAA, 0xBB, 0xCC] 0, Event.forward [1] 0, Event.forward [2] 0,
   Event.onNewDataTimerCancelled ErrorCode.operation_aborted,
   Event.handleTcpSend ErrorCode.success 7,
   Event.onNeedToSendKeepAliveMessageTimerExpired ErrorCode.success, Event.forward [] 0]

/-! ## What the readers of the rings see -/

/-- The stored lengths of the committed entries of a ring, oldest first: the
slots of the side array `vec` at `head`, `head + 1`, ... taken modulo the
capacity. -/
def ringContents (cb : CircularIndexBuffer) (vec : List Nat) : List Nat :=
  (List.range cb.len).map (fun i => vec.getD ((cb.head + i) % cb.capacity) 0)

/-- A ring as the constructor and the four ring operations leave it: the side
array has one slot per index, no more entries than slots are committed, and the
head is an index of the array. -/
def RingWellFormed (cb : CircularIndexBuffer) (vec : List Nat) : Prop :=
  vec.length = cb.capacity ∧ cb.len ≤ cb.capacity ∧ cb.head % cb.capacity = cb.head

/-- The ring entry that `HandleTcpSend` reads and consumes in the given call, if
it consumes one: the entry at the read index, when the write completed without
error and the entry equals `bytes_transferred`. -/
def HandleTcpSend.consumed (s : StcpBundleSource) (error : ErrorCode)
    (bytes_transferred : Nat) : List Nat :=
  if error ≠ ErrorCode.success then []
  else
    match s.m_bytesToAckByTcpSendCallbackCb.GetIndexForRead with
    | none => []
    | some readIndex =>
      if s.m_bytesToAckByTcpSendCallbackCbVec.getD readIndex 0 = bytes_transferred then
        [s.m_bytesToAckByTcpSendCallbackCbVec.getD readIndex 0]
      else []

/-- The byte counts the transport-ack path has read and consumed from the
transport ring in a run, in the order of the reads. -/
def transportReads : StcpBundleSource → List Event → List Nat
  | _, [] => []
  | s, Event.handleTcpSend error bytes_transferred :: events =>
    HandleTcpSend.consumed s error bytes_transferred
      ++ transportReads (HandleTcpSend s error bytes_transferred) events
  | s, e :: events => transportReads (step s e) events

/-- The byte counts of the batches that the rate-timer expiries of a run have
credited, in the order of the expiries: a non-cancelled expiry credits the
whole pending batch. -/
def creditedBatches : StcpBundleSource → List Event → List Nat
  | _, [] => []
  | s, Event.onRateTimerExpired e :: events =>
    (if e ≠ ErrorCode.operation_aborted then s.m_groupingOfBytesToAckByRateVec else [])
      ++ creditedBatches (OnRate_TimerExpired s e) events
  | s, e :: events => creditedBatches (step s e) events

/-- Whether every non-cancelled rate-timer expiry of a run finds at most one
frame in the pending batch. -/
def singleFrameBatches : StcpBundleSource → List Event → Bool
  | _, [] => true
  | s, Event.onRateTimerExpired e :: events =>
    (decide (e = ErrorCode.operation_aborted)
        || decide (s.m_groupingOfBytesToAckByRateVec.length ≤ 1))
      && singleFrameBatches (OnRate_TimerExpired s e) events
  | s, e :: events => singleFrameBatches (step s e) events

/-- The bookkeeping that every handler keeps between two calls into the
sender: both rings are well formed; the transport ring holds the frames sent
and not yet acknowledged by a write completion; the rate ring and the pending
batch together hold the frames sent and not yet acknowledged by the pacer; the
callback has been invoked at most once per frame acknowledged on both sides;
and a running rate timer has a pending batch. -/
def Consistent (s : StcpBundleSource) : Prop :=
  RingWellFormed s.m_bytesToAckByTcpSendCallbackCb s.m_bytesToAckByTcpSendCallbackCbVec ∧
  RingWellFormed s.m_bytesToAckByRateCb s.m_bytesToAckByRateCbVec ∧
  s.m_bytesToAckByTcpSendCallbackCb.len + s.m_totalDataSegmentsAckedByTcpSendCallback
    = s.m_totalDataSegmentsSent ∧
  s.m_bytesToAckByRateCb.len + s.m_groupingOfBytesToAckByRateVec.length
      + s.m_totalDataSegmentsAckedByRate
    = s.m_totalDataSegmentsSent ∧
  s.callbackInvocations ≤ s.m_totalDataSegmentsAckedByTcpSendCallback ∧
  s.callbackInvocations ≤ s.m_totalDataSegmentsAckedByRate ∧
  (s.m_rateTimerIsRunning = true → s.m_groupingOfBytesToAckByRateVec ≠ [])

/-! ## Senders and runs used as examples -/

/-- A sender constructed with the header default rate and `maxUnacked` ring
slots whose callback is registered right after construction, after a successful
resolve and a successful connect. -/
def callbackSender (maxUnacked : Nat) : StcpBundleSource :=
  run (SetOnSuccessfulAckCallback (StcpBundleSource.init 10 5000000 maxUnacked))
    [Event.onResolve ErrorCode.success, Event.onConnect ErrorCode.success]

/-- A run in which two frames are admitted, both writes complete, and the pacer
then puts both frames into one batch that a single rate-timer expiry credits. -/
def batchOfTwoRun : List Event :=
  [Event.onResolve ErrorCode.success, Event.onConnect ErrorCode.success,
   Event.forward [1] 0, Event.forward [2] 0,
   Event.handleTcpSend ErrorCode.success 5, Event.handleTcpSend ErrorCode.success 5,
   Event.onNewDataTimerCancelled ErrorCode.operation_aborted,
   Event.onRateTimerExpired ErrorCode.success]

/-- A run in which every batch holds one frame: the first frame is acknowledged
by the pacer and then by the write completion, the second frame by the write
completion and then by the pacer, and a third frame is still in flight. -/
def oneFramePerBatchRun : List Event :=
  [Event.onResolve ErrorCode.success, Event.onConnect ErrorCode.success,
   Event.forward [1] 0,
   Event.onNewDataTimerCancelled ErrorCode.operation_aborted,
   Event.onRateTimerExpired ErrorCode.success,
   Event.handleTcpSend ErrorCode.success 5,
   Event.forward [2, 2] 0,
   Event.handleTcpSend ErrorCode.success 6,
   Event.onNewDataTimerCancelled ErrorCode.operation_aborted,
   Event.onRateTimerExpired ErrorCode.success,
   Event.forward [3, 3, 3] 0]

/-- A sender with a registered callback on which the pacer has acknowledged
the only frame sent and the write of that frame has not completed yet. -/
def rateFirstSender : StcpBundleSource :=
  run (callbackSender 2)
    [Event.forward [1] 0, Event.onNewDataTimerCancelled ErrorCode.operation_aborted,
     Event.onRateTimerExpired ErrorCode.success]

/-- A sender with a registered callback on which the write of the only frame
sent has completed and the rate timer for that frame is still running. -/
def transportFirstSender : StcpBundleSource :=
  run (callbackSender 2)
    [Event.forward [1] 0, Event.handleTcpSend ErrorCode.success 5,
     Event.onNewDataTimerCancelled ErrorCode.operation_aborted]

/-- A connected sender on which the pacer has moved the only frame sent into
the pending batch and armed the rate timer. -/
def pacingSender : StcpBundleSource :=
  run (connectedSender 2)
    [Event.forward [1] 0, Event.onNewDataTimerCancelled ErrorCode.operation_aborted]

/-- A connected sender whose rate timer was armed for the only frame sent and
then reported as cancelled. -/
def cancelledPacingSender : StcpBundleSource :=
  run (connectedSender 2)
    [Event.forward [1] 0, Event.onNewDataTimerCancelled ErrorCode.operation_aborted,
     Event.onRateTimerExpired ErrorCode.operation_aborted]

/-- A run of a sender with two slots per ring in which three frames are
admitted, so that the third frame reuses the slot of the first: the frames have
5, 6 and 7 framed bytes; the pacer credits the first two as one batch and has
the third in its pending batch, and all three writes complete. -/
def wrapAroundRun : List Event :=
  [Event.onResolve ErrorCode.success, Event.onConnect ErrorCode.success,
   Event.forward [1] 0, Event.forward [2, 2] 0,
   Event.onNewDataTimerCancelled ErrorCode.operation_aborted,
   Event.handleTcpSend ErrorCode.success 5,
   Event.onRateTimerExpired ErrorCode.success,
   Event.forward [3, 3, 3] 0,
   Event.handleTcpSend ErrorCode.success 6,
   Event.handleTcpSend ErrorCode.success 7,
   Event.onNewDataTimerCancelled ErrorCode.operation_aborted]

/-! ## The delays of the pacer -/

/-- The delay that the loop of the pacer accumulates over a list of stored
lengths: the delay of each entry in whole microseconds, summed. -/
def accumulatedDelayMicroSec (rateBps : Nat) (entries : List Nat) : Nat :=
  (entries.map (delayMicroSecOf rateBps)).sum

/-- The delay of a batch computed as one value and truncated once: the bits of
the whole batch times 10^6 over the rate, in whole microseconds. -/
def delayAsOneValueMicroSec (rateBps : Nat) (batch : List Nat) : Nat :=
  batch.sum * 8 * 1000000 / rateBps

/-- A connected sender with rate `rateBps` and `maxUnacked` slots per ring
after admitting the given payloads, before any handler has run. -/
def queuedSender (rateBps maxUnacked : Nat) (payloads : List (List Nat)) : StcpBundleSource :=
  run (StcpBundleSource.init 10 rateBps maxUnacked)
    ([Event.onResolve ErrorCode.success, Event.onConnect ErrorCode.success]
      ++ payloads.map (fun p => Event.forward p 0))

/-! ## Reading data units -/

/-- Reading one data unit off the front of a byte stream: the first four bytes
taken as a big-endian number, then that many bytes as the payload, and the rest
of the stream; `none` if the stream ends before that. -/
def readDataUnit : List Nat → Option (List Nat × List Nat)
  | b0 :: b1 :: b2 :: b3 :: stream =>
    let sizeContents := b0 * 16777216 + b1 * 65536 + b2 * 256 + b3
    if sizeContents ≤ stream.length then
      some (stream.take sizeContents, stream.drop sizeContents)
    else none
  | _ => none

/-- The concatenation of the data units of a list of payloads. -/
def dataUnits (payloads : List (List Nat)) : List Nat :=
  (payloads.map (fun p => GenerateDataUnit p p.length)).flatten

/-! ## Timed runs -/

/-- Whether the handler run for event `e` on the sender `s` arms the rate
timer.  Only the pacer arms it, the pacer runs in the handler of the signaler
and in the handler of the rate timer, and it leaves the timer running exactly
when it has armed it. -/
def armsRateTimer (s : StcpBundleSource) : Event → Bool
  | Event.onNewDataTimerCancelled e =>
    !s.m_rateTimerIsRunning && (OnNewData_TimerCancelled s e).m_rateTimerIsRunning
  | Event.onRateTimerExpired e => (OnRate_TimerExpired s e).m_rateTimerIsRunning
  | _ => false

/-- Whether event `e` may happen at time `t` on the sender `s` whose rate timer
was last armed at time `armedAt`, all times in microseconds: a rate-timer expiry
that is not cancelled needs an armed timer and happens no earlier than the
delay of the timer after it was armed; every other event may happen at any
time. -/
def mayHappenAt (s : StcpBundleSource) (armedAt t : Nat) : Event → Bool
  | Event.onRateTimerExpired e =>
    decide (e = ErrorCode.operation_aborted) ||
      match s.m_rateTimer with
      | some delayMicroSec => decide (armedAt + delayMicroSec ≤ t)
      | none => false
  | _ => true

/-- A timed run, a list of events each with its time in microseconds, is
admissible from the sender `s` at time `now` with the rate timer last armed at
`armedAt` when the times do not decrease and every event may happen at its
time. -/
def timedAdmissible : StcpBundleSource → Nat → Nat → List (Nat × Event) → Bool
  | _, _, _, [] => true
  | s, now, armedAt, (t, e) :: events =>
    decide (now ≤ t) && mayHappenAt s armedAt t e
      && timedAdmissible (step s e) t (if armsRateTimer s e then t else armedAt) events

/-- The batch that event `e` at time `t` credits inside the window from
`windowStart` to `windowEnd`, as a list of at most one batch: a rate-timer
expiry that is not cancelled credits the pending batch, if there is one. -/
def creditedAt (windowStart windowEnd : Nat) (s : StcpBundleSource) (t : Nat) :
    Event → List (List Nat)
  | Event.onRateTimerExpired e =>
    if e ≠ ErrorCode.operation_aborted ∧ windowStart ≤ t ∧ t ≤ windowEnd
        ∧ s.m_groupingOfBytesToAckByRateVec ≠ [] then
      [s.m_groupingOfBytesToAckByRateVec]
    else []
  | _ => []

/-- The batches that the rate-timer expiries of a timed run credit at times
from `windowStart` to `windowEnd`, in the order of the expiries. -/
def creditedInWindow (windowStart windowEnd : Nat) :
    StcpBundleSource → List (Nat × Event) → List (List Nat)
  | _, [] => []
  | s, (t, e) :: events =>
    creditedAt windowStart windowEnd s t e
      ++ creditedInWindow windowStart windowEnd (step s e) events

/-- What every handler keeps about an armed rate timer: the timer is marked as
running, and its delay is the delay accumulated over the pending batch. -/
def PacerKept (s : StcpBundleSource) : Prop :=
  ∀ delayMicroSec, s.m_rateTimer = some delayMicroSec →
    s.m_rateTimerIsRunning = true ∧
    delayMicroSec
      = accumulatedDelayMicroSec s.M_RATE_BITS_PER_SEC s.m_groupingOfBytesToAckByRateVec

/-- A timed run at 3 bit/s: three payloads of one byte are admitted at time 0
and the pacer is run; each frame of 5 bytes has a delay of 13,333,333
microseconds after truncation, and the three rate-timer expiries happen as
early as the timer allows. -/
def slowTimedRun : List (Nat × Event) :=
  [(0, Event.onResolve ErrorCode.success), (0, Event.onConnect ErrorCode.success),
   (0, Event.forward [1] 0), (0, Event.forward [2] 0), (0, Event.forward [3] 0),
   (0, Event.onNewDataTimerCancelled ErrorCode.operation_aborted),
   (13333333, Event.onRateTimerExpired ErrorCode.success),
   (26666666, Event.onRateTimerExpired ErrorCode.success),
   (39999999, Event.onRateTimerExpired ErrorCode.success)]

end Stcp

/-! ## The forward-list queue -/

/-- The queue of `ForwardListQueue.h`.  The nodes of the `std::forward_list`
are listed first to last, each with its address and the element it holds; the
iterator `m_flLastIt` is the address of the node it points to, `none` for the
value-initialised iterator that the constructors leave; `nextNode` is the
address the allocator hands out next. -/
structure ForwardListQueue (T : Type) where
  m_fl : List (Nat × T)
  m_flLastIt : Option Nat
  nextNode : Nat
deriving DecidableEq, Repr

namespace ForwardListQueue

variable {T : Type}

/-- The result of `std::forward_list::insert_after` (and `emplace_after`): the
list with `node` linked in behind the node at address `pos`; `none` (undefined
behaviour) when `pos` is not the address of a node of the list. -/
def insert_after : List (Nat × T) → Nat → Nat × T → Option (List (Nat × T))
  | [], _, _ => none
  | n :: fl, pos, node =>
    if n.1 = pos then some (n :: node :: fl)
    else (insert_after fl pos node).map (fun fl => n :: fl)

/-- The default constructor. -/
def init : ForwardListQueue T :=
  { m_fl := [], m_flLastIt := none, nextNode := 0 }

/-- The constructor from an initializer list: it fills `m_fl` and does not
touch `m_flLastIt`. -/
def initFromList (init : List T) : ForwardListQueue T :=
  { m_fl := (List.range init.length).zip init, m_flLastIt := none, nextNode := init.length }

/-- The member `push_back`; `none` when it dereferences an iterator that points
to no node. -/
def push_back (q : ForwardListQueue T) (val : T) : Option (ForwardListQueue T) :=
  if q.m_fl.isEmpty then
    some { m_fl := [(q.nextNode, val)], m_flLastIt := some q.nextNode,
           nextNode := q.nextNode + 1 }
  else
    match q.m_flLastIt with
    | none => none
    | some pos =>
      match insert_after q.m_fl pos (q.nextNode, val) with
      | none => none
      | some fl => some { m_fl := fl, m_flLastIt := some q.nextNode, nextNode := q.nextNode + 1 }

/-- The member `emplace_back`, which has the body of `push_back` with the
element constructed in place. -/
def emplace_back (q : ForwardListQueue T) (val : T) : Option (ForwardListQueue T) :=
  if q.m_fl.isEmpty then
    some { m_fl := [(q.nextNode, val)], m_flLastIt := some q.nextNode,
           nextNode := q.nextNode + 1 }
  else
    match q.m_flLastIt with
    | none => none
    | some pos =>
      match insert_after q.m_fl pos (q.nextNode, val) with
      | none => none
      | some fl => some { m_fl := fl, m_flLastIt := some q.nextNode, nextNode := q.nextNode + 1 }

/-- The member `push_front`. -/
def push_front (q : ForwardListQueue T) (val : T) : ForwardListQueue T :=
  let wasEmpty := q.m_fl.isEmpty
  { m_fl := (q.nextNode, val) :: q.m_fl
    m_flLastIt := if wasEmpty then some q.nextNode else q.m_flLastIt
    nextNode := q.nextNode + 1 }

/-- The member `emplace_front`, which has the body of `push_front` with the
element constructed in place. -/
def emplace_front (q : ForwardListQueue T) (val : T) : ForwardListQueue T :=
  let wasEmpty := q.m_fl.isEmpty
  { m_fl := (q.nextNode, val) :: q.m_fl
    m_flLastIt := if wasEmpty then some q.nextNode else q.m_flLastIt
    nextNode := q.nextNode + 1 }

/-- The member `front`; `none` on an empty list. -/
def front (q : ForwardListQueue T) : Option T :=
  q.m_fl.head?.map Prod.snd

/-- The member `back`, the element of the node `m_flLastIt` points to; `none`
when it points to no node of the list. -/
def back (q : ForwardListQueue T) : Option T :=
  match q.m_flLastIt with
  | none => none
  | some pos => (q.m_fl.find? (fun n => decide (n.1 = pos))).map Prod.snd

/-- The member `pop`; `none` on an empty list. -/
def pop (q : ForwardListQueue T) : Option (ForwardListQueue T) :=
  match q.m_fl with
  | [] => none
  | _ :: fl => some { q with m_fl := fl }

/-- The member `clear`. -/
def clear (q : ForwardListQueue T) : ForwardListQueue T :=
  { q with m_fl := [] }

/-- The member `empty`. -/
def empty (q : ForwardListQueue T) : Bool :=
  q.m_fl.isEmpty

/-- The elements of the queue, first to last. -/
def elements (q : ForwardListQueue T) : List T :=
  q.m_fl.map Prod.snd

/-- One call of a member that changes the queue. -/
inductive Op (T : Type) where
  | push_back (val : T)
  | emplace_back (val : T)
  | push_front (val : T)
  | emplace_front (val : T)
  | pop
  | clear
deriving DecidableEq, Repr

/-- The queue after one call; `none` when the call has undefined behaviour. -/
def apply (q : ForwardListQueue T) : Op T → Option (ForwardListQueue T)
  | Op.push_back val => q.push_back val
  | Op.emplace_back val => q.emplace_back val
  | Op.push_front val => some (q.push_front val)
  | Op.emplace_front val => some (q.emplace_front val)
  | Op.pop => q.pop
  | Op.clear => some q.clear

/-- The queue after a list of calls, oldest first. -/
def runOps (q : ForwardListQueue T) : List (Op T) → Option (ForwardListQueue T)
  | [] => some q
  | op :: ops =>
    match q.apply op with
    | none => none
    | some q => runOps q ops

/-- What the members keep on a queue that was default-constructed: the nodes
have distinct addresses that the allocator has handed out, and on a non-empty
list `m_flLastIt` points to the last node. -/
def Linked (q : ForwardListQueue T) : Prop :=
  (q.m_fl.map Prod.fst).Nodup ∧ (∀ n ∈ q.m_fl, n.1 < q.nextNode) ∧
  (q.m_fl ≠ [] → q.m_flLastIt = q.m_fl.getLast?.map Prod.fst)

end ForwardListQueue

namespace Stcp

set_option maxRecDepth 100000

/-! ## Facts about the frame codec -/

theorem bigEndianBytes32_length (x : Nat) : (bigEndianBytes32 x).length = 4 := rfl

/-- With at least `n` bytes behind the pointer, the data unit is the four
length bytes followed by the first `n` bytes of the contents. -/
theorem GenerateDataUnit_eq_append (contents : List Nat) (n : Nat)
    (hn : n ≤ contents.length) :
    GenerateDataUnit contents n = bigEndianBytes32 n ++ contents.take n := by
  unfold GenerateDataUnit memcpy
  by_cases h0 : n = 0
  · subst h0
    simp [bigEndianBytes32]
  · simp only [ne_eq, h0, not_false_eq_true, if_true]
    simp [bigEndianBytes32, List.take_replicate, List.drop_replicate, hn]
    omega

theorem GenerateDataUnit_length (contents : List Nat) (n : Nat) (hn : n ≤ contents.length) :
    (GenerateDataUnit contents n).length = 4 + n := by
  rw [GenerateDataUnit_eq_append contents n hn]
  simp [bigEndianBytes32, hn]
  omega

/-! ## The three exits of `Forward` -/

/-- A sender that is not ready rejects the call and is left as it was. -/
theorem Forward_of_not_ready (s : StcpBundleSource) (bundleData : List Nat)
    (numUnackedBundles : Nat) (hready : s.m_readyToForward = false) :
    Forward s bundleData numUnackedBundles
      = { ret := false, state := s, numUnackedBundles := numUnackedBundles } := by
  simp [Forward, hready]

/-- A full rate ring rejects the call and the sender is left as it was. -/
theorem Forward_of_rate_full (s : StcpBundleSource) (bundleData : List Nat)
    (numUnackedBundles : Nat) (hfull : s.m_bytesToAckByRateCb.IsFull = true) :
    Forward s bundleData numUnackedBundles
      = { ret := false, state := s, numUnackedBundles := numUnackedBundles } := by
  unfold Forward
  by_cases hready : s.m_readyToForward = true
  · simp [hready, CircularIndexBuffer.GetIndexForWrite, hfull]
  · simp [hready]

/-- A full transport ring rejects the call and the sender is left as it was. -/
theorem Forward_of_transport_full (s : StcpBundleSource) (bundleData : List Nat)
    (numUnackedBundles : Nat) (hfull : s.m_bytesToAckByTcpSendCallbackCb.IsFull = true) :
    Forward s bundleData numUnackedBundles
      = { ret := false, state := s, numUnackedBundles := numUnackedBundles } := by
  unfold Forward
  by_cases hready : s.m_readyToForward = true
  · by_cases hrate : s.m_bytesToAckByRateCb.IsFull = true
    · simp [hready, CircularIndexBuffer.GetIndexForWrite, hrate]
    · simp [hready, CircularIndexBuffer.GetIndexForWrite, hrate, hfull]
  · simp [hready]

/-- A ready sender with a free slot in both rings admits the call; the new
sender is spelled out field by field. -/
theorem Forward_of_free (s : StcpBundleSource) (bundleData : List Nat)
    (numUnackedBundles : Nat) (hready : s.m_readyToForward = true)
    (hrate : s.m_bytesToAckByRateCb.IsFull = false)
    (htcp : s.m_bytesToAckByTcpSendCallbackCb.IsFull = false) :
    Forward s bundleData numUnackedBundles
      = { ret := true
          state := { s with
            m_totalDataSegmentsSent := s.m_totalDataSegmentsSent + 1
            m_totalBundleBytesSent := s.m_totalBundleBytesSent + bundleData.length
            m_totalStcpBytesSent := s.m_totalStcpBytesSent
              + (GenerateDataUnit bundleData (bundleData.length % 4294967296)).length
            m_bytesToAckByRateCbVec :=
              s.m_bytesToAckByRateCbVec.set s.m_bytesToAckByRateCb.tail
                ((GenerateDataUnit bundleData (bundleData.length % 4294967296)).length
                  % 4294967296)
            m_bytesToAckByRateCb := s.m_bytesToAckByRateCb.CommitWrite
            m_bytesToAckByTcpSendCallbackCbVec :=
              s.m_bytesToAckByTcpSendCallbackCbVec.set s.m_bytesToAckByTcpSendCallbackCb.tail
                ((GenerateDataUnit bundleData (bundleData.length % 4294967296)).length
                  % 4294967296)
            m_bytesToAckByTcpSendCallbackCb := s.m_bytesToAckByTcpSendCallbackCb.CommitWrite
            newDataSignalerCancelled := s.newDataSignalerCancelled || !s.m_rateTimerIsRunning
            m_dataServedAsKeepAlive := true
            asyncWrites := s.asyncWrites
              ++ [{ buffer := GenerateDataUnit bundleData (bundleData.length % 4294967296)
                    handler := WriteHandler.tcpSend }] }
          numUnackedBundles := 0 } := by
  unfold Forward
  cases hrun : s.m_rateTimerIsRunning <;>
    simp [hready, CircularIndexBuffer.GetIndexForWrite, hrate, htcp, SignalNewDataForwarded, hrun]

/-- The boolean `Forward` returns: true exactly for a ready sender with a free
slot in both rings. -/
theorem Forward_ret (s : StcpBundleSource) (bundleData : List Nat) (numUnackedBundles : Nat) :
    (Forward s bundleData numUnackedBundles).ret
      = (s.m_readyToForward && !s.m_bytesToAckByRateCb.IsFull
          && !s.m_bytesToAckByTcpSendCallbackCb.IsFull) := by
  cases hready : s.m_readyToForward
  · simp [Forward_of_not_ready s _ _ hready]
  · cases hrate : s.m_bytesToAckByRateCb.IsFull
    · cases htcp : s.m_bytesToAckByTcpSendCallbackCb.IsFull
      · simp [Forward_of_free s _ _ hready hrate htcp]
      · simp [Forward_of_transport_full s _ _ htcp]
    · simp [Forward_of_rate_full s _ _ hrate]

/-- The data unit `Forward` builds has four bytes more than the payload length
narrowed to 32 bits. -/
theorem GenerateDataUnit_length_mod (bundleData : List Nat) :
    (GenerateDataUnit bundleData (bundleData.length % 4294967296)).length
      = 4 + bundleData.length % 4294967296 :=
  GenerateDataUnit_length bundleData _ (Nat.mod_le _ _)

/-- The entry `Forward` stores in the side array of the rate ring, in terms of the
payload length alone. -/
theorem Forward_rate_slot (s : StcpBundleSource) (bundleData : List Nat)
    (numUnackedBundles : Nat) (hready : s.m_readyToForward = true)
    (hrate : s.m_bytesToAckByRateCb.IsFull = false)
    (htcp : s.m_bytesToAckByTcpSendCallbackCb.IsFull = false) :
    (Forward s bundleData numUnackedBundles).state.m_bytesToAckByRateCbVec
      = s.m_bytesToAckByRateCbVec.set s.m_bytesToAckByRateCb.tail
          ((4 + bundleData.length % 4294967296) % 4294967296) := by
  rw [Forward_of_free s bundleData numUnackedBundles hready hrate htcp,
    GenerateDataUnit_length_mod]

/-- The entry `Forward` stores in the side array of the transport ring. -/
theorem Forward_transport_slot (s : StcpBundleSource) (bundleData : List Nat)
    (numUnackedBundles : Nat) (hready : s.m_readyToForward = true)
    (hrate : s.m_bytesToAckByRateCb.IsFull = false)
    (htcp : s.m_bytesToAckByTcpSendCallbackCb.IsFull = false) :
    (Forward s bundleData numUnackedBundles).state.m_bytesToAckByTcpSendCallbackCbVec
      = s.m_bytesToAckByTcpSendCallbackCbVec.set s.m_bytesToAckByTcpSendCallbackCb.tail
          ((4 + bundleData.length % 4294967296) % 4294967296) := by
  rw [Forward_of_free s bundleData numUnackedBundles hready hrate htcp,
    GenerateDataUnit_length_mod]

/-- The growth of `m_totalStcpBytesSent` in an admitted call. -/
theorem Forward_framed_bytes (s : StcpBundleSource) (bundleData : List Nat)
    (numUnackedBundles : Nat) (hready : s.m_readyToForward = true)
    (hrate : s.m_bytesToAckByRateCb.IsFull = false)
    (htcp : s.m_bytesToAckByTcpSendCallbackCb.IsFull = false) :
    (Forward s bundleData numUnackedBundles).state.m_totalStcpBytesSent
      = s.m_totalStcpBytesSent + (4 + bundleData.length % 4294967296) := by
  rw [Forward_of_free s bundleData numUnackedBundles hready hrate htcp,
    GenerateDataUnit_length_mod]

/-- The lengths of the posted writes after an admitted call. -/
theorem Forward_write_lengths (s : StcpBundleSource) (bundleData : List Nat)
    (numUnackedBundles : Nat) (hready : s.m_readyToForward = true)
    (hrate : s.m_bytesToAckByRateCb.IsFull = false)
    (htcp : s.m_bytesToAckByTcpSendCallbackCb.IsFull = false) :
    (Forward s bundleData numUnackedBundles).state.asyncWrites.map (fun w => w.buffer.length)
      = s.asyncWrites.map (fun w => w.buffer.length) ++ [4 + bundleData.length % 4294967296] := by
  rw [Forward_of_free s bundleData numUnackedBundles hready hrate htcp]
  simp only [List.map_append, List.map_cons, List.map_nil, GenerateDataUnit_length_mod]

/-- A completion whose byte count differs from the stored entry leaves the
sender as it was. -/
theorem HandleTcpSend_of_mismatch (s : StcpBundleSource) (bytes_transferred readIndex : Nat)
    (hread : s.m_bytesToAckByTcpSendCallbackCb.GetIndexForRead = some readIndex)
    (hne : s.m_bytesToAckByTcpSendCallbackCbVec.getD readIndex 0 ≠ bytes_transferred) :
    HandleTcpSend s ErrorCode.success bytes_transferred = s := by
  unfold HandleTcpSend
  simp only [ne_eq, not_true_eq_false, if_false, hread]
  rw [if_neg hne]

/-! ## Facts about runs -/

/-- The loop of the pacer changes only the rate ring and the pending batch. -/
theorem TryRestartRateTimer.loop_frame (fuel : Nat) (s : StcpBundleSource) (delayMicroSec : Nat) :
    ∃ cb g, (TryRestartRateTimer.loop fuel s delayMicroSec).1
      = { s with m_bytesToAckByRateCb := cb, m_groupingOfBytesToAckByRateVec := g } := by
  induction fuel generalizing s delayMicroSec with
  | zero => exact ⟨s.m_bytesToAckByRateCb, s.m_groupingOfBytesToAckByRateVec, rfl⟩
  | succ fuel ih =>
    unfold TryRestartRateTimer.loop
    cases hread : s.m_bytesToAckByRateCb.GetIndexForRead with
    | none => exact ⟨s.m_bytesToAckByRateCb, s.m_groupingOfBytesToAckByRateVec, rfl⟩
    | some readIndex =>
      simp only
      split
      · exact ⟨_, _, rfl⟩
      · obtain ⟨cb, g, h⟩ := ih
          { s with
            m_bytesToAckByRateCb := s.m_bytesToAckByRateCb.CommitRead
            m_groupingOfBytesToAckByRateVec :=
              s.m_groupingOfBytesToAckByRateVec ++ [s.m_bytesToAckByRateCbVec.getD readIndex 0] }
          (delayMicroSec
            + delayMicroSecOf s.M_RATE_BITS_PER_SEC (s.m_bytesToAckByRateCbVec.getD readIndex 0))
        exact ⟨cb, g, h⟩

/-- The pacer changes only the rate ring, the pending batch and the rate
timer. -/
theorem TryRestartRateTimer_frame (s : StcpBundleSource) :
    ∃ cb g t running, TryRestartRateTimer s
      = { s with
          m_bytesToAckByRateCb := cb
          m_groupingOfBytesToAckByRateVec := g
          m_rateTimer := t
          m_rateTimerIsRunning := running } := by
  unfold TryRestartRateTimer
  split
  · obtain ⟨cb, g, h⟩ := TryRestartRateTimer.loop_frame s.m_bytesToAckByRateCb.len s 0
    simp only
    split
    · rw [h]; exact ⟨_, _, _, _, rfl⟩
    · rw [h]; exact ⟨_, _, _, _, rfl⟩
  · exact ⟨_, _, _, _, rfl⟩

/-- The pacer posts no write. -/
theorem TryRestartRateTimer_asyncWrites (s : StcpBundleSource) :
    (TryRestartRateTimer s).asyncWrites = s.asyncWrites := by
  obtain ⟨cb, g, t, running, h⟩ := TryRestartRateTimer_frame s
  rw [h]

/-- The pacer leaves the transport ring alone. -/
theorem TryRestartRateTimer_transport_ring (s : StcpBundleSource) :
    (TryRestartRateTimer s).m_bytesToAckByTcpSendCallbackCb = s.m_bytesToAckByTcpSendCallbackCb := by
  obtain ⟨cb, g, t, running, h⟩ := TryRestartRateTimer_frame s
  rw [h]

/-- The shutdown path posts no write. -/
theorem DoStcpShutdown_asyncWrites (s : StcpBundleSource) :
    (DoStcpShutdown s).asyncWrites = s.asyncWrites := by
  unfold DoStcpShutdown
  simp only
  split <;> rfl

/-- The shutdown path leaves the transport ring alone. -/
theorem DoStcpShutdown_transport_ring (s : StcpBundleSource) :
    (DoStcpShutdown s).m_bytesToAckByTcpSendCallbackCb = s.m_bytesToAckByTcpSendCallbackCb := by
  unfold DoStcpShutdown
  simp only
  split <;> rfl

/-- What an admitted call of `Forward` adds to the posted writes. -/
theorem Forward_asyncWrites (s : StcpBundleSource) (bundleData : List Nat)
    (numUnackedBundles : Nat) :
    (Forward s bundleData numUnackedBundles).state.asyncWrites
      = if (Forward s bundleData numUnackedBundles).ret then
          s.asyncWrites
            ++ [{ buffer := GenerateDataUnit bundleData (bundleData.length % 4294967296)
                  handler := WriteHandler.tcpSend }]
        else s.asyncWrites := by
  cases hready : s.m_readyToForward
  · simp [Forward_of_not_ready s _ _ hready]
  · cases hrate : s.m_bytesToAckByRateCb.IsFull
    · cases htcp : s.m_bytesToAckByTcpSendCallbackCb.IsFull
      · simp [Forward_of_free s _ _ hready hrate htcp]
      · simp [Forward_of_transport_full s _ _ htcp]
    · simp [Forward_of_rate_full s _ _ hrate]

/-- The keep-alive handler posts nothing or the four zero bytes. -/
theorem OnNeedToSendKeepAliveMessage_TimerExpired_asyncWrites (s : StcpBundleSource)
    (e : ErrorCode) :
    (OnNeedToSendKeepAliveMessage_TimerExpired s e).asyncWrites = s.asyncWrites ∨
    (OnNeedToSendKeepAliveMessage_TimerExpired s e).asyncWrites
      = s.asyncWrites ++ [{ buffer := [0, 0, 0, 0], handler := WriteHandler.tcpSendKeepAlive }] := by
  unfold OnNeedToSendKeepAliveMessage_TimerExpired
  by_cases he : e = ErrorCode.operation_aborted
  · simp [he]
  · cases hsock : s.m_tcpSocketPtr <;> cases hserved : s.m_dataServedAsKeepAlive <;>
      simp [he, hsock, hserved]

/-- Only `Forward` and the keep-alive handler post writes. -/
theorem step_asyncWrites (s : StcpBundleSource) (e : Event)
    (hforward : ∀ bundleData numUnackedBundles, e ≠ Event.forward bundleData numUnackedBundles)
    (htick : ∀ ec, e ≠ Event.onNeedToSendKeepAliveMessageTimerExpired ec) :
    (step s e).asyncWrites = s.asyncWrites := by
  cases e with
  | forward bundleData numUnackedBundles => exact absurd rfl (hforward _ _)
  | setOnSuccessfulAckCallback => rfl
  | onResolve ec =>
    simp only [step, OnResolve]
    split <;> rfl
  | onConnect ec =>
    simp only [step, OnConnect]
    split <;> rfl
  | handleTcpSend error bytes_transferred =>
    simp only [step, HandleTcpSend]
    repeat' split
    all_goals first | rfl | exact DoStcpShutdown_asyncWrites s
  | handleTcpSendKeepAlive error =>
    simp only [step, HandleTcpSendKeepAlive]
    repeat' split
    all_goals first | rfl | exact DoStcpShutdown_asyncWrites s
  | handleTcpReceiveSome error =>
    simp only [step, HandleTcpReceiveSome]
    repeat' split
    all_goals first | rfl | exact DoStcpShutdown_asyncWrites s
  | onNewDataTimerCancelled ec =>
    simp only [step, OnNewData_TimerCancelled]
    split
    · rw [TryRestartRateTimer_asyncWrites]
    · rfl
  | onRateTimerExpired ec =>
    simp only [step, OnRate_TimerExpired]
    split
    · split
      · rw [TryRestartRateTimer_asyncWrites]
        split <;> rfl
      · rfl
    · rfl
  | onNeedToSendKeepAliveMessageTimerExpired ec => exact absurd rfl (htick _)

/-- A run starts with its first event. -/
theorem run_cons (s : StcpBundleSource) (e : Event) (events : List Event) :
    run s (e :: events) = run (step s e) events := rfl

/-- An event other than a call of `Forward` admits no payload. -/
theorem admitted_cons_of_not_forward (s : StcpBundleSource) (e : Event) (events : List Event)
    (hforward : ∀ bundleData numUnackedBundles, e ≠ Event.forward bundleData numUnackedBundles) :
    admitted s (e :: events) = admitted (step s e) events := by
  cases e <;> first | rfl | exact absurd rfl (hforward _ _)

/-- The data stream after one call of `Forward`. -/
theorem dataStream_Forward (s : StcpBundleSource) (bundleData : List Nat)
    (numUnackedBundles : Nat) :
    dataStream (Forward s bundleData numUnackedBundles).state
      = dataStream s
        ++ (if (Forward s bundleData numUnackedBundles).ret then
              GenerateDataUnit bundleData (bundleData.length % 4294967296)
            else []) := by
  unfold dataStream
  rw [Forward_asyncWrites]
  split <;> simp

/-- The whole socket stream after one call of `Forward`. -/
theorem socketStream_Forward (s : StcpBundleSource) (bundleData : List Nat)
    (numUnackedBundles : Nat) :
    socketStream (Forward s bundleData numUnackedBundles).state
      = socketStream s
        ++ (if (Forward s bundleData numUnackedBundles).ret then
              GenerateDataUnit bundleData (bundleData.length % 4294967296)
            else []) := by
  unfold socketStream
  rw [Forward_asyncWrites]
  split <;> simp

/-- No handler other than `Forward` adds to the data stream. -/
theorem dataStream_step_of_not_forward (s : StcpBundleSource) (e : Event)
    (hforward : ∀ bundleData numUnackedBundles, e ≠ Event.forward bundleData numUnackedBundles) :
    dataStream (step s e) = dataStream s := by
  by_cases htick : ∀ ec, e ≠ Event.onNeedToSendKeepAliveMessageTimerExpired ec
  · unfold dataStream
    rw [step_asyncWrites s e hforward htick]
  · push_neg at htick
    obtain ⟨ec, rfl⟩ := htick
    unfold dataStream
    simp only [step]
    rcases OnNeedToSendKeepAliveMessage_TimerExpired_asyncWrites s ec with h | h <;>
      rw [h]
    simp

/-- With a payload length that fits 32 bits, the data unit `Forward` builds is
the four length bytes followed by the whole payload. -/
theorem GenerateDataUnit_of_small (bundleData : List Nat) (hlen : bundleData.length ≤ 4294967295) :
    GenerateDataUnit bundleData (bundleData.length % 4294967296)
      = bigEndianBytes32 bundleData.length ++ bundleData := by
  rw [Nat.mod_eq_of_lt (by omega), GenerateDataUnit_eq_append bundleData _ (Nat.le_refl _),
    List.take_length]

/-- The data stream of a run whose payloads fit the 32-bit length. -/
theorem dataStream_run (s : StcpBundleSource) (events : List Event)
    (hlen : ∀ bundleData numUnackedBundles,
      Event.forward bundleData numUnackedBundles ∈ events → bundleData.length ≤ 4294967295) :
    dataStream (run s events)
      = dataStream s
        ++ ((admitted s events).map (fun p => bigEndianBytes32 p.length ++ p)).flatten := by
  induction events generalizing s with
  | nil => simp [run, admitted]
  | cons e events ih =>
    have hrest : ∀ bundleData numUnackedBundles,
        Event.forward bundleData numUnackedBundles ∈ events → bundleData.length ≤ 4294967295 :=
      fun b n hmem => hlen b n (List.mem_cons_of_mem _ hmem)
    rw [run_cons, ih (step s e) hrest]
    by_cases hforward : ∀ bundleData numUnackedBundles,
        e ≠ Event.forward bundleData numUnackedBundles
    · rw [dataStream_step_of_not_forward s e hforward,
        admitted_cons_of_not_forward s e events hforward]
    · push_neg at hforward
      obtain ⟨bundleData, numUnackedBundles, rfl⟩ := hforward
      have hsmall := hlen bundleData numUnackedBundles (List.mem_cons_self _ _)
      simp only [step, admitted]
      rw [dataStream_Forward, GenerateDataUnit_of_small bundleData hsmall]
      split <;> simp

/-- The whole socket stream of a run without keep-alive ticks whose payloads fit
the 32-bit length. -/
theorem socketStream_run (s : StcpBundleSource) (events : List Event)
    (hlen : ∀ bundleData numUnackedBundles,
      Event.forward bundleData numUnackedBundles ∈ events → bundleData.length ≤ 4294967295)
    (htick : ∀ ec, Event.onNeedToSendKeepAliveMessageTimerExpired ec ∉ events) :
    socketStream (run s events)
      = socketStream s
        ++ ((admitted s events).map (fun p => bigEndianBytes32 p.length ++ p)).flatten := by
  induction events generalizing s with
  | nil => simp [run, admitted]
  | cons e events ih =>
    have hrest : ∀ bundleData numUnackedBundles,
        Event.forward bundleData numUnackedBundles ∈ events → bundleData.length ≤ 4294967295 :=
      fun b n hmem => hlen b n (List.mem_cons_of_mem _ hmem)
    have htickrest : ∀ ec, Event.onNeedToSendKeepAliveMessageTimerExpired ec ∉ events :=
      fun ec hmem => htick ec (List.mem_cons_of_mem _ hmem)
    have hhead : ∀ ec, e ≠ Event.onNeedToSendKeepAliveMessageTimerExpired ec :=
      fun ec heq => htick ec (heq ▸ List.mem_cons_self _ _)
    rw [run_cons, ih (step s e) hrest htickrest]
    by_cases hforward : ∀ bundleData numUnackedBundles,
        e ≠ Event.forward bundleData numUnackedBundles
    · rw [admitted_cons_of_not_forward s e events hforward]
      unfold socketStream
      rw [step_asyncWrites s e hforward hhead]
    · push_neg at hforward
      obtain ⟨bundleData, numUnackedBundles, rfl⟩ := hforward
      have hsmall := hlen bundleData numUnackedBundles (List.mem_cons_self _ _)
      simp only [step, admitted]
      rw [socketStream_Forward, GenerateDataUnit_of_small bundleData hsmall]
      split <;> simp

/-- Every write bound to the keep-alive completion handler that a run adds is
the four zero bytes. -/
theorem keepAlive_writes_run (s : StcpBundleSource) (events : List Event) :
    ∀ w ∈ (run s events).asyncWrites, w.handler = WriteHandler.tcpSendKeepAlive →
      w ∈ s.asyncWrites ∨ w.buffer = [0, 0, 0, 0] := by
  induction events generalizing s with
  | nil => intro w hw _; exact Or.inl hw
  | cons e events ih =>
    intro w hw hka
    rw [run_cons] at hw
    rcases ih (step s e) w hw hka with h | h
    · by_cases hforward : ∀ bundleData numUnackedBundles,
          e ≠ Event.forward bundleData numUnackedBundles
      · by_cases htick : ∀ ec, e ≠ Event.onNeedToSendKeepAliveMessageTimerExpired ec
        · rw [step_asyncWrites s e hforward htick] at h
          exact Or.inl h
        · push_neg at htick
          obtain ⟨ec, rfl⟩ := htick
          simp only [step] at h
          rcases OnNeedToSendKeepAliveMessage_TimerExpired_asyncWrites s ec with h2 | h2
          · rw [h2] at h; exact Or.inl h
          · rw [h2] at h
            rcases List.mem_append.mp h with h3 | h3
            · exact Or.inl h3
            · right
              rw [List.mem_singleton.mp h3]
      · push_neg at hforward
        obtain ⟨bundleData, numUnackedBundles, rfl⟩ := hforward
        simp only [step] at h
        rw [Forward_asyncWrites] at h
        split at h
        · rcases List.mem_append.mp h with h3 | h3
          · exact Or.inl h3
          · rw [List.mem_singleton.mp h3] at hka
            simp at hka
        · exact Or.inl h
    · exact Or.inr h

/-- What a call of `Forward` does to the transport ring. -/
theorem Forward_transport_ring (s : StcpBundleSource) (bundleData : List Nat)
    (numUnackedBundles : Nat) :
    (Forward s bundleData numUnackedBundles).state.m_bytesToAckByTcpSendCallbackCb
      = if (Forward s bundleData numUnackedBundles).ret then
          s.m_bytesToAckByTcpSendCallbackCb.CommitWrite
        else s.m_bytesToAckByTcpSendCallbackCb := by
  cases hready : s.m_readyToForward
  · simp [Forward_of_not_ready s _ _ hready]
  · cases hrate : s.m_bytesToAckByRateCb.IsFull
    · cases htcp : s.m_bytesToAckByTcpSendCallbackCb.IsFull
      · simp [Forward_of_free s _ _ hready hrate htcp]
      · simp [Forward_of_transport_full s _ _ htcp]
    · simp [Forward_of_rate_full s _ _ hrate]

/-- Only `Forward` and the completion of a data write touch the transport
ring. -/
theorem step_transport_ring (s : StcpBundleSource) (e : Event)
    (hforward : ∀ bundleData numUnackedBundles, e ≠ Event.forward bundleData numUnackedBundles)
    (hsend : ∀ error bytes_transferred, e ≠ Event.handleTcpSend error bytes_transferred) :
    (step s e).m_bytesToAckByTcpSendCallbackCb = s.m_bytesToAckByTcpSendCallbackCb := by
  cases e with
  | forward bundleData numUnackedBundles => exact absurd rfl (hforward _ _)
  | setOnSuccessfulAckCallback => rfl
  | onResolve ec =>
    simp only [step, OnResolve]
    split <;> rfl
  | onConnect ec =>
    simp only [step, OnConnect]
    split <;> rfl
  | handleTcpSend error bytes_transferred => exact absurd rfl (hsend _ _)
  | handleTcpSendKeepAlive error =>
    simp only [step, HandleTcpSendKeepAlive]
    repeat' split
    all_goals first | rfl | exact DoStcpShutdown_transport_ring s
  | handleTcpReceiveSome error =>
    simp only [step, HandleTcpReceiveSome]
    repeat' split
    all_goals first | rfl | exact DoStcpShutdown_transport_ring s
  | onNewDataTimerCancelled ec =>
    simp only [step, OnNewData_TimerCancelled]
    split
    · rw [TryRestartRateTimer_transport_ring]
    · rfl
  | onRateTimerExpired ec =>
    simp only [step, OnRate_TimerExpired]
    split
    · split
      · rw [TryRestartRateTimer_transport_ring]
        split <;> rfl
      · rfl
    · rfl
  | onNeedToSendKeepAliveMessageTimerExpired ec =>
    simp only [step, OnNeedToSendKeepAliveMessage_TimerExpired]
    repeat' split
    all_goals rfl

/-- No event changes the capacity of the transport ring. -/
theorem step_transport_capacity (s : StcpBundleSource) (e : Event) :
    (step s e).m_bytesToAckByTcpSendCallbackCb.capacity
      = s.m_bytesToAckByTcpSendCallbackCb.capacity := by
  by_cases hforward : ∀ bundleData numUnackedBundles,
      e ≠ Event.forward bundleData numUnackedBundles
  · by_cases hsend : ∀ error bytes_transferred,
        e ≠ Event.handleTcpSend error bytes_transferred
    · rw [step_transport_ring s e hforward hsend]
    · push_neg at hsend
      obtain ⟨error, bytes_transferred, rfl⟩ := hsend
      simp only [step, HandleTcpSend]
      repeat' split
      all_goals first | rfl | exact congrArg _ (DoStcpShutdown_transport_ring s)
  · push_neg at hforward
    obtain ⟨bundleData, numUnackedBundles, rfl⟩ := hforward
    simp only [step]
    rw [Forward_transport_ring]
    split <;> rfl

/-- No run changes the capacity of the transport ring. -/
theorem run_transport_capacity (s : StcpBundleSource) (events : List Event) :
    (run s events).m_bytesToAckByTcpSendCallbackCb.capacity
      = s.m_bytesToAckByTcpSendCallbackCb.capacity := by
  induction events generalizing s with
  | nil => rfl
  | cons e events ih => rw [run_cons, ih, step_transport_capacity]

/-- Without a completion of a data write, the transport ring grows by one entry
per admitted call. -/
theorem run_transport_len (s : StcpBundleSource) (events : List Event)
    (hsend : ∀ error bytes_transferred, Event.handleTcpSend error bytes_transferred ∉ events) :
    (run s events).m_bytesToAckByTcpSendCallbackCb.len
      = s.m_bytesToAckByTcpSendCallbackCb.len + (admitted s events).length := by
  induction events generalizing s with
  | nil => rfl
  | cons e events ih =>
    have hrest : ∀ error bytes_transferred,
        Event.handleTcpSend error bytes_transferred ∉ events :=
      fun error b hmem => hsend error b (List.mem_cons_of_mem _ hmem)
    have hhead : ∀ error bytes_transferred, e ≠ Event.handleTcpSend error bytes_transferred :=
      fun error b heq => hsend error b (heq ▸ List.mem_cons_self _ _)
    rw [run_cons, ih (step s e) hrest]
    by_cases hforward : ∀ bundleData numUnackedBundles,
        e ≠ Event.forward bundleData numUnackedBundles
    · rw [step_transport_ring s e hforward hhead,
        admitted_cons_of_not_forward s e events hforward]
    · push_neg at hforward
      obtain ⟨bundleData, numUnackedBundles, rfl⟩ := hforward
      simp only [step, admitted]
      rw [Forward_transport_ring]
      split
      · simp only [CircularIndexBuffer.CommitWrite, List.length_cons]
        omega
      · rfl

/-- Four bytes are not the frame of a non-empty payload. -/
theorem four_bytes_ne_frame (a b c d : Nat) (payload : List Nat) (hpos : 0 < payload.length) :
    [a, b, c, d] ≠ bigEndianBytes32 payload.length ++ payload := by
  intro h
  have hlen := congrArg List.length h
  simp only [List.length_append, bigEndianBytes32_length, List.length_cons,
    List.length_nil] at hlen
  omega

/-! ## The claims about framing and `Forward` -/

/-- C1: for every payload of length `n ≤ 2^32 - 1`, `GenerateDataUnit` yields
exactly `4 + n` bytes: four bytes `b0 b1 b2 b3`, each below 256, whose
big-endian value `b0·2^24 + b1·2^16 + b2·2^8 + b3` is `n`, followed by the
payload bytes in order. -/
theorem GenerateDataUnit_is_length_prefixed (contents : List Nat)
    (hlen : contents.length ≤ 4294967295) :
    (GenerateDataUnit contents contents.length).length = 4 + contents.length ∧
    ∃ b0 b1 b2 b3 : Nat,
      GenerateDataUnit contents contents.length = b0 :: b1 :: b2 :: b3 :: contents ∧
      b0 < 256 ∧ b1 < 256 ∧ b2 < 256 ∧ b3 < 256 ∧
      b0 * 16777216 + b1 * 65536 + b2 * 256 + b3 = contents.length := by
  refine ⟨GenerateDataUnit_length contents _ (Nat.le_refl _), ?_⟩
  refine ⟨contents.length / 16777216 % 256, contents.length / 65536 % 256,
    contents.length / 256 % 256, contents.length % 256, ?_, ?_, ?_, ?_, ?_, ?_⟩
  · rw [GenerateDataUnit_eq_append contents _ (Nat.le_refl _)]
    simp [bigEndianBytes32]
  all_goals omega

/-- C1 at the payload `AA BB CC`: the data unit is `00 00 00 03 AA BB CC`, seven
bytes. -/
theorem GenerateDataUnit_is_length_prefixed_witness :
    GenerateDataUnit [0xAA, 0xBB, 0xCC] 3 = [0, 0, 0, 3, 0xAA, 0xBB, 0xCC] ∧
    (GenerateDataUnit [0xAA, 0xBB, 0xCC] 3).length = 7 :=
  ⟨by decide, (GenerateDataUnit_is_length_prefixed [0xAA, 0xBB, 0xCC] (by decide)).1⟩

/-- C2, the claim refuted twice.  A connected sender admits a payload of `2^32`
bytes and hands the four bytes `00 00 00 00` to the socket, not the length
prefix followed by the payload.  And a connected sender that sees two
keep-alive ticks before its only `Forward` hands `00 00 00 00 00 00 00 01 AA`
to the socket, four bytes more than the frame of the admitted payload. -/
theorem socket_stream_is_not_only_frames :
    (Forward (connectedSender 2) (List.replicate 4294967296 0) 0).ret = true ∧
    socketStream (run (connectedSender 2) [Event.forward (List.replicate 4294967296 0) 0])
      = [0, 0, 0, 0] ∧
    socketStream (run (connectedSender 2) [Event.forward (List.replicate 4294967296 0) 0])
      ≠ bigEndianBytes32 (List.replicate 4294967296 0).length ++ List.replicate 4294967296 0 ∧
    admitted (connectedSender 2)
      [Event.onNeedToSendKeepAliveMessageTimerExpired ErrorCode.success,
       Event.onNeedToSendKeepAliveMessageTimerExpired ErrorCode.success,
       Event.forward [0xAA] 0] = [[0xAA]] ∧
    socketStream (run (connectedSender 2)
      [Event.onNeedToSendKeepAliveMessageTimerExpired ErrorCode.success,
       Event.onNeedToSendKeepAliveMessageTimerExpired ErrorCode.success,
       Event.forward [0xAA] 0]) = [0, 0, 0, 0, 0, 0, 0, 1, 0xAA] := by
  have hret : (Forward (connectedSender 2) (List.replicate 4294967296 0) 0).ret = true := by
    rw [Forward_ret]; decide
  have hstream : socketStream
      (run (connectedSender 2) [Event.forward (List.replicate 4294967296 0) 0])
        = [0, 0, 0, 0] := by
    show socketStream (Forward (connectedSender 2) (List.replicate 4294967296 0) 0).state = _
    rw [socketStream_Forward, hret, if_pos rfl, List.length_replicate,
      GenerateDataUnit_eq_append _ _ (Nat.zero_le _), List.take_zero]
    decide
  refine ⟨hret, hstream, ?_, by decide, by decide⟩
  rw [hstream]
  apply four_bytes_ne_frame
  rw [List.length_replicate]
  decide

/-- C2 as amended: in every run of the sender in which each payload given to
`Forward` has at most `2^32 - 1` bytes, the bytes of the data writes handed to
the socket are exactly the concatenation, in call order over the calls that
returned true, of the four big-endian length bytes and the payload (calls that
returned false add nothing); every other write the run adds is the four zero
bytes of the keep-alive handler; and in a run without keep-alive ticks the
whole stream handed to the socket is that concatenation. -/
theorem data_stream_is_frames_of_admitted (s : StcpBundleSource) (events : List Event)
    (hlen : ∀ bundleData numUnackedBundles,
      Event.forward bundleData numUnackedBundles ∈ events → bundleData.length ≤ 4294967295) :
    dataStream (run s events)
      = dataStream s
        ++ ((admitted s events).map (fun p => bigEndianBytes32 p.length ++ p)).flatten ∧
    (∀ w ∈ (run s events).asyncWrites, w.handler = WriteHandler.tcpSendKeepAlive →
      w ∈ s.asyncWrites ∨ w.buffer = [0, 0, 0, 0]) ∧
    ((∀ ec, Event.onNeedToSendKeepAliveMessageTimerExpired ec ∉ events) →
      socketStream (run s events)
        = socketStream s
          ++ ((admitted s events).map (fun p => bigEndianBytes32 p.length ++ p)).flatten) :=
  ⟨dataStream_run s events hlen, keepAlive_writes_run s events,
    socketStream_run s events hlen⟩

/-- C2 as amended, at a run of a connected sender with an admitted, a rejected
and an empty payload. -/
theorem data_stream_is_frames_of_admitted_witness :
    admitted (connectedSender 2) exampleRun = [[0xAA, 0xBB, 0xCC], [1], []] ∧
    dataStream (run (connectedSender 2) exampleRun)
      = [0, 0, 0, 3, 0xAA, 0xBB, 0xCC, 0, 0, 0, 1, 1, 0, 0, 0, 0] ∧
    dataStream (run (connectedSender 2) exampleRun)
      = dataStream (connectedSender 2)
        ++ ((admitted (connectedSender 2) exampleRun).map
              (fun p => bigEndianBytes32 p.length ++ p)).flatten :=
  ⟨by decide, by decide,
   (data_stream_is_frames_of_admitted (connectedSender 2) exampleRun (by
      intro bundleData numUnackedBundles hmem
      simp only [exampleRun, List.mem_cons, Event.forward.injEq, reduceCtorEq, false_or,
        List.mem_nil_iff, or_false] at hmem
      rcases hmem with ⟨rfl, _⟩ | ⟨rfl, _⟩ | ⟨rfl, _⟩ | ⟨rfl, _⟩ <;> decide)).1⟩

/-- C3, the claim refuted: a connected sender with free slots admits a payload
of `2^32` bytes, it does not return false. -/
theorem Forward_admits_oversized_payload :
    (connectedSender 2).m_readyToForward = true ∧
    (connectedSender 2).m_bytesToAckByRateCb.IsFull = false ∧
    (connectedSender 2).m_bytesToAckByTcpSendCallbackCb.IsFull = false ∧
    4294967295 < (List.replicate 4294967296 0).length ∧
    (Forward (connectedSender 2) (List.replicate 4294967296 0) 0).ret = true := by
  refine ⟨by decide, by decide, by decide, by rw [List.length_replicate]; decide, ?_⟩
  rw [Forward_ret]
  decide

/-- C3 as amended: `Forward` has no test of the payload length.  For a payload
longer than `2^32 - 1` bytes, a ready sender with a free slot in both rings
returns true, counts one more frame and the whole payload length in
`m_totalBundleBytesSent`, commits one entry to each ring and posts one write. -/
theorem Forward_has_no_length_check (s : StcpBundleSource) (bundleData : List Nat)
    (numUnackedBundles : Nat) (hlen : 4294967295 < bundleData.length)
    (hready : s.m_readyToForward = true)
    (hrate : s.m_bytesToAckByRateCb.IsFull = false)
    (htcp : s.m_bytesToAckByTcpSendCallbackCb.IsFull = false) :
    (Forward s bundleData numUnackedBundles).ret = true ∧
    (Forward s bundleData numUnackedBundles).state.m_totalDataSegmentsSent
      = s.m_totalDataSegmentsSent + 1 ∧
    (Forward s bundleData numUnackedBundles).state.m_totalBundleBytesSent
      = s.m_totalBundleBytesSent + bundleData.length ∧
    (Forward s bundleData numUnackedBundles).state.m_bytesToAckByRateCb.len
      = s.m_bytesToAckByRateCb.len + 1 ∧
    (Forward s bundleData numUnackedBundles).state.m_bytesToAckByTcpSendCallbackCb.len
      = s.m_bytesToAckByTcpSendCallbackCb.len + 1 ∧
    (Forward s bundleData numUnackedBundles).state.asyncWrites.length
      = s.asyncWrites.length + 1 ∧
    s.m_totalBundleBytesSent + 4294967295
      < (Forward s bundleData numUnackedBundles).state.m_totalBundleBytesSent := by
  rw [Forward_of_free s bundleData numUnackedBundles hready hrate htcp]
  simp [CircularIndexBuffer.CommitWrite]
  omega

/-- C3 as amended, at a connected sender and a payload of `2^32` bytes. -/
theorem Forward_has_no_length_check_witness :
    (Forward (connectedSender 2) (List.replicate 4294967296 0) 0).ret = true ∧
    (Forward (connectedSender 2) (List.replicate 4294967296 0) 0).state.m_totalDataSegmentsSent
      = (connectedSender 2).m_totalDataSegmentsSent + 1 :=
  ⟨(Forward_has_no_length_check (connectedSender 2) (List.replicate 4294967296 0) 0
      (by rw [List.length_replicate]; decide) (by decide) (by decide) (by decide)).1,
   (Forward_has_no_length_check (connectedSender 2) (List.replicate 4294967296 0) 0
      (by rw [List.length_replicate]; decide) (by decide) (by decide) (by decide)).2.1⟩

/-- C4: while `m_readyToForward` is false, `Forward` returns false for every
payload and hands back the very same sender (all counters, both rings,
`m_dataServedAsKeepAlive` and the list of posted writes) and the caller's
`numUnackedBundles`; a freshly constructed sender and a sender after
`DoStcpShutdown` are in that case. -/
theorem Forward_rejects_when_not_ready (s : StcpBundleSource) (bundleData : List Nat)
    (numUnackedBundles : Nat) (hready : s.m_readyToForward = false) :
    Forward s bundleData numUnackedBundles
      = { ret := false, state := s, numUnackedBundles := numUnackedBundles } ∧
    (∀ keepAlive rateBps maxUnacked : Nat,
      Forward (StcpBundleSource.init keepAlive rateBps maxUnacked) bundleData numUnackedBundles
        = { ret := false
            state := StcpBundleSource.init keepAlive rateBps maxUnacked
            numUnackedBundles := numUnackedBundles }) ∧
    (∀ t : StcpBundleSource,
      Forward (DoStcpShutdown t) bundleData numUnackedBundles
        = { ret := false, state := DoStcpShutdown t, numUnackedBundles := numUnackedBundles }) := by
  refine ⟨Forward_of_not_ready s _ _ hready, ?_, ?_⟩
  · intro keepAlive rateBps maxUnacked
    exact Forward_of_not_ready _ _ _ rfl
  · intro t
    apply Forward_of_not_ready
    unfold DoStcpShutdown
    simp only
    split <;> rfl

/-- C4 at a sender that was connected and then shut down. -/
theorem Forward_rejects_when_not_ready_witness :
    (DoStcpShutdown (connectedSender 2)).m_readyToForward = false ∧
    Forward (DoStcpShutdown (connectedSender 2)) [0xAA, 0xBB, 0xCC] 7
      = { ret := false, state := DoStcpShutdown (connectedSender 2), numUnackedBundles := 7 } :=
  ⟨by decide,
    (Forward_rejects_when_not_ready (DoStcpShutdown (connectedSender 2)) [0xAA, 0xBB, 0xCC] 7
      (by decide)).1⟩

/-- C5: on a ready sender whose rate ring is full, `Forward` returns false and
hands back the very same sender: counters, both rings with their side arrays,
`m_dataServedAsKeepAlive`, the pacer state and the list of posted writes are
as before the call. -/
theorem Forward_rejects_when_rate_ring_full (s : StcpBundleSource) (bundleData : List Nat)
    (numUnackedBundles : Nat) (hready : s.m_readyToForward = true)
    (hfull : s.m_bytesToAckByRateCb.IsFull = true) :
    Forward s bundleData numUnackedBundles
      = { ret := false, state := s, numUnackedBundles := numUnackedBundles } := by
  simp [Forward, hready, CircularIndexBuffer.GetIndexForWrite, hfull]

/-- C5 at a connected sender with one slot per ring, after one admitted
`Forward`. -/
theorem Forward_rejects_when_rate_ring_full_witness :
    (Forward (connectedSender 1) [1, 2, 3] 0).ret = true ∧
    (Forward (connectedSender 1) [1, 2, 3] 0).state.m_bytesToAckByRateCb.IsFull = true ∧
    Forward (Forward (connectedSender 1) [1, 2, 3] 0).state [4, 5] 9
      = { ret := false
          state := (Forward (connectedSender 1) [1, 2, 3] 0).state
          numUnackedBundles := 9 } :=
  ⟨by decide, by decide,
    Forward_rejects_when_rate_ring_full (Forward (connectedSender 1) [1, 2, 3] 0).state [4, 5] 9
      (by decide) (by decide)⟩

/-- C6, the claim refuted: on a ready sender whose rate ring has room and whose
transport ring is full, `Forward` returns false and the rate ring holds as many
entries as before, not one more; the next write index is the same too. -/
theorem Forward_transport_full_no_overcount :
    rateDrainedSender.m_readyToForward = true ∧
    rateDrainedSender.m_bytesToAckByRateCb.IsFull = false ∧
    rateDrainedSender.m_bytesToAckByTcpSendCallbackCb.IsFull = true ∧
    (Forward rateDrainedSender [3] 0).ret = false ∧
    (Forward rateDrainedSender [3] 0).state.m_bytesToAckByRateCb.len
      ≠ rateDrainedSender.m_bytesToAckByRateCb.len + 1 ∧
    (Forward rateDrainedSender [3] 0).state.m_bytesToAckByRateCb
      = rateDrainedSender.m_bytesToAckByRateCb := by
  decide

/-- C6 as amended: on a ready sender whose rate ring has room and whose
transport ring is full, `Forward` returns false and hands back the very same
sender; reserving a write index does not advance the tail, so the rate ring is
exactly as before the call and nothing is left to release. -/
theorem Forward_rejects_when_transport_ring_full (s : StcpBundleSource)
    (bundleData : List Nat) (numUnackedBundles : Nat) (hready : s.m_readyToForward = true)
    (hrate : s.m_bytesToAckByRateCb.IsFull = false)
    (htcp : s.m_bytesToAckByTcpSendCallbackCb.IsFull = true) :
    Forward s bundleData numUnackedBundles
      = { ret := false, state := s, numUnackedBundles := numUnackedBundles } := by
  simp [Forward, hready, CircularIndexBuffer.GetIndexForWrite, hrate, htcp]

/-- C6 as amended, at the sender whose rate ring was drained by the pacer. -/
theorem Forward_rejects_when_transport_ring_full_witness :
    Forward rateDrainedSender [3] 5
      = { ret := false, state := rateDrainedSender, numUnackedBundles := 5 } :=
  Forward_rejects_when_transport_ring_full rateDrainedSender [3] 5
    (by decide) (by decide) (by decide)

/-- C7, the claim refuted at two payload lengths.  A payload of `2^32 - 4`
bytes is admitted and a data unit of `2^32` bytes is posted, but the entry
stored in the ring is 0, not the framed length.  A payload of `2^32` bytes is
admitted and `m_totalStcpBytesSent` grows by 4, not by `2^32 + 4`. -/
theorem Forward_effects_fail_near_uint32_limit :
    (Forward (connectedSender 2) (List.replicate 4294967292 0) 0).ret = true ∧
    (Forward (connectedSender 2) (List.replicate 4294967292 0) 0).state.asyncWrites.map
        (fun w => w.buffer.length) = [4294967292 + 4] ∧
    (Forward (connectedSender 2) (List.replicate 4294967292 0) 0).state.m_bytesToAckByRateCbVec
      = [0, 0] ∧
    (Forward (connectedSender 2) (List.replicate 4294967296 0) 0).ret = true ∧
    (Forward (connectedSender 2) (List.replicate 4294967296 0) 0).state.m_totalStcpBytesSent
      = (connectedSender 2).m_totalStcpBytesSent + 4 := by
  refine ⟨?_, ?_, ?_, ?_, ?_⟩
  · rw [Forward_ret]; decide
  · rw [Forward_write_lengths _ _ _ (by decide) (by decide) (by decide), List.length_replicate]
    decide
  · rw [Forward_rate_slot _ _ _ (by decide) (by decide) (by decide), List.length_replicate]
    decide
  · rw [Forward_ret]; decide
  · rw [Forward_framed_bytes _ _ _ (by decide) (by decide) (by decide), List.length_replicate]

/-- C7 as amended: for every payload of length `n ≤ 2^32 - 5`, `Forward` on a
ready sender with a free slot in both rings returns true, sets
`numUnackedBundles` to 0 and changes the sender in exactly these ways:
`m_totalDataSegmentsSent` grows by 1, `m_totalBundleBytesSent` by `n`,
`m_totalStcpBytesSent` by `n + 4`; each ring gains one entry (its length grows
by 1, head and capacity stay) and the slot at its former tail holds `n + 4`;
the new-data signaler is cancelled unless the rate timer runs;
`m_dataServedAsKeepAlive` is true; one write of the data unit, the four
big-endian length bytes followed by the payload, is posted after the earlier
writes.  Every other member (the acked counters and the pending rate batch
among them) is as before. -/
theorem Forward_admits_with_exact_effects (s : StcpBundleSource) (bundleData : List Nat)
    (numUnackedBundles : Nat) (hlen : bundleData.length ≤ 4294967291)
    (hready : s.m_readyToForward = true)
    (hrate : s.m_bytesToAckByRateCb.IsFull = false)
    (htcp : s.m_bytesToAckByTcpSendCallbackCb.IsFull = false) :
    Forward s bundleData numUnackedBundles
      = { ret := true
          state := { s with
            m_totalDataSegmentsSent := s.m_totalDataSegmentsSent + 1
            m_totalBundleBytesSent := s.m_totalBundleBytesSent + bundleData.length
            m_totalStcpBytesSent := s.m_totalStcpBytesSent + (bundleData.length + 4)
            m_bytesToAckByRateCbVec :=
              s.m_bytesToAckByRateCbVec.set s.m_bytesToAckByRateCb.tail (bundleData.length + 4)
            m_bytesToAckByRateCb := { s.m_bytesToAckByRateCb with
              len := s.m_bytesToAckByRateCb.len + 1 }
            m_bytesToAckByTcpSendCallbackCbVec :=
              s.m_bytesToAckByTcpSendCallbackCbVec.set s.m_bytesToAckByTcpSendCallbackCb.tail
                (bundleData.length + 4)
            m_bytesToAckByTcpSendCallbackCb := { s.m_bytesToAckByTcpSendCallbackCb with
              len := s.m_bytesToAckByTcpSendCallbackCb.len + 1 }
            newDataSignalerCancelled := s.newDataSignalerCancelled || !s.m_rateTimerIsRunning
            m_dataServedAsKeepAlive := true
            asyncWrites := s.asyncWrites
              ++ [{ buffer := bigEndianBytes32 bundleData.length ++ bundleData
                    handler := WriteHandler.tcpSend }] }
          numUnackedBundles := 0 } := by
  have hmod : bundleData.length % 4294967296 = bundleData.length := Nat.mod_eq_of_lt (by omega)
  have hmod4 : (4 + bundleData.length) % 4294967296 = bundleData.length + 4 := by
    rw [Nat.mod_eq_of_lt (by omega)]; omega
  rw [Forward_of_free s bundleData numUnackedBundles hready hrate htcp, hmod,
    GenerateDataUnit_length bundleData _ (Nat.le_refl _),
    GenerateDataUnit_eq_append bundleData _ (Nat.le_refl _), List.take_length, hmod4,
    Nat.add_comm 4 bundleData.length]
  rfl

/-- C7 as amended, at a connected sender and the payload `AA BB CC`: the write
`00 00 00 03 AA BB CC` is posted, the slot holds 7 and 7 framed bytes are
counted. -/
theorem Forward_admits_with_exact_effects_witness :
    (Forward (connectedSender 2) [0xAA, 0xBB, 0xCC] 9).ret = true ∧
    (Forward (connectedSender 2) [0xAA, 0xBB, 0xCC] 9).state.asyncWrites
      = [{ buffer := [0, 0, 0, 3, 0xAA, 0xBB, 0xCC], handler := WriteHandler.tcpSend }] ∧
    (Forward (connectedSender 2) [0xAA, 0xBB, 0xCC] 9).state.m_bytesToAckByRateCbVec = [7, 0] ∧
    (Forward (connectedSender 2) [0xAA, 0xBB, 0xCC] 9).state.m_totalStcpBytesSent = 7 := by
  rw [Forward_admits_with_exact_effects (connectedSender 2) [0xAA, 0xBB, 0xCC] 9 (by decide)
    (by decide) (by decide) (by decide)]
  decide

/-- C8: take a sender constructed with `maxUnacked = N` ring slots, in any
state a run has brought it to.  If, in a further run without a completion of a
data write, at least `N` calls of `Forward` returned true, then the next
`Forward` returns false, whatever its payload. -/
theorem Forward_back_pressure (keepAlive rateBps maxUnacked : Nat) (before events : List Event)
    (bundleData : List Nat) (numUnackedBundles : Nat)
    (hsend : ∀ error bytes_transferred, Event.handleTcpSend error bytes_transferred ∉ events)
    (hadmitted : maxUnacked
      ≤ (admitted (run (StcpBundleSource.init keepAlive rateBps maxUnacked) before) events).length) :
    (Forward (run (run (StcpBundleSource.init keepAlive rateBps maxUnacked) before) events)
      bundleData numUnackedBundles).ret = false := by
  have hcap : (run (run (StcpBundleSource.init keepAlive rateBps maxUnacked) before)
      events).m_bytesToAckByTcpSendCallbackCb.capacity = maxUnacked :=
    (run_transport_capacity
      (run (StcpBundleSource.init keepAlive rateBps maxUnacked) before) events).trans
      (run_transport_capacity (StcpBundleSource.init keepAlive rateBps maxUnacked) before)
  have hlen := run_transport_len
    (run (StcpBundleSource.init keepAlive rateBps maxUnacked) before) events hsend
  have hfull : (run (run (StcpBundleSource.init keepAlive rateBps maxUnacked) before)
      events).m_bytesToAckByTcpSendCallbackCb.IsFull = true := by
    unfold CircularIndexBuffer.IsFull
    rw [hcap, hlen]
    simp only [decide_eq_true_eq]
    omega
  rw [Forward_of_transport_full _ _ _ hfull]

/-- C8 at `N = 2`: after connecting, two calls are admitted and the third
returns false. -/
theorem Forward_back_pressure_witness :
    admitted (run (StcpBundleSource.init 10 5000000 2)
        [Event.onResolve ErrorCode.success, Event.onConnect ErrorCode.success])
      [Event.forward [1] 0, Event.forward [2, 2] 0] = [[1], [2, 2]] ∧
    (Forward (run (run (StcpBundleSource.init 10 5000000 2)
        [Event.onResolve ErrorCode.success, Event.onConnect ErrorCode.success])
      [Event.forward [1] 0, Event.forward [2, 2] 0]) [3, 3, 3] 0).ret = false :=
  ⟨by decide,
   Forward_back_pressure 10 5000000 2 [Event.onResolve ErrorCode.success, Event.onConnect ErrorCode.success]
     [Event.forward [1] 0, Event.forward [2, 2] 0] [3, 3, 3] 0 (by simp) (by decide)⟩

/-- C9, the code at a payload of `2^32 - 1` bytes: the call is admitted and a
data unit of `2^32 + 3` bytes is posted, yet the entry stored in both rings is
3; the completion of that write, reporting `2^32 + 3` bytes, then fails the
comparison in `HandleTcpSend` and acknowledges nothing. -/
theorem Forward_slot_wraps_modulo_uint32 :
    (Forward (connectedSender 2) (List.replicate 4294967295 0) 0).ret = true ∧
    (Forward (connectedSender 2) (List.replicate 4294967295 0) 0).state.asyncWrites.map
        (fun w => w.buffer.length) = [4294967295 + 4] ∧
    (Forward (connectedSender 2) (List.replicate 4294967295 0) 0).state.m_bytesToAckByRateCbVec
      = [3, 0] ∧
    (Forward (connectedSender 2) (List.replicate 4294967295 0)
        0).state.m_bytesToAckByTcpSendCallbackCbVec = [3, 0] ∧
    HandleTcpSend (Forward (connectedSender 2) (List.replicate 4294967295 0) 0).state
        ErrorCode.success (4294967295 + 4)
      = (Forward (connectedSender 2) (List.replicate 4294967295 0) 0).state := by
  have hslot := Forward_transport_slot (connectedSender 2) (List.replicate 4294967295 0) 0
    (by decide) (by decide) (by decide)
  rw [List.length_replicate] at hslot
  refine ⟨?_, ?_, ?_, ?_, ?_⟩
  · rw [Forward_ret]; decide
  · rw [Forward_write_lengths _ _ _ (by decide) (by decide) (by decide), List.length_replicate]
    decide
  · rw [Forward_rate_slot _ _ _ (by decide) (by decide) (by decide), List.length_replicate]
    decide
  · rw [hslot]; decide
  · apply HandleTcpSend_of_mismatch _ _ 0
    · rw [Forward_of_free _ _ _ (by decide) (by decide) (by decide)]
      decide
    · rw [hslot]; decide

/-- C10: `GetTotalDataSegmentsAcked` returns the minimum of the two acked-frame
counters, `GetTotalDataSegmentsSent` returns the sent-frame counter, and both
hand back the sender unchanged. -/
theorem getters_return_min_and_sent (s : StcpBundleSource) :
    GetTotalDataSegmentsAcked s
      = (min s.m_totalDataSegmentsAckedByTcpSendCallback s.m_totalDataSegmentsAckedByRate, s) ∧
    GetTotalDataSegmentsSent s = (s.m_totalDataSegmentsSent, s) := by
  refine ⟨?_, rfl⟩
  unfold GetTotalDataSegmentsAcked
  simp only [Prod.mk.injEq, and_true]
  split <;> omega

/-! ## Facts about the handlers -/

/-- A successful read reservation yields the head of a ring that is not
empty. -/
theorem GetIndexForRead_eq_some (cb : CircularIndexBuffer) (readIndex : Nat)
    (h : cb.GetIndexForRead = some readIndex) : readIndex = cb.head ∧ 0 < cb.len := by
  unfold CircularIndexBuffer.GetIndexForRead CircularIndexBuffer.IsEmpty at h
  by_cases hlen : cb.len = 0
  · simp [hlen] at h
  · simp [hlen] at h
    exact ⟨h.symm, Nat.pos_of_ne_zero hlen⟩

/-- A failed read reservation means an empty ring. -/
theorem GetIndexForRead_eq_none (cb : CircularIndexBuffer)
    (h : cb.GetIndexForRead = none) : cb.len = 0 := by
  unfold CircularIndexBuffer.GetIndexForRead CircularIndexBuffer.IsEmpty at h
  by_cases hlen : cb.len = 0
  · exact hlen
  · simp [hlen] at h

/-- The shutdown path changes only the ready flag, the open state of the socket
and the keep-alive timer. -/
theorem DoStcpShutdown_frame (s : StcpBundleSource) :
    ∃ isOpen, DoStcpShutdown s
      = { s with
          m_readyToForward := false
          socketIsOpen := isOpen
          m_needToSendKeepAliveMessageTimer := false } := by
  unfold DoStcpShutdown
  simp only
  split
  · exact ⟨_, rfl⟩
  · exact ⟨_, rfl⟩

/-- The events that touch neither a ring, nor a counter, nor the pacer: they
change at most the ready flag, the socket, the registered callback, the posted
writes, the keep-alive timer and the keep-alive flag. -/
theorem step_neutral (s : StcpBundleSource) (e : Event)
    (hforward : ∀ bundleData numUnackedBundles, e ≠ Event.forward bundleData numUnackedBundles)
    (hsend : ∀ error bytes_transferred, e ≠ Event.handleTcpSend error bytes_transferred)
    (hsignal : ∀ ec, e ≠ Event.onNewDataTimerCancelled ec)
    (hrate : ∀ ec, e ≠ Event.onRateTimerExpired ec) :
    ∃ ready socketPtr isOpen callback writes keepAliveTimer served, step s e
      = { s with
          m_readyToForward := ready
          m_tcpSocketPtr := socketPtr
          socketIsOpen := isOpen
          m_onSuccessfulAckCallback := callback
          asyncWrites := writes
          m_needToSendKeepAliveMessageTimer := keepAliveTimer
          m_dataServedAsKeepAlive := served } := by
  cases e with
  | forward bundleData numUnackedBundles => exact absurd rfl (hforward _ _)
  | setOnSuccessfulAckCallback => exact ⟨_, _, _, _, _, _, _, rfl⟩
  | onResolve ec =>
    simp only [step, OnResolve]
    split
    · exact ⟨_, _, _, _, _, _, _, rfl⟩
    · exact ⟨_, _, _, _, _, _, _, rfl⟩
  | onConnect ec =>
    simp only [step, OnConnect]
    split
    · exact ⟨_, _, _, _, _, _, _, rfl⟩
    · exact ⟨_, _, _, _, _, _, _, rfl⟩
  | handleTcpSend error bytes_transferred => exact absurd rfl (hsend _ _)
  | handleTcpSendKeepAlive error =>
    simp only [step, HandleTcpSendKeepAlive]
    split
    · obtain ⟨isOpen, h⟩ := DoStcpShutdown_frame s
      rw [h]
      exact ⟨_, _, _, _, _, _, _, rfl⟩
    · exact ⟨_, _, _, _, _, _, _, rfl⟩
  | handleTcpReceiveSome error =>
    simp only [step, HandleTcpReceiveSome]
    split
    · exact ⟨_, _, _, _, _, _, _, rfl⟩
    · split
      · obtain ⟨isOpen, h⟩ := DoStcpShutdown_frame s
        rw [h]
        exact ⟨_, _, _, _, _, _, _, rfl⟩
      · exact ⟨_, _, _, _, _, _, _, rfl⟩
  | onNewDataTimerCancelled ec => exact absurd rfl (hsignal _)
  | onRateTimerExpired ec => exact absurd rfl (hrate _)
  | onNeedToSendKeepAliveMessageTimerExpired ec =>
    simp only [step, OnNeedToSendKeepAliveMessage_TimerExpired]
    split
    · split
      · split
        · exact ⟨_, _, _, _, _, _, _, rfl⟩
        · exact ⟨_, _, _, _, _, _, _, rfl⟩
      · exact ⟨_, _, _, _, _, _, _, rfl⟩
    · exact ⟨_, _, _, _, _, _, _, rfl⟩

/-- A rejected call of `Forward` hands back the sender it was given. -/
theorem Forward_state_of_rejected (s : StcpBundleSource) (bundleData : List Nat)
    (numUnackedBundles : Nat) (hret : (Forward s bundleData numUnackedBundles).ret = false) :
    (Forward s bundleData numUnackedBundles).state = s := by
  rw [Forward_ret] at hret
  cases hready : s.m_readyToForward
  · rw [Forward_of_not_ready s _ _ hready]
  · cases hrate : s.m_bytesToAckByRateCb.IsFull
    · cases htcp : s.m_bytesToAckByTcpSendCallbackCb.IsFull
      · simp [hready, hrate, htcp] at hret
      · rw [Forward_of_transport_full s _ _ htcp]
    · rw [Forward_of_rate_full s _ _ hrate]

/-- An admitted call of `Forward` found the sender ready and both rings with a
free slot. -/
theorem Forward_of_admitted (s : StcpBundleSource) (bundleData : List Nat)
    (numUnackedBundles : Nat) (hret : (Forward s bundleData numUnackedBundles).ret = true) :
    s.m_readyToForward = true ∧ s.m_bytesToAckByRateCb.IsFull = false
      ∧ s.m_bytesToAckByTcpSendCallbackCb.IsFull = false := by
  rw [Forward_ret] at hret
  simp only [Bool.and_eq_true, Bool.not_eq_true'] at hret
  exact ⟨hret.1.1, hret.1.2, hret.2⟩

/-- The completion of a data write either acknowledges the entry at the head of
the transport ring, or changes at most the ready flag, the open state of the
socket and the keep-alive timer. -/
theorem HandleTcpSend_cases (s : StcpBundleSource) (error : ErrorCode) (bytes_transferred : Nat) :
    (∃ ready isOpen keepAliveTimer, HandleTcpSend s error bytes_transferred
      = { s with
          m_readyToForward := ready
          socketIsOpen := isOpen
          m_needToSendKeepAliveMessageTimer := keepAliveTimer }) ∨
    (error = ErrorCode.success ∧ 0 < s.m_bytesToAckByTcpSendCallbackCb.len ∧
      s.m_bytesToAckByTcpSendCallbackCbVec.getD s.m_bytesToAckByTcpSendCallbackCb.head 0
        = bytes_transferred ∧
      HandleTcpSend s error bytes_transferred
        = { s with
            m_totalDataSegmentsAckedByTcpSendCallback :=
              s.m_totalDataSegmentsAckedByTcpSendCallback + 1
            m_totalBytesAckedByTcpSendCallback :=
              s.m_totalBytesAckedByTcpSendCallback + bytes_transferred
            m_bytesToAckByTcpSendCallbackCb := s.m_bytesToAckByTcpSendCallbackCb.CommitRead
            callbackInvocations :=
              if s.m_onSuccessfulAckCallback
                  && decide (s.m_totalDataSegmentsAckedByTcpSendCallback + 1
                      ≤ s.m_totalDataSegmentsAckedByRate) then
                s.callbackInvocations + 1
              else s.callbackInvocations }) := by
  unfold HandleTcpSend
  by_cases herr : error = ErrorCode.success
  · subst herr
    simp only [ne_eq, not_true_eq_false, if_false]
    cases hread : s.m_bytesToAckByTcpSendCallbackCb.GetIndexForRead with
    | none => exact Or.inl ⟨_, _, _, rfl⟩
    | some readIndex =>
      obtain ⟨hidx, hpos⟩ := GetIndexForRead_eq_some _ _ hread
      subst hidx
      simp only
      by_cases hmatch : s.m_bytesToAckByTcpSendCallbackCbVec.getD
          s.m_bytesToAckByTcpSendCallbackCb.head 0 = bytes_transferred
      · rw [if_pos hmatch]
        refine Or.inr ⟨trivial, hpos, hmatch, ?_⟩
        rw [hmatch]
        split <;> rfl
      · rw [if_neg hmatch]
        exact Or.inl ⟨_, _, _, rfl⟩
  · rw [if_pos herr]
    obtain ⟨isOpen, h⟩ := DoStcpShutdown_frame s
    rw [h]
    exact Or.inl ⟨_, _, _, rfl⟩

/-- Reading a ring takes the oldest entry off its contents. -/
theorem ringContents_CommitRead (cb : CircularIndexBuffer) (vec : List Nat)
    (hpos : 0 < cb.len) (hhead : cb.head % cb.capacity = cb.head) :
    ringContents cb vec = vec.getD cb.head 0 :: ringContents cb.CommitRead vec := by
  unfold ringContents CircularIndexBuffer.CommitRead
  obtain ⟨n, hn⟩ := Nat.exists_eq_succ_of_ne_zero (Nat.pos_iff_ne_zero.mp hpos)
  simp only [hn, Nat.succ_sub_one]
  rw [List.range_succ_eq_map, List.map_cons, List.map_map]
  simp only [Nat.add_zero, hhead]
  congr 1
  apply List.map_congr_left
  intro i _
  simp only [Function.comp, Nat.succ_eq_add_one]
  congr 1
  rw [Nat.mod_add_mod]
  congr 1
  omega

/-- Writing a ring that has a free slot appends the entry to its contents. -/
theorem ringContents_CommitWrite (cb : CircularIndexBuffer) (vec : List Nat) (v : Nat)
    (hfree : cb.len < cb.capacity) (hvec : vec.length = cb.capacity) :
    ringContents cb.CommitWrite (vec.set cb.tail v) = ringContents cb vec ++ [v] := by
  unfold ringContents CircularIndexBuffer.CommitWrite CircularIndexBuffer.tail
  simp only
  rw [List.range_succ, List.map_append, List.map_cons, List.map_nil]
  have hcap : 0 < cb.capacity := by omega
  congr 1
  · apply List.map_congr_left
    intro i hi
    rw [List.mem_range] at hi
    have hne : (cb.head + cb.len) % cb.capacity ≠ (cb.head + i) % cb.capacity := by
      intro h
      have h2 : cb.len % cb.capacity = i % cb.capacity :=
        Nat.ModEq.add_left_cancel' cb.head h
      rw [Nat.mod_eq_of_lt hfree, Nat.mod_eq_of_lt (by omega)] at h2
      omega
    simp only [List.getD_eq_getElem?_getD, List.getElem?_set_ne hne]
  · have hlt : (cb.head + cb.len) % cb.capacity < vec.length := by
      rw [hvec]; exact Nat.mod_lt _ hcap
    simp only [List.getD_eq_getElem?_getD, List.getElem?_set_eq_of_lt _ hlt, Option.getD_some]


/-- Reading keeps a ring well formed. -/
theorem RingWellFormed_CommitRead (cb : CircularIndexBuffer) (vec : List Nat)
    (hwf : RingWellFormed cb vec) : RingWellFormed cb.CommitRead vec := by
  obtain ⟨hvec, hlen, _⟩ := hwf
  refine ⟨hvec, ?_, ?_⟩
  · show cb.len - 1 ≤ cb.capacity
    omega
  · show (cb.head + 1) % cb.capacity % cb.capacity = (cb.head + 1) % cb.capacity
    exact Nat.mod_mod _ _

/-- Writing a ring that has a free slot keeps it well formed. -/
theorem RingWellFormed_CommitWrite (cb : CircularIndexBuffer) (vec : List Nat) (v : Nat)
    (hwf : RingWellFormed cb vec) (hfree : cb.IsFull = false) :
    RingWellFormed cb.CommitWrite (vec.set cb.tail v) := by
  obtain ⟨hvec, _, hhead⟩ := hwf
  unfold CircularIndexBuffer.IsFull at hfree
  simp only [decide_eq_false_iff_not, not_le] at hfree
  refine ⟨?_, ?_, hhead⟩
  · rw [List.length_set]; exact hvec
  · show cb.len + 1 ≤ cb.capacity
    omega

/-- The loop of the pacer moves entries from the rate ring to the end of the
pending batch, oldest first; it keeps the side array and the capacity. -/
theorem TryRestartRateTimer.loop_moves (fuel : Nat) (s : StcpBundleSource) (delayMicroSec : Nat)
    (hwf : RingWellFormed s.m_bytesToAckByRateCb s.m_bytesToAckByRateCbVec) :
    ∃ reads,
      (TryRestartRateTimer.loop fuel s delayMicroSec).1.m_groupingOfBytesToAckByRateVec
        = s.m_groupingOfBytesToAckByRateVec ++ reads ∧
      reads ++ ringContents
          (TryRestartRateTimer.loop fuel s delayMicroSec).1.m_bytesToAckByRateCb
          s.m_bytesToAckByRateCbVec
        = ringContents s.m_bytesToAckByRateCb s.m_bytesToAckByRateCbVec ∧
      RingWellFormed (TryRestartRateTimer.loop fuel s delayMicroSec).1.m_bytesToAckByRateCb
        s.m_bytesToAckByRateCbVec := by
  induction fuel generalizing s delayMicroSec with
  | zero => exact ⟨[], by simp [TryRestartRateTimer.loop], by simp [TryRestartRateTimer.loop], hwf⟩
  | succ fuel ih =>
    unfold TryRestartRateTimer.loop
    cases hread : s.m_bytesToAckByRateCb.GetIndexForRead with
    | none => exact ⟨[], by simp, by simp, hwf⟩
    | some readIndex =>
      obtain ⟨hidx, hpos⟩ := GetIndexForRead_eq_some _ _ hread
      subst hidx
      have hcontents := ringContents_CommitRead s.m_bytesToAckByRateCb s.m_bytesToAckByRateCbVec
        hpos hwf.2.2
      have hwf2 := RingWellFormed_CommitRead _ _ hwf
      simp only
      split
      · exact ⟨[s.m_bytesToAckByRateCbVec.getD s.m_bytesToAckByRateCb.head 0], rfl,
          by rw [hcontents]; rfl, hwf2⟩
      · obtain ⟨reads, h1, h2, h3⟩ := ih
          { s with
            m_bytesToAckByRateCb := s.m_bytesToAckByRateCb.CommitRead
            m_groupingOfBytesToAckByRateVec :=
              s.m_groupingOfBytesToAckByRateVec
                ++ [s.m_bytesToAckByRateCbVec.getD s.m_bytesToAckByRateCb.head 0] }
          (delayMicroSec + delayMicroSecOf s.M_RATE_BITS_PER_SEC
            (s.m_bytesToAckByRateCbVec.getD s.m_bytesToAckByRateCb.head 0)) hwf2
        refine ⟨s.m_bytesToAckByRateCbVec.getD s.m_bytesToAckByRateCb.head 0 :: reads, ?_, ?_, h3⟩
        · rw [h1]; simp
        · rw [hcontents, List.cons_append]
          exact congrArg _ h2

/-- The loop of the pacer keeps the number of frames that are in the rate ring
or in the pending batch. -/
theorem TryRestartRateTimer.loop_count (fuel : Nat) (s : StcpBundleSource) (delayMicroSec : Nat) :
    (TryRestartRateTimer.loop fuel s delayMicroSec).1.m_bytesToAckByRateCb.len
        + (TryRestartRateTimer.loop fuel s delayMicroSec).1.m_groupingOfBytesToAckByRateVec.length
      = s.m_bytesToAckByRateCb.len + s.m_groupingOfBytesToAckByRateVec.length := by
  induction fuel generalizing s delayMicroSec with
  | zero => rfl
  | succ fuel ih =>
    unfold TryRestartRateTimer.loop
    cases hread : s.m_bytesToAckByRateCb.GetIndexForRead with
    | none => rfl
    | some readIndex =>
      obtain ⟨_, hpos⟩ := GetIndexForRead_eq_some _ _ hread
      simp only
      split
      · simp only [CircularIndexBuffer.CommitRead, List.length_append, List.length_cons,
          List.length_nil]
        omega
      · rw [ih]
        simp only [CircularIndexBuffer.CommitRead, List.length_append, List.length_cons,
          List.length_nil]
        omega

/-- The pacer keeps the number of frames that are in the rate ring or in the
pending batch. -/
theorem TryRestartRateTimer_count (s : StcpBundleSource) :
    (TryRestartRateTimer s).m_bytesToAckByRateCb.len
        + (TryRestartRateTimer s).m_groupingOfBytesToAckByRateVec.length
      = s.m_bytesToAckByRateCb.len + s.m_groupingOfBytesToAckByRateVec.length := by
  unfold TryRestartRateTimer
  split
  · simp only
    split
    · exact TryRestartRateTimer.loop_count _ s 0
    · exact TryRestartRateTimer.loop_count _ s 0
  · rfl

/-- The pacer moves entries from the rate ring to the end of the pending batch,
oldest first, and keeps the ring well formed and the side array as it is. -/
theorem TryRestartRateTimer_moves (s : StcpBundleSource)
    (hwf : RingWellFormed s.m_bytesToAckByRateCb s.m_bytesToAckByRateCbVec) :
    (TryRestartRateTimer s).m_bytesToAckByRateCbVec = s.m_bytesToAckByRateCbVec ∧
    RingWellFormed (TryRestartRateTimer s).m_bytesToAckByRateCb s.m_bytesToAckByRateCbVec ∧
    ∃ reads,
      (TryRestartRateTimer s).m_groupingOfBytesToAckByRateVec
        = s.m_groupingOfBytesToAckByRateVec ++ reads ∧
      reads ++ ringContents (TryRestartRateTimer s).m_bytesToAckByRateCb
          s.m_bytesToAckByRateCbVec
        = ringContents s.m_bytesToAckByRateCb s.m_bytesToAckByRateCbVec := by
  refine ⟨?_, ?_⟩
  · obtain ⟨cb, g, t, running, h⟩ := TryRestartRateTimer_frame s
    rw [h]
  · unfold TryRestartRateTimer
    split
    · obtain ⟨reads, h1, h2, h3⟩ := TryRestartRateTimer.loop_moves s.m_bytesToAckByRateCb.len s 0 hwf
      simp only
      split
      · exact ⟨h3, reads, h1, h2⟩
      · exact ⟨h3, reads, h1, h2⟩
    · exact ⟨hwf, [], by simp, by simp⟩

/-- After the pacer has run, a running rate timer has a pending batch, if that
was so before. -/
theorem TryRestartRateTimer_running (s : StcpBundleSource)
    (h : s.m_rateTimerIsRunning = true → s.m_groupingOfBytesToAckByRateVec ≠ []) :
    (TryRestartRateTimer s).m_rateTimerIsRunning = true →
      (TryRestartRateTimer s).m_groupingOfBytesToAckByRateVec ≠ [] := by
  unfold TryRestartRateTimer
  split
  · rename_i hcond
    simp only
    split
    · rename_i hne
      intro _
      simpa using hne
    · obtain ⟨cb, g, hframe⟩ := TryRestartRateTimer.loop_frame s.m_bytesToAckByRateCb.len s 0
      intro hrun
      rw [hframe] at hrun
      simp only [Bool.and_eq_true, Bool.not_eq_true', decide_eq_true_eq] at hcond
      rw [hcond.1] at hrun
      exact absurd hrun (by decide)
  · exact h

/-- After the pacer has run, the rate timer is running exactly when a batch is
pending, if that was so before. -/
theorem TryRestartRateTimer_running_iff (s : StcpBundleSource)
    (h : s.m_rateTimerIsRunning = true ↔ s.m_groupingOfBytesToAckByRateVec ≠ []) :
    (TryRestartRateTimer s).m_rateTimerIsRunning = true ↔
      (TryRestartRateTimer s).m_groupingOfBytesToAckByRateVec ≠ [] := by
  unfold TryRestartRateTimer
  split
  · rename_i hcond
    simp only
    split
    · rename_i hne
      constructor
      · intro _
        simpa using hne
      · intro _
        rfl
    · rename_i hempty
      obtain ⟨cb, g, hframe⟩ := TryRestartRateTimer.loop_frame s.m_bytesToAckByRateCb.len s 0
      simp only [Bool.and_eq_true, Bool.not_eq_true', decide_eq_true_eq] at hcond
      constructor
      · intro hrun
        rw [hframe] at hrun
        rw [hcond.1] at hrun
        exact absurd hrun (by decide)
      · intro hne
        exact absurd (by simpa using hempty) hne
  · exact h

/-- A rate-timer expiry that was cancelled, or that finds no pending batch,
only stops the timer. -/
theorem OnRate_TimerExpired_of_idle (s : StcpBundleSource) (e : ErrorCode)
    (h : e = ErrorCode.operation_aborted ∨ s.m_groupingOfBytesToAckByRateVec = []) :
    OnRate_TimerExpired s e = { s with m_rateTimerIsRunning := false, m_rateTimer := none } := by
  unfold OnRate_TimerExpired
  rcases h with h | h
  · simp [h]
  · simp [h]

/-- A rate-timer expiry that was not cancelled and finds a pending batch
credits the whole batch, invokes the callback at most once, and runs the
pacer. -/
theorem OnRate_TimerExpired_of_batch (s : StcpBundleSource) (e : ErrorCode)
    (he : e ≠ ErrorCode.operation_aborted) (hbatch : s.m_groupingOfBytesToAckByRateVec ≠ []) :
    OnRate_TimerExpired s e
      = TryRestartRateTimer { s with
          m_rateTimerIsRunning := false
          m_rateTimer := none
          m_totalDataSegmentsAckedByRate :=
            s.m_totalDataSegmentsAckedByRate + s.m_groupingOfBytesToAckByRateVec.length
          m_totalBytesAckedByRate :=
            s.m_totalBytesAckedByRate + s.m_groupingOfBytesToAckByRateVec.sum
          m_groupingOfBytesToAckByRateVec := []
          callbackInvocations :=
            if s.m_onSuccessfulAckCallback
                && decide (s.m_totalDataSegmentsAckedByRate
                    + s.m_groupingOfBytesToAckByRateVec.length
                  ≤ s.m_totalDataSegmentsAckedByTcpSendCallback) then
              s.callbackInvocations + 1
            else s.callbackInvocations } := by
  unfold OnRate_TimerExpired
  have hpos : s.m_groupingOfBytesToAckByRateVec.length > 0 :=
    List.length_pos.mpr hbatch
  simp only [ne_eq, he, not_false_eq_true, if_true, hpos]
  split <;> rfl

/-- An event is a call of `Forward`, a completion of a data write, a cancelled
signaler, a rate-timer expiry, or none of these four. -/
theorem Event.classify (e : Event) :
    (∃ bundleData numUnackedBundles, e = Event.forward bundleData numUnackedBundles) ∨
    (∃ error bytes_transferred, e = Event.handleTcpSend error bytes_transferred) ∨
    (∃ ec, e = Event.onNewDataTimerCancelled ec) ∨
    (∃ ec, e = Event.onRateTimerExpired ec) ∨
    ((∀ bundleData numUnackedBundles, e ≠ Event.forward bundleData numUnackedBundles) ∧
      (∀ error bytes_transferred, e ≠ Event.handleTcpSend error bytes_transferred) ∧
      (∀ ec, e ≠ Event.onNewDataTimerCancelled ec) ∧
      (∀ ec, e ≠ Event.onRateTimerExpired ec)) := by
  cases e with
  | forward bundleData numUnackedBundles => exact Or.inl ⟨_, _, rfl⟩
  | handleTcpSend error bytes_transferred => exact Or.inr (Or.inl ⟨_, _, rfl⟩)
  | onNewDataTimerCancelled ec => exact Or.inr (Or.inr (Or.inl ⟨_, rfl⟩))
  | onRateTimerExpired ec => exact Or.inr (Or.inr (Or.inr (Or.inl ⟨_, rfl⟩)))
  | _ =>
    refine Or.inr (Or.inr (Or.inr (Or.inr ⟨?_, ?_, ?_, ?_⟩)))
    all_goals intros
    all_goals simp

/-! ## The bookkeeping of a run -/

/-- A freshly constructed sender is consistent. -/
theorem Consistent_init (keepAlive rateBps maxUnacked : Nat) :
    Consistent (StcpBundleSource.init keepAlive rateBps maxUnacked) := by
  refine ⟨?_, ?_, rfl, rfl, Nat.le_refl _, Nat.le_refl _, ?_⟩
  · exact ⟨List.length_replicate _ _, Nat.zero_le _, Nat.zero_mod _⟩
  · exact ⟨List.length_replicate _ _, Nat.zero_le _, Nat.zero_mod _⟩
  · intro h
    exact absurd h Bool.false_ne_true

/-- The pacer keeps a sender consistent. -/
theorem Consistent_TryRestartRateTimer (s : StcpBundleSource) (h : Consistent s) :
    Consistent (TryRestartRateTimer s) := by
  obtain ⟨h1, h2, h3, h4, h5, h6, h7⟩ := h
  obtain ⟨hvec, hwf, _⟩ := TryRestartRateTimer_moves s h2
  have hcount := TryRestartRateTimer_count s
  have hrun := TryRestartRateTimer_running s h7
  obtain ⟨cb, g, t, running, hframe⟩ := TryRestartRateTimer_frame s
  refine ⟨?_, ?_, ?_, ?_, ?_, ?_, hrun⟩
  · rw [hframe]; exact h1
  · rw [hvec]; exact hwf
  · rw [hframe]; exact h3
  · rw [hcount]
    rw [hframe]
    exact h4
  · rw [hframe]; exact h5
  · rw [hframe]; exact h6

/-- Every event keeps a sender consistent. -/
theorem Consistent_step (s : StcpBundleSource) (e : Event) (h : Consistent s) :
    Consistent (step s e) := by
  rcases Event.classify e with ⟨bundleData, numUnackedBundles, rfl⟩ |
    ⟨error, bytes_transferred, rfl⟩ | ⟨ec, rfl⟩ | ⟨ec, rfl⟩ | ⟨hforward, hsend, hsignal, hrate⟩
  · simp only [step]
    cases hret : (Forward s bundleData numUnackedBundles).ret
    · rw [Forward_state_of_rejected s _ _ hret]
      exact h
    · obtain ⟨hready, hrate, htcp⟩ := Forward_of_admitted s _ _ hret
      obtain ⟨h1, h2, h3, h4, h5, h6, h7⟩ := h
      rw [Forward_of_free s _ _ hready hrate htcp]
      refine ⟨RingWellFormed_CommitWrite _ _ _ h1 htcp, RingWellFormed_CommitWrite _ _ _ h2 hrate,
        ?_, ?_, h5, h6, h7⟩
      · simp only [CircularIndexBuffer.CommitWrite]
        omega
      · simp only [CircularIndexBuffer.CommitWrite]
        omega
  · simp only [step]
    obtain ⟨h1, h2, h3, h4, h5, h6, h7⟩ := h
    rcases HandleTcpSend_cases s error bytes_transferred with
      ⟨ready, isOpen, keepAliveTimer, hframe⟩ | ⟨_, hpos, _, hframe⟩
    · rw [hframe]
      exact ⟨h1, h2, h3, h4, h5, h6, h7⟩
    · rw [hframe]
      refine ⟨RingWellFormed_CommitRead _ _ h1, h2, ?_, h4, ?_, ?_, h7⟩
      · simp only [CircularIndexBuffer.CommitRead]
        omega
      · simp only
        split <;> omega
      · simp only
        split
        · rename_i hfire
          simp only [Bool.and_eq_true, decide_eq_true_eq] at hfire
          omega
        · exact h6
  · simp only [step, OnNewData_TimerCancelled]
    split
    · exact Consistent_TryRestartRateTimer _ h
    · exact h
  · simp only [step]
    obtain ⟨h1, h2, h3, h4, h5, h6, h7⟩ := h
    by_cases hidle : ec = ErrorCode.operation_aborted ∨ s.m_groupingOfBytesToAckByRateVec = []
    · rw [OnRate_TimerExpired_of_idle s ec hidle]
      refine ⟨h1, h2, h3, h4, h5, h6, ?_⟩
      intro hrun
      exact absurd hrun Bool.false_ne_true
    · rw [not_or] at hidle
      rw [OnRate_TimerExpired_of_batch s ec hidle.1 hidle.2]
      have hpos : 0 < s.m_groupingOfBytesToAckByRateVec.length := List.length_pos.mpr hidle.2
      apply Consistent_TryRestartRateTimer
      refine ⟨h1, h2, h3, ?_, ?_, ?_, ?_⟩
      · simp only [List.length_nil]
        omega
      · simp only
        split
        · rename_i hfire
          simp only [Bool.and_eq_true, decide_eq_true_eq] at hfire
          omega
        · exact h5
      · simp only
        split <;> omega
      · intro hrun
        exact absurd hrun Bool.false_ne_true
  · obtain ⟨ready, socketPtr, isOpen, callback, writes, keepAliveTimer, served, hframe⟩ :=
      step_neutral s e hforward hsend hsignal hrate
    rw [hframe]
    exact h

/-- Every run keeps a sender consistent. -/
theorem Consistent_run (s : StcpBundleSource) (events : List Event) (h : Consistent s) :
    Consistent (run s events) := by
  induction events generalizing s with
  | nil => exact h
  | cons e events ih => exact ih (step s e) (Consistent_step s e h)

/-! ## The callback count -/

/-- The pacer touches neither an acknowledgement counter, nor the callback
count, nor the registered callback. -/
theorem TryRestartRateTimer_counters (s : StcpBundleSource) :
    (TryRestartRateTimer s).m_totalDataSegmentsAckedByTcpSendCallback
        = s.m_totalDataSegmentsAckedByTcpSendCallback ∧
    (TryRestartRateTimer s).m_totalDataSegmentsAckedByRate = s.m_totalDataSegmentsAckedByRate ∧
    (TryRestartRateTimer s).callbackInvocations = s.callbackInvocations ∧
    (TryRestartRateTimer s).m_onSuccessfulAckCallback = s.m_onSuccessfulAckCallback := by
  obtain ⟨cb, g, t, running, hframe⟩ := TryRestartRateTimer_frame s
  rw [hframe]
  exact ⟨rfl, rfl, rfl, rfl⟩

/-- One event invokes the callback at most once, and only while the number of
frames acknowledged on both sides grows; no event lowers an acknowledgement
counter. -/
theorem step_callback (s : StcpBundleSource) (e : Event) :
    (step s e).callbackInvocations ≤ s.callbackInvocations + 1 ∧
    ((step s e).callbackInvocations = s.callbackInvocations + 1 →
      min s.m_totalDataSegmentsAckedByTcpSendCallback s.m_totalDataSegmentsAckedByRate
        < min (step s e).m_totalDataSegmentsAckedByTcpSendCallback
            (step s e).m_totalDataSegmentsAckedByRate) := by
  rcases Event.classify e with ⟨bundleData, numUnackedBundles, rfl⟩ |
    ⟨error, bytes_transferred, rfl⟩ | ⟨ec, rfl⟩ | ⟨ec, rfl⟩ | ⟨hforward, hsend, hsignal, hrate⟩
  · simp only [step]
    cases hret : (Forward s bundleData numUnackedBundles).ret
    · rw [Forward_state_of_rejected s _ _ hret]
      omega
    · obtain ⟨hready, hrate, htcp⟩ := Forward_of_admitted s _ _ hret
      rw [Forward_of_free s _ _ hready hrate htcp]
      simp only
      omega
  · simp only [step]
    rcases HandleTcpSend_cases s error bytes_transferred with
      ⟨ready, isOpen, keepAliveTimer, hframe⟩ | ⟨_, hpos, _, hframe⟩
    · rw [hframe]
      simp only
      omega
    · rw [hframe]
      simp only
      split
      · rename_i hfire
        simp only [Bool.and_eq_true, decide_eq_true_eq] at hfire
        omega
      · omega
  · simp only [step, OnNewData_TimerCancelled]
    split
    · obtain ⟨h1, h2, h3, _⟩ := TryRestartRateTimer_counters
        { s with newDataSignalerCancelled := false }
      rw [h1, h2, h3]
      simp only
      omega
    · omega
  · simp only [step]
    by_cases hidle : ec = ErrorCode.operation_aborted ∨ s.m_groupingOfBytesToAckByRateVec = []
    · rw [OnRate_TimerExpired_of_idle s ec hidle]
      simp only
      omega
    · rw [not_or] at hidle
      rw [OnRate_TimerExpired_of_batch s ec hidle.1 hidle.2]
      have hpos : 0 < s.m_groupingOfBytesToAckByRateVec.length := List.length_pos.mpr hidle.2
      obtain ⟨h1, h2, h3, _⟩ := TryRestartRateTimer_counters { s with
          m_rateTimerIsRunning := false
          m_rateTimer := none
          m_totalDataSegmentsAckedByRate :=
            s.m_totalDataSegmentsAckedByRate + s.m_groupingOfBytesToAckByRateVec.length
          m_totalBytesAckedByRate :=
            s.m_totalBytesAckedByRate + s.m_groupingOfBytesToAckByRateVec.sum
          m_groupingOfBytesToAckByRateVec := []
          callbackInvocations :=
            if s.m_onSuccessfulAckCallback
                && decide (s.m_totalDataSegmentsAckedByRate
                    + s.m_groupingOfBytesToAckByRateVec.length
                  ≤ s.m_totalDataSegmentsAckedByTcpSendCallback) then
              s.callbackInvocations + 1
            else s.callbackInvocations }
      rw [h1, h2, h3]
      simp only
      split
      · rename_i hfire
        simp only [Bool.and_eq_true, decide_eq_true_eq] at hfire
        omega
      · omega
  · obtain ⟨ready, socketPtr, isOpen, callback, writes, keepAliveTimer, served, hframe⟩ :=
      step_neutral s e hforward hsend hsignal hrate
    rw [hframe]
    simp only
    omega

/-- With a callback registered, an event whose rate-timer expiry (if it is one)
credits at most one frame invokes the callback exactly as often as the number
of frames acknowledged on both sides grows; the callback stays registered. -/
theorem step_callback_exact (s : StcpBundleSource) (e : Event)
    (hcb : s.m_onSuccessfulAckCallback = true)
    (hsingle : ∀ ec, e = Event.onRateTimerExpired ec →
      ec = ErrorCode.operation_aborted ∨ s.m_groupingOfBytesToAckByRateVec.length ≤ 1) :
    (step s e).m_onSuccessfulAckCallback = true ∧
    (step s e).callbackInvocations
        + min s.m_totalDataSegmentsAckedByTcpSendCallback s.m_totalDataSegmentsAckedByRate
      = s.callbackInvocations
        + min (step s e).m_totalDataSegmentsAckedByTcpSendCallback
            (step s e).m_totalDataSegmentsAckedByRate := by
  rcases Event.classify e with ⟨bundleData, numUnackedBundles, rfl⟩ |
    ⟨error, bytes_transferred, rfl⟩ | ⟨ec, rfl⟩ | ⟨ec, rfl⟩ | ⟨hforward, hsend, hsignal, hrate⟩
  · simp only [step]
    cases hret : (Forward s bundleData numUnackedBundles).ret
    · rw [Forward_state_of_rejected s _ _ hret]
      exact ⟨hcb, rfl⟩
    · obtain ⟨hready, hrate, htcp⟩ := Forward_of_admitted s _ _ hret
      rw [Forward_of_free s _ _ hready hrate htcp]
      exact ⟨hcb, rfl⟩
  · simp only [step]
    rcases HandleTcpSend_cases s error bytes_transferred with
      ⟨ready, isOpen, keepAliveTimer, hframe⟩ | ⟨_, hpos, _, hframe⟩
    · rw [hframe]
      exact ⟨hcb, rfl⟩
    · rw [hframe]
      refine ⟨hcb, ?_⟩
      simp only [hcb, Bool.true_and, decide_eq_true_eq]
      split <;> omega
  · simp only [step, OnNewData_TimerCancelled]
    split
    · obtain ⟨h1, h2, h3, h4⟩ := TryRestartRateTimer_counters
        { s with newDataSignalerCancelled := false }
      rw [h1, h2, h3, h4]
      exact ⟨hcb, rfl⟩
    · exact ⟨hcb, rfl⟩
  · simp only [step]
    by_cases hidle : ec = ErrorCode.operation_aborted ∨ s.m_groupingOfBytesToAckByRateVec = []
    · rw [OnRate_TimerExpired_of_idle s ec hidle]
      exact ⟨hcb, rfl⟩
    · rw [not_or] at hidle
      rw [OnRate_TimerExpired_of_batch s ec hidle.1 hidle.2]
      have hpos : 0 < s.m_groupingOfBytesToAckByRateVec.length := List.length_pos.mpr hidle.2
      have hone : s.m_groupingOfBytesToAckByRateVec.length = 1 := by
        rcases hsingle ec rfl with h | h
        · exact absurd h hidle.1
        · omega
      obtain ⟨h1, h2, h3, h4⟩ := TryRestartRateTimer_counters { s with
          m_rateTimerIsRunning := false
          m_rateTimer := none
          m_totalDataSegmentsAckedByRate :=
            s.m_totalDataSegmentsAckedByRate + s.m_groupingOfBytesToAckByRateVec.length
          m_totalBytesAckedByRate :=
            s.m_totalBytesAckedByRate + s.m_groupingOfBytesToAckByRateVec.sum
          m_groupingOfBytesToAckByRateVec := []
          callbackInvocations :=
            if s.m_onSuccessfulAckCallback
                && decide (s.m_totalDataSegmentsAckedByRate
                    + s.m_groupingOfBytesToAckByRateVec.length
                  ≤ s.m_totalDataSegmentsAckedByTcpSendCallback) then
              s.callbackInvocations + 1
            else s.callbackInvocations }
      rw [h1, h2, h3, h4]
      refine ⟨hcb, ?_⟩
      simp only [hcb, Bool.true_and, decide_eq_true_eq, hone]
      split <;> omega
  · obtain ⟨ready, socketPtr, isOpen, callback, writes, keepAliveTimer, served, hframe⟩ :=
      step_neutral s e hforward hsend hsignal hrate
    have hkeep : (step s e).m_onSuccessfulAckCallback = true := by
      cases e with
      | setOnSuccessfulAckCallback => rfl
      | onResolve ec => simp only [step, OnResolve]; split <;> exact hcb
      | onConnect ec => simp only [step, OnConnect]; split <;> exact hcb
      | handleTcpSendKeepAlive error =>
        simp only [step, HandleTcpSendKeepAlive]
        split
        · obtain ⟨isOpen, h⟩ := DoStcpShutdown_frame s
          rw [h]; exact hcb
        · exact hcb
      | handleTcpReceiveSome error =>
        simp only [step, HandleTcpReceiveSome]
        split
        · exact hcb
        · split
          · obtain ⟨isOpen, h⟩ := DoStcpShutdown_frame s
            rw [h]; exact hcb
          · exact hcb
      | onNeedToSendKeepAliveMessageTimerExpired ec =>
        simp only [step, OnNeedToSendKeepAliveMessage_TimerExpired]
        repeat' split
        all_goals exact hcb
      | forward bundleData numUnackedBundles => exact absurd rfl (hforward _ _)
      | handleTcpSend error bytes_transferred => exact absurd rfl (hsend _ _)
      | onNewDataTimerCancelled ec => exact absurd rfl (hsignal _)
      | onRateTimerExpired ec => exact absurd rfl (hrate _)
    refine ⟨hkeep, ?_⟩
    rw [hframe]

/-- What the condition on the batches of a run says about its first event. -/
theorem singleFrameBatches_cons (s : StcpBundleSource) (e : Event) (events : List Event)
    (h : singleFrameBatches s (e :: events) = true) :
    (∀ ec, e = Event.onRateTimerExpired ec →
      ec = ErrorCode.operation_aborted ∨ s.m_groupingOfBytesToAckByRateVec.length ≤ 1) ∧
    singleFrameBatches (step s e) events = true := by
  cases e with
  | onRateTimerExpired ec =>
    simp only [singleFrameBatches, Bool.and_eq_true, Bool.or_eq_true, decide_eq_true_eq] at h
    refine ⟨?_, h.2⟩
    intro ec2 heq
    cases heq
    exact h.1
  | _ =>
    refine ⟨?_, h⟩
    intro ec heq
    cases heq

/-- With a callback registered and one frame per credited batch, a run invokes
the callback exactly as often as the number of frames acknowledged on both
sides grows. -/
theorem run_callback_exact (s : StcpBundleSource) (events : List Event)
    (hcb : s.m_onSuccessfulAckCallback = true)
    (hsingle : singleFrameBatches s events = true) :
    (run s events).callbackInvocations
        + min s.m_totalDataSegmentsAckedByTcpSendCallback s.m_totalDataSegmentsAckedByRate
      = s.callbackInvocations
        + min (run s events).m_totalDataSegmentsAckedByTcpSendCallback
            (run s events).m_totalDataSegmentsAckedByRate := by
  induction events generalizing s with
  | nil => rfl
  | cons e events ih =>
    obtain ⟨hfirst, hrest⟩ := singleFrameBatches_cons s e events hsingle
    obtain ⟨hcb2, hstep⟩ := step_callback_exact s e hcb hfirst
    have hrun := ih (step s e) hcb2 hrest
    rw [run_cons]
    omega

/-! ## The claims about the callback and the counters -/

/-- C11, the claim refuted: with the callback registered at construction, two
frames are admitted, both writes complete, and one rate-timer expiry credits
both frames in one batch; two frames are then acknowledged on both sides and
the callback has been invoked once. -/
theorem callbacks_fall_short_of_min :
    (run (SetOnSuccessfulAckCallback (StcpBundleSource.init 10 5000000 2))
      batchOfTwoRun).m_totalDataSegmentsAckedByTcpSendCallback = 2 ∧
    (run (SetOnSuccessfulAckCallback (StcpBundleSource.init 10 5000000 2))
      batchOfTwoRun).m_totalDataSegmentsAckedByRate = 2 ∧
    (run (SetOnSuccessfulAckCallback (StcpBundleSource.init 10 5000000 2))
      batchOfTwoRun).callbackInvocations = 1 := by
  decide

/-- C11 as amended: with the callback registered at construction, in every run
in which each non-cancelled rate-timer expiry credits a batch of at most one
frame, the number of callback invocations equals the minimum of the frames
acknowledged by write completions and the frames acknowledged by the pacer. -/
theorem callbacks_eq_min_of_single_frame_batches (keepAlive rateBps maxUnacked : Nat)
    (events : List Event)
    (hsingle : singleFrameBatches
      (SetOnSuccessfulAckCallback (StcpBundleSource.init keepAlive rateBps maxUnacked))
      events = true) :
    (run (SetOnSuccessfulAckCallback (StcpBundleSource.init keepAlive rateBps maxUnacked))
      events).callbackInvocations
      = min
          (run (SetOnSuccessfulAckCallback (StcpBundleSource.init keepAlive rateBps maxUnacked))
            events).m_totalDataSegmentsAckedByTcpSendCallback
          (run (SetOnSuccessfulAckCallback (StcpBundleSource.init keepAlive rateBps maxUnacked))
            events).m_totalDataSegmentsAckedByRate := by
  have h := run_callback_exact
    (SetOnSuccessfulAckCallback (StcpBundleSource.init keepAlive rateBps maxUnacked)) events rfl
    hsingle
  have h0 : min
      (SetOnSuccessfulAckCallback (StcpBundleSource.init keepAlive rateBps
        maxUnacked)).m_totalDataSegmentsAckedByTcpSendCallback
      (SetOnSuccessfulAckCallback (StcpBundleSource.init keepAlive rateBps
        maxUnacked)).m_totalDataSegmentsAckedByRate = 0 := rfl
  have h1 : (SetOnSuccessfulAckCallback (StcpBundleSource.init keepAlive rateBps
      maxUnacked)).callbackInvocations = 0 := rfl
  omega

/-- C11 as amended, at a run with one frame per batch: two frames are
acknowledged on both sides and the callback has been invoked twice. -/
theorem callbacks_eq_min_of_single_frame_batches_witness :
    (run (SetOnSuccessfulAckCallback (StcpBundleSource.init 10 5000000 2))
      oneFramePerBatchRun).callbackInvocations = 2 ∧
    (run (SetOnSuccessfulAckCallback (StcpBundleSource.init 10 5000000 2))
      oneFramePerBatchRun).callbackInvocations
      = min
          (run (SetOnSuccessfulAckCallback (StcpBundleSource.init 10 5000000 2))
            oneFramePerBatchRun).m_totalDataSegmentsAckedByTcpSendCallback
          (run (SetOnSuccessfulAckCallback (StcpBundleSource.init 10 5000000 2))
            oneFramePerBatchRun).m_totalDataSegmentsAckedByRate :=
  ⟨by decide, callbacks_eq_min_of_single_frame_batches 10 5000000 2 oneFramePerBatchRun
    (by decide)⟩

/-- C12: in every state that a run reaches from a freshly constructed sender,
the number of callback invocations is at most the minimum of the frames
acknowledged by write completions and the frames acknowledged by the pacer; and
any further event invokes the callback at most once, and only if it raises that
minimum, so that each invocation belongs to a frame of its own whose second
acknowledgement has just arrived. -/
theorem callback_at_most_once_per_frame (keepAlive rateBps maxUnacked : Nat)
    (events : List Event) (e : Event) :
    (run (StcpBundleSource.init keepAlive rateBps maxUnacked) events).callbackInvocations
      ≤ min
          (run (StcpBundleSource.init keepAlive rateBps maxUnacked)
            events).m_totalDataSegmentsAckedByTcpSendCallback
          (run (StcpBundleSource.init keepAlive rateBps maxUnacked)
            events).m_totalDataSegmentsAckedByRate ∧
    (step (run (StcpBundleSource.init keepAlive rateBps maxUnacked) events)
        e).callbackInvocations
      ≤ (run (StcpBundleSource.init keepAlive rateBps maxUnacked) events).callbackInvocations
        + 1 ∧
    ((step (run (StcpBundleSource.init keepAlive rateBps maxUnacked) events)
        e).callbackInvocations
      = (run (StcpBundleSource.init keepAlive rateBps maxUnacked) events).callbackInvocations
        + 1 →
      min
          (run (StcpBundleSource.init keepAlive rateBps maxUnacked)
            events).m_totalDataSegmentsAckedByTcpSendCallback
          (run (StcpBundleSource.init keepAlive rateBps maxUnacked)
            events).m_totalDataSegmentsAckedByRate
        < min
            (step (run (StcpBundleSource.init keepAlive rateBps maxUnacked) events)
              e).m_totalDataSegmentsAckedByTcpSendCallback
            (step (run (StcpBundleSource.init keepAlive rateBps maxUnacked) events)
              e).m_totalDataSegmentsAckedByRate) := by
  obtain ⟨_, _, _, _, h5, h6, _⟩ :=
    Consistent_run _ events (Consistent_init keepAlive rateBps maxUnacked)
  exact ⟨Nat.le_min.mpr ⟨h5, h6⟩, step_callback _ e⟩

/-- C13: on a sender with a registered callback, the completion of the write of
the frame at the head of the transport ring (frame number `T + 1`, where `T`
frames were acknowledged by write completions before) invokes the callback once
if the pacer has acknowledged that frame already (`T + 1 ≤ R`) and not at all
otherwise; and a non-cancelled rate-timer expiry whose batch holds exactly one
frame (frame number `R + 1`) invokes the callback once if the write of that
frame has completed already (`R + 1 ≤ T`) and not at all otherwise.  So each
frame gets its one invocation at the later of its two acknowledgements. -/
theorem callback_fires_at_later_completion (s : StcpBundleSource)
    (hcb : s.m_onSuccessfulAckCallback = true) :
    (∀ bytes_transferred, 0 < s.m_bytesToAckByTcpSendCallbackCb.len →
      s.m_bytesToAckByTcpSendCallbackCbVec.getD s.m_bytesToAckByTcpSendCallbackCb.head 0
        = bytes_transferred →
      (HandleTcpSend s ErrorCode.success bytes_transferred).m_totalDataSegmentsAckedByTcpSendCallback
        = s.m_totalDataSegmentsAckedByTcpSendCallback + 1 ∧
      (HandleTcpSend s ErrorCode.success bytes_transferred).m_totalDataSegmentsAckedByRate
        = s.m_totalDataSegmentsAckedByRate ∧
      (HandleTcpSend s ErrorCode.success bytes_transferred).callbackInvocations
        = if s.m_totalDataSegmentsAckedByTcpSendCallback + 1 ≤ s.m_totalDataSegmentsAckedByRate
          then s.callbackInvocations + 1 else s.callbackInvocations) ∧
    (∀ numBytes e, e ≠ ErrorCode.operation_aborted →
      s.m_groupingOfBytesToAckByRateVec = [numBytes] →
      (OnRate_TimerExpired s e).m_totalDataSegmentsAckedByRate
        = s.m_totalDataSegmentsAckedByRate + 1 ∧
      (OnRate_TimerExpired s e).m_totalDataSegmentsAckedByTcpSendCallback
        = s.m_totalDataSegmentsAckedByTcpSendCallback ∧
      (OnRate_TimerExpired s e).callbackInvocations
        = if s.m_totalDataSegmentsAckedByRate + 1 ≤ s.m_totalDataSegmentsAckedByTcpSendCallback
          then s.callbackInvocations + 1 else s.callbackInvocations) := by
  constructor
  · intro bytes_transferred hpos hmatch
    rcases HandleTcpSend_cases s ErrorCode.success bytes_transferred with
      ⟨ready, isOpen, keepAliveTimer, hframe⟩ | ⟨_, _, _, hframe⟩
    · exfalso
      have hread : s.m_bytesToAckByTcpSendCallbackCb.GetIndexForRead
          = some s.m_bytesToAckByTcpSendCallbackCb.head := by
        unfold CircularIndexBuffer.GetIndexForRead CircularIndexBuffer.IsEmpty
        simp [Nat.pos_iff_ne_zero.mp hpos]
      have hcount := congrArg StcpBundleSource.m_totalDataSegmentsAckedByTcpSendCallback hframe
      unfold HandleTcpSend at hcount
      simp only [ne_eq, not_true_eq_false, if_false, hread, hmatch, if_true] at hcount
      split at hcount <;> simp at hcount
    · rw [hframe]
      simp only [hcb, Bool.true_and, decide_eq_true_eq]
      exact ⟨trivial, trivial, trivial⟩
  · intro numBytes e he hbatch
    have hne : s.m_groupingOfBytesToAckByRateVec ≠ [] := by
      rw [hbatch]; exact List.cons_ne_nil _ _
    rw [OnRate_TimerExpired_of_batch s e he hne]
    obtain ⟨h1, h2, h3, _⟩ := TryRestartRateTimer_counters { s with
        m_rateTimerIsRunning := false
        m_rateTimer := none
        m_totalDataSegmentsAckedByRate :=
          s.m_totalDataSegmentsAckedByRate + s.m_groupingOfBytesToAckByRateVec.length
        m_totalBytesAckedByRate :=
          s.m_totalBytesAckedByRate + s.m_groupingOfBytesToAckByRateVec.sum
        m_groupingOfBytesToAckByRateVec := []
        callbackInvocations :=
          if s.m_onSuccessfulAckCallback
              && decide (s.m_totalDataSegmentsAckedByRate
                  + s.m_groupingOfBytesToAckByRateVec.length
                ≤ s.m_totalDataSegmentsAckedByTcpSendCallback) then
            s.callbackInvocations + 1
          else s.callbackInvocations }
    rw [h1, h2, h3]
    simp only [hcb, Bool.true_and, decide_eq_true_eq, hbatch, List.length_cons, List.length_nil,
      Nat.zero_add]
    exact ⟨trivial, trivial, trivial⟩

/-- C13 at a single `Forward`, in both orders.  When the rate timer fires first
no callback is made at that point and the later write completion makes one;
when the write completes first no callback is made at that point and the later
rate-timer expiry makes one. -/
theorem callback_fires_at_later_completion_witness :
    (rateFirstSender.m_totalDataSegmentsAckedByRate = 1 ∧
      rateFirstSender.callbackInvocations = 0 ∧
      (HandleTcpSend rateFirstSender ErrorCode.success 5).callbackInvocations = 1) ∧
    (transportFirstSender.m_totalDataSegmentsAckedByTcpSendCallback = 1 ∧
      transportFirstSender.callbackInvocations = 0 ∧
      (OnRate_TimerExpired transportFirstSender ErrorCode.success).callbackInvocations = 1) :=
  ⟨⟨by decide, by decide,
    ((callback_fires_at_later_completion rateFirstSender (by decide)).1 5 (by decide)
      (by decide)).2.2⟩,
   ⟨by decide, by decide,
    ((callback_fires_at_later_completion transportFirstSender (by decide)).2 5
      ErrorCode.success (by decide) (by decide)).2.2⟩⟩

/-- C14: in every state that a run reaches from a freshly constructed sender,
the frames sent are at least the frames acknowledged by write completions and
at least the frames acknowledged by the pacer. -/
theorem frames_sent_bound_frames_acked (keepAlive rateBps maxUnacked : Nat)
    (events : List Event) :
    (run (StcpBundleSource.init keepAlive rateBps maxUnacked)
        events).m_totalDataSegmentsAckedByTcpSendCallback
      ≤ (run (StcpBundleSource.init keepAlive rateBps maxUnacked) events).m_totalDataSegmentsSent ∧
    (run (StcpBundleSource.init keepAlive rateBps maxUnacked)
        events).m_totalDataSegmentsAckedByRate
      ≤ (run (StcpBundleSource.init keepAlive rateBps maxUnacked)
          events).m_totalDataSegmentsSent := by
  obtain ⟨_, _, h3, h4, _, _, _⟩ :=
    Consistent_run _ events (Consistent_init keepAlive rateBps maxUnacked)
  omega

/-- C15: in every state that a run reaches from a freshly constructed sender
(runs with failed writes and with completions of a wrong byte count included),
the number of entries in the transport ring is the number of frames sent minus
the number of frames acknowledged by write completions. -/
theorem transport_ring_holds_unacked_frames (keepAlive rateBps maxUnacked : Nat)
    (events : List Event) :
    (run (StcpBundleSource.init keepAlive rateBps maxUnacked)
        events).m_bytesToAckByTcpSendCallbackCb.len
      = (run (StcpBundleSource.init keepAlive rateBps maxUnacked) events).m_totalDataSegmentsSent
        - (run (StcpBundleSource.init keepAlive rateBps maxUnacked)
            events).m_totalDataSegmentsAckedByTcpSendCallback ∧
    (run (StcpBundleSource.init keepAlive rateBps maxUnacked)
        events).m_totalDataSegmentsAckedByTcpSendCallback
      ≤ (run (StcpBundleSource.init keepAlive rateBps maxUnacked)
          events).m_totalDataSegmentsSent := by
  obtain ⟨_, _, h3, _, _, _, _⟩ :=
    Consistent_run _ events (Consistent_init keepAlive rateBps maxUnacked)
  omega

/-- C16, the claim refuted: while the rate timer is running for the only frame
sent, the rate ring is empty although one frame is sent and none is
acknowledged by the pacer. -/
theorem rate_ring_is_short_while_pacing :
    pacingSender.m_rateTimerIsRunning = true ∧
    pacingSender.m_bytesToAckByRateCb.len = 0 ∧
    pacingSender.m_totalDataSegmentsSent = 1 ∧
    pacingSender.m_totalDataSegmentsAckedByRate = 0 ∧
    pacingSender.m_bytesToAckByRateCb.len
      ≠ pacingSender.m_totalDataSegmentsSent - pacingSender.m_totalDataSegmentsAckedByRate := by
  decide

/-- C16 as amended: in every state that a run reaches from a freshly
constructed sender, the number of entries in the rate ring plus the number of
frames in the pending batch is the number of frames sent minus the number of
frames acknowledged by the pacer; the ring alone holds that many entries
whenever no batch is pending. -/
theorem rate_ring_and_batch_hold_unacked_frames (keepAlive rateBps maxUnacked : Nat)
    (events : List Event) :
    (run (StcpBundleSource.init keepAlive rateBps maxUnacked) events).m_bytesToAckByRateCb.len
        + (run (StcpBundleSource.init keepAlive rateBps maxUnacked)
            events).m_groupingOfBytesToAckByRateVec.length
      = (run (StcpBundleSource.init keepAlive rateBps maxUnacked) events).m_totalDataSegmentsSent
        - (run (StcpBundleSource.init keepAlive rateBps maxUnacked)
            events).m_totalDataSegmentsAckedByRate ∧
    ((run (StcpBundleSource.init keepAlive rateBps maxUnacked)
        events).m_groupingOfBytesToAckByRateVec = [] →
      (run (StcpBundleSource.init keepAlive rateBps maxUnacked) events).m_bytesToAckByRateCb.len
        = (run (StcpBundleSource.init keepAlive rateBps maxUnacked)
            events).m_totalDataSegmentsSent
          - (run (StcpBundleSource.init keepAlive rateBps maxUnacked)
              events).m_totalDataSegmentsAckedByRate) := by
  obtain ⟨_, _, _, h4, _, _, _⟩ :=
    Consistent_run _ events (Consistent_init keepAlive rateBps maxUnacked)
  refine ⟨by omega, ?_⟩
  intro hempty
  rw [hempty] at h4
  simp only [List.length_nil] at h4
  omega

/-! ## What the readers obtain from the rings -/

/-- An admitted call of `Forward` appends the stored length to the contents of
both rings and leaves the pending batch. -/
theorem Forward_ringContents (s : StcpBundleSource) (bundleData : List Nat)
    (numUnackedBundles : Nat) (h : Consistent s)
    (hret : (Forward s bundleData numUnackedBundles).ret = true) :
    ringContents (Forward s bundleData numUnackedBundles).state.m_bytesToAckByTcpSendCallbackCb
        (Forward s bundleData numUnackedBundles).state.m_bytesToAckByTcpSendCallbackCbVec
      = ringContents s.m_bytesToAckByTcpSendCallbackCb s.m_bytesToAckByTcpSendCallbackCbVec
        ++ [(4 + bundleData.length % 4294967296) % 4294967296] ∧
    ringContents (Forward s bundleData numUnackedBundles).state.m_bytesToAckByRateCb
        (Forward s bundleData numUnackedBundles).state.m_bytesToAckByRateCbVec
      = ringContents s.m_bytesToAckByRateCb s.m_bytesToAckByRateCbVec
        ++ [(4 + bundleData.length % 4294967296) % 4294967296] ∧
    (Forward s bundleData numUnackedBundles).state.m_groupingOfBytesToAckByRateVec
      = s.m_groupingOfBytesToAckByRateVec := by
  obtain ⟨hready, hrate, htcp⟩ := Forward_of_admitted s _ _ hret
  obtain ⟨h1, h2, _⟩ := h
  rw [Forward_of_free s _ _ hready hrate htcp, GenerateDataUnit_length_mod]
  unfold CircularIndexBuffer.IsFull at hrate htcp
  simp only [decide_eq_false_iff_not, not_le] at hrate htcp
  exact ⟨ringContents_CommitWrite _ _ _ htcp h1.1, ringContents_CommitWrite _ _ _ hrate h2.1, rfl⟩

/-- The entry a completion of a data write consumes is the oldest entry of the
transport ring; the rest stays in the ring.  The completion touches neither the
rate ring nor the pending batch. -/
theorem HandleTcpSend_ringContents (s : StcpBundleSource) (error : ErrorCode)
    (bytes_transferred : Nat) (h : Consistent s) :
    HandleTcpSend.consumed s error bytes_transferred
        ++ ringContents (HandleTcpSend s error bytes_transferred).m_bytesToAckByTcpSendCallbackCb
            (HandleTcpSend s error bytes_transferred).m_bytesToAckByTcpSendCallbackCbVec
      = ringContents s.m_bytesToAckByTcpSendCallbackCb s.m_bytesToAckByTcpSendCallbackCbVec ∧
    (HandleTcpSend s error bytes_transferred).m_bytesToAckByRateCb = s.m_bytesToAckByRateCb ∧
    (HandleTcpSend s error bytes_transferred).m_bytesToAckByRateCbVec
      = s.m_bytesToAckByRateCbVec ∧
    (HandleTcpSend s error bytes_transferred).m_groupingOfBytesToAckByRateVec
      = s.m_groupingOfBytesToAckByRateVec := by
  obtain ⟨h1, _⟩ := h
  unfold HandleTcpSend HandleTcpSend.consumed
  by_cases herr : error = ErrorCode.success
  · subst herr
    simp only [ne_eq, not_true_eq_false, if_false]
    cases hread : s.m_bytesToAckByTcpSendCallbackCb.GetIndexForRead with
    | none => exact ⟨rfl, rfl, rfl, rfl⟩
    | some readIndex =>
      obtain ⟨hidx, hpos⟩ := GetIndexForRead_eq_some _ _ hread
      subst hidx
      simp only
      by_cases hmatch : s.m_bytesToAckByTcpSendCallbackCbVec.getD
          s.m_bytesToAckByTcpSendCallbackCb.head 0 = bytes_transferred
      · rw [if_pos hmatch, if_pos hmatch]
        have hcontents := ringContents_CommitRead s.m_bytesToAckByTcpSendCallbackCb
          s.m_bytesToAckByTcpSendCallbackCbVec hpos h1.2.2
        split
        · exact ⟨hcontents.symm, rfl, rfl, rfl⟩
        · exact ⟨hcontents.symm, rfl, rfl, rfl⟩
      · rw [if_neg hmatch, if_neg hmatch]
        exact ⟨rfl, rfl, rfl, rfl⟩
  · rw [if_pos herr, if_pos herr]
    obtain ⟨isOpen, hf⟩ := DoStcpShutdown_frame s
    rw [hf]
    exact ⟨rfl, rfl, rfl, rfl⟩

/-- The pacer leaves the transport ring with its side array, and keeps the
pending batch followed by the contents of the rate ring. -/
theorem TryRestartRateTimer_ringContents (s : StcpBundleSource) (h : Consistent s) :
    (TryRestartRateTimer s).m_bytesToAckByTcpSendCallbackCb = s.m_bytesToAckByTcpSendCallbackCb ∧
    (TryRestartRateTimer s).m_bytesToAckByTcpSendCallbackCbVec
      = s.m_bytesToAckByTcpSendCallbackCbVec ∧
    (TryRestartRateTimer s).m_groupingOfBytesToAckByRateVec
        ++ ringContents (TryRestartRateTimer s).m_bytesToAckByRateCb
            (TryRestartRateTimer s).m_bytesToAckByRateCbVec
      = s.m_groupingOfBytesToAckByRateVec
        ++ ringContents s.m_bytesToAckByRateCb s.m_bytesToAckByRateCbVec := by
  obtain ⟨_, h2, _⟩ := h
  obtain ⟨hvec, _, reads, hg, hc⟩ := TryRestartRateTimer_moves s h2
  obtain ⟨cb, g, t, running, hframe⟩ := TryRestartRateTimer_frame s
  refine ⟨by rw [hframe], by rw [hframe], ?_⟩
  rw [hvec, hg, List.append_assoc, hc]

/-- A rate-timer expiry leaves the transport ring with its side array; the batch
it credits, then the pending batch, then the contents of the rate ring are the
pending batch and the contents of the rate ring from before. -/
theorem OnRate_TimerExpired_ringContents (s : StcpBundleSource) (e : ErrorCode)
    (h : Consistent s) :
    (OnRate_TimerExpired s e).m_bytesToAckByTcpSendCallbackCb
      = s.m_bytesToAckByTcpSendCallbackCb ∧
    (OnRate_TimerExpired s e).m_bytesToAckByTcpSendCallbackCbVec
      = s.m_bytesToAckByTcpSendCallbackCbVec ∧
    (if e ≠ ErrorCode.operation_aborted then s.m_groupingOfBytesToAckByRateVec else [])
        ++ ((OnRate_TimerExpired s e).m_groupingOfBytesToAckByRateVec
          ++ ringContents (OnRate_TimerExpired s e).m_bytesToAckByRateCb
              (OnRate_TimerExpired s e).m_bytesToAckByRateCbVec)
      = s.m_groupingOfBytesToAckByRateVec
        ++ ringContents s.m_bytesToAckByRateCb s.m_bytesToAckByRateCbVec := by
  by_cases hidle : e = ErrorCode.operation_aborted ∨ s.m_groupingOfBytesToAckByRateVec = []
  · rw [OnRate_TimerExpired_of_idle s e hidle]
    refine ⟨rfl, rfl, ?_⟩
    rcases hidle with hab | hempty
    · simp [hab]
    · simp [hempty]
  · rw [not_or] at hidle
    rw [OnRate_TimerExpired_of_batch s e hidle.1 hidle.2]
    obtain ⟨h1, h2, h3, h4, h5, h6, h7⟩ := h
    have hpos : 0 < s.m_groupingOfBytesToAckByRateVec.length := List.length_pos.mpr hidle.2
    have hmid : Consistent { s with
        m_rateTimerIsRunning := false
        m_rateTimer := none
        m_totalDataSegmentsAckedByRate :=
          s.m_totalDataSegmentsAckedByRate + s.m_groupingOfBytesToAckByRateVec.length
        m_totalBytesAckedByRate :=
          s.m_totalBytesAckedByRate + s.m_groupingOfBytesToAckByRateVec.sum
        m_groupingOfBytesToAckByRateVec := []
        callbackInvocations :=
          if s.m_onSuccessfulAckCallback
              && decide (s.m_totalDataSegmentsAckedByRate
                  + s.m_groupingOfBytesToAckByRateVec.length
                ≤ s.m_totalDataSegmentsAckedByTcpSendCallback) then
            s.callbackInvocations + 1
          else s.callbackInvocations } := by
      refine ⟨h1, h2, h3, ?_, ?_, ?_, ?_⟩
      · simp only [List.length_nil]
        omega
      · simp only
        split
        · rename_i hfire
          simp only [Bool.and_eq_true, decide_eq_true_eq] at hfire
          omega
        · exact h5
      · simp only
        split <;> omega
      · intro hrun
        exact absurd hrun Bool.false_ne_true
    obtain ⟨k1, k2, k3⟩ := TryRestartRateTimer_ringContents _ hmid
    refine ⟨k1, k2, ?_⟩
    rw [k3]
    simp [hidle.1]

/-- An event other than a completion of a data write reads nothing from the
transport ring. -/
theorem transportReads_cons_of_not_send (s : StcpBundleSource) (e : Event) (events : List Event)
    (hsend : ∀ error bytes_transferred, e ≠ Event.handleTcpSend error bytes_transferred) :
    transportReads s (e :: events) = transportReads (step s e) events := by
  cases e <;> first | rfl | exact absurd rfl (hsend _ _)

/-- An event other than a rate-timer expiry credits no batch. -/
theorem creditedBatches_cons_of_not_rate (s : StcpBundleSource) (e : Event)
    (events : List Event) (hrate : ∀ ec, e ≠ Event.onRateTimerExpired ec) :
    creditedBatches s (e :: events) = creditedBatches (step s e) events := by
  cases e <;> first | rfl | exact absurd rfl (hrate _)

/-- An event that is neither a call of `Forward`, nor a completion of a data
write, nor a run of the pacer leaves both rings, their side arrays and the
pending batch as they are. -/
theorem step_neutral_rings (s : StcpBundleSource) (e : Event)
    (hforward : ∀ bundleData numUnackedBundles, e ≠ Event.forward bundleData numUnackedBundles)
    (hsend : ∀ error bytes_transferred, e ≠ Event.handleTcpSend error bytes_transferred)
    (hsignal : ∀ ec, e ≠ Event.onNewDataTimerCancelled ec)
    (hrate : ∀ ec, e ≠ Event.onRateTimerExpired ec) :
    (step s e).m_bytesToAckByTcpSendCallbackCb = s.m_bytesToAckByTcpSendCallbackCb ∧
    (step s e).m_bytesToAckByTcpSendCallbackCbVec = s.m_bytesToAckByTcpSendCallbackCbVec ∧
    (step s e).m_bytesToAckByRateCb = s.m_bytesToAckByRateCb ∧
    (step s e).m_bytesToAckByRateCbVec = s.m_bytesToAckByRateCbVec ∧
    (step s e).m_groupingOfBytesToAckByRateVec = s.m_groupingOfBytesToAckByRateVec := by
  obtain ⟨ready, socketPtr, isOpen, callback, writes, keepAliveTimer, served, hframe⟩ :=
    step_neutral s e hforward hsend hsignal hrate
  rw [hframe]
  exact ⟨rfl, rfl, rfl, rfl, rfl⟩

/-- Over a run whose payloads have at most `2^32 - 5` bytes, what the
transport-ack path has read followed by what is left in the transport ring is
what was in the ring followed by the framed lengths of the admitted payloads;
and the batches credited, then the pending batch, then what is left in the rate
ring are the pending batch and the ring contents from before followed by the
same framed lengths. -/
theorem run_ringContents (s : StcpBundleSource) (events : List Event) (h : Consistent s)
    (hlen : ∀ bundleData numUnackedBundles,
      Event.forward bundleData numUnackedBundles ∈ events → bundleData.length ≤ 4294967291) :
    transportReads s events
        ++ ringContents (run s events).m_bytesToAckByTcpSendCallbackCb
            (run s events).m_bytesToAckByTcpSendCallbackCbVec
      = ringContents s.m_bytesToAckByTcpSendCallbackCb s.m_bytesToAckByTcpSendCallbackCbVec
        ++ (admitted s events).map (fun p => p.length + 4) ∧
    creditedBatches s events
        ++ ((run s events).m_groupingOfBytesToAckByRateVec
          ++ ringContents (run s events).m_bytesToAckByRateCb
              (run s events).m_bytesToAckByRateCbVec)
      = (s.m_groupingOfBytesToAckByRateVec
          ++ ringContents s.m_bytesToAckByRateCb s.m_bytesToAckByRateCbVec)
        ++ (admitted s events).map (fun p => p.length + 4) := by
  induction events generalizing s with
  | nil => simp [run, admitted, transportReads, creditedBatches]
  | cons e events ih =>
    have hrest : ∀ bundleData numUnackedBundles,
        Event.forward bundleData numUnackedBundles ∈ events → bundleData.length ≤ 4294967291 :=
      fun b n hmem => hlen b n (List.mem_cons_of_mem _ hmem)
    obtain ⟨ih1, ih2⟩ := ih (step s e) (Consistent_step s e h) hrest
    rw [run_cons]
    rcases Event.classify e with ⟨bundleData, numUnackedBundles, rfl⟩ |
      ⟨error, bytes_transferred, rfl⟩ | ⟨ec, rfl⟩ | ⟨ec, rfl⟩ | ⟨hforward, hsend, hsignal, hrate⟩
    · have hsmall := hlen bundleData numUnackedBundles (List.mem_cons_self _ _)
      have hslot : (4 + bundleData.length % 4294967296) % 4294967296 = bundleData.length + 4 := by
        omega
      rw [transportReads_cons_of_not_send _ _ _ (by intro _ _ hne; cases hne),
        creditedBatches_cons_of_not_rate _ _ _ (by intro _ hne; cases hne), ih1, ih2]
      simp only [step, admitted]
      cases hret : (Forward s bundleData numUnackedBundles).ret
      · rw [Forward_state_of_rejected s _ _ hret]
        simp
      · obtain ⟨k1, k2, k3⟩ := Forward_ringContents s bundleData numUnackedBundles h hret
        rw [k1, k2, k3, hslot]
        simp
    · obtain ⟨k1, k2, k3, k4⟩ := HandleTcpSend_ringContents s error bytes_transferred h
      rw [creditedBatches_cons_of_not_rate _ _ _ (by intro _ hne; cases hne),
        admitted_cons_of_not_forward _ _ _ (by intro _ _ hne; cases hne), ih2]
      simp only [transportReads, step] at ih1 ⊢
      rw [List.append_assoc, ih1, ← List.append_assoc, k1, k2, k3, k4]
      exact ⟨rfl, rfl⟩
    · rw [transportReads_cons_of_not_send _ _ _ (by intro _ _ hne; cases hne),
        creditedBatches_cons_of_not_rate _ _ _ (by intro _ hne; cases hne),
        admitted_cons_of_not_forward _ _ _ (by intro _ _ hne; cases hne), ih1, ih2]
      simp only [step, OnNewData_TimerCancelled]
      split
      · have hmid : Consistent { s with newDataSignalerCancelled := false } := h
        obtain ⟨k1, k2, k3⟩ := TryRestartRateTimer_ringContents _ hmid
        rw [k1, k2, k3]
        exact ⟨rfl, rfl⟩
      · exact ⟨rfl, rfl⟩
    · obtain ⟨k1, k2, k3⟩ := OnRate_TimerExpired_ringContents s ec h
      rw [transportReads_cons_of_not_send _ _ _ (by intro _ _ hne; cases hne),
        admitted_cons_of_not_forward _ _ _ (by intro _ _ hne; cases hne), ih1]
      simp only [creditedBatches, step] at ih2 ⊢
      rw [List.append_assoc, ih2, ← List.append_assoc, k1, k2, k3]
      exact ⟨rfl, rfl⟩
    · obtain ⟨k1, k2, k3, k4, k5⟩ := step_neutral_rings s e hforward hsend hsignal hrate
      rw [transportReads_cons_of_not_send _ _ _ hsend,
        creditedBatches_cons_of_not_rate _ _ _ hrate,
        admitted_cons_of_not_forward _ _ _ hforward, ih1, ih2, k1, k2, k3, k4, k5]
      exact ⟨rfl, rfl⟩

/-- A connected sender is consistent. -/
theorem Consistent_connectedSender (maxUnacked : Nat) : Consistent (connectedSender maxUnacked) :=
  Consistent_step _ (Event.onConnect ErrorCode.success)
    (Consistent_step _ (Event.onResolve ErrorCode.success) (Consistent_init 10 5000000 maxUnacked))

/-- C17, the claim refuted at two payload lengths.  After a payload of
`2^32 - 4` bytes is admitted, the entry that the readers of both rings will
obtain is 0, while the framed length is `2^32`; after a payload of `2^32` bytes
is admitted, the entry is 4, while the payload with its prefix has `2^32 + 4`
bytes. -/
theorem readers_obtain_wrapped_lengths :
    (Forward (connectedSender 2) (List.replicate 4294967292 0) 0).ret = true ∧
    (List.replicate 4294967292 0).length + 4 = 4294967296 ∧
    ringContents
        (Forward (connectedSender 2) (List.replicate 4294967292 0)
          0).state.m_bytesToAckByTcpSendCallbackCb
        (Forward (connectedSender 2) (List.replicate 4294967292 0)
          0).state.m_bytesToAckByTcpSendCallbackCbVec = [0] ∧
    ringContents
        (Forward (connectedSender 2) (List.replicate 4294967292 0) 0).state.m_bytesToAckByRateCb
        (Forward (connectedSender 2) (List.replicate 4294967292 0)
          0).state.m_bytesToAckByRateCbVec = [0] ∧
    (Forward (connectedSender 2) (List.replicate 4294967296 0) 0).ret = true ∧
    (List.replicate 4294967296 0).length + 4 = 4294967300 ∧
    ringContents
        (Forward (connectedSender 2) (List.replicate 4294967296 0)
          0).state.m_bytesToAckByTcpSendCallbackCb
        (Forward (connectedSender 2) (List.replicate 4294967296 0)
          0).state.m_bytesToAckByTcpSendCallbackCbVec = [4] := by
  have hret1 : (Forward (connectedSender 2) (List.replicate 4294967292 0) 0).ret = true := by
    rw [Forward_ret]; decide
  have hret2 : (Forward (connectedSender 2) (List.replicate 4294967296 0) 0).ret = true := by
    rw [Forward_ret]; decide
  obtain ⟨k1, k2, _⟩ := Forward_ringContents (connectedSender 2) (List.replicate 4294967292 0) 0
    (Consistent_connectedSender 2) hret1
  obtain ⟨k3, _, _⟩ := Forward_ringContents (connectedSender 2) (List.replicate 4294967296 0) 0
    (Consistent_connectedSender 2) hret2
  rw [List.length_replicate] at k1 k2 k3
  refine ⟨hret1, ?_, ?_, ?_, hret2, ?_, ?_⟩
  · rw [List.length_replicate]
  · rw [k1]; decide
  · rw [k2]; decide
  · rw [List.length_replicate]
  · rw [k3]; decide

/-- C17 as amended: take any run from a freshly constructed sender (with any
number of ring slots and any number of admitted frames) in which every payload
given to `Forward` has at most `2^32 - 5` bytes.  The byte counts that the
transport-ack path has read from the transport ring, followed by the entries
still in that ring, are exactly the framed lengths `n + 4` of the admitted
frames in the order of admission; and the byte counts that the pacer has taken
from the rate ring (the batches credited so far, then the pending batch),
followed by the entries still in that ring, are the same sequence.  So each
reader obtains the framed lengths in order, with nothing skipped or repeated. -/
theorem readers_obtain_framed_lengths_in_order (keepAlive rateBps maxUnacked : Nat)
    (events : List Event)
    (hlen : ∀ bundleData numUnackedBundles,
      Event.forward bundleData numUnackedBundles ∈ events → bundleData.length ≤ 4294967291) :
    transportReads (StcpBundleSource.init keepAlive rateBps maxUnacked) events
        ++ ringContents
            (run (StcpBundleSource.init keepAlive rateBps maxUnacked)
              events).m_bytesToAckByTcpSendCallbackCb
            (run (StcpBundleSource.init keepAlive rateBps maxUnacked)
              events).m_bytesToAckByTcpSendCallbackCbVec
      = (admitted (StcpBundleSource.init keepAlive rateBps maxUnacked) events).map
          (fun p => p.length + 4) ∧
    creditedBatches (StcpBundleSource.init keepAlive rateBps maxUnacked) events
        ++ ((run (StcpBundleSource.init keepAlive rateBps maxUnacked)
              events).m_groupingOfBytesToAckByRateVec
          ++ ringContents
              (run (StcpBundleSource.init keepAlive rateBps maxUnacked)
                events).m_bytesToAckByRateCb
              (run (StcpBundleSource.init keepAlive rateBps maxUnacked)
                events).m_bytesToAckByRateCbVec)
      = (admitted (StcpBundleSource.init keepAlive rateBps maxUnacked) events).map
          (fun p => p.length + 4) := by
  obtain ⟨h1, h2⟩ := run_ringContents (StcpBundleSource.init keepAlive rateBps maxUnacked) events
    (Consistent_init keepAlive rateBps maxUnacked) hlen
  have hempty1 : ringContents
      (StcpBundleSource.init keepAlive rateBps maxUnacked).m_bytesToAckByTcpSendCallbackCb
      (StcpBundleSource.init keepAlive rateBps maxUnacked).m_bytesToAckByTcpSendCallbackCbVec
        = [] := rfl
  have hempty2 : (StcpBundleSource.init keepAlive rateBps
        maxUnacked).m_groupingOfBytesToAckByRateVec
      ++ ringContents (StcpBundleSource.init keepAlive rateBps maxUnacked).m_bytesToAckByRateCb
          (StcpBundleSource.init keepAlive rateBps maxUnacked).m_bytesToAckByRateCbVec
        = [] := rfl
  rw [hempty1, List.nil_append] at h1
  rw [hempty2, List.nil_append] at h2
  exact ⟨h1, h2⟩

/-- C17 as amended, at a run with two slots per ring and three admitted frames
of 5, 6 and 7 framed bytes: the transport-ack path has read 5, 6, 7; the pacer
has credited 5, 6 and holds 7 in its pending batch. -/
theorem readers_obtain_framed_lengths_in_order_witness :
    (admitted (StcpBundleSource.init 10 5000000 2) wrapAroundRun).map (fun p => p.length + 4)
      = [5, 6, 7] ∧
    transportReads (StcpBundleSource.init 10 5000000 2) wrapAroundRun = [5, 6, 7] ∧
    creditedBatches (StcpBundleSource.init 10 5000000 2) wrapAroundRun = [5, 6] ∧
    (run (StcpBundleSource.init 10 5000000 2) wrapAroundRun).m_groupingOfBytesToAckByRateVec
      = [7] ∧
    transportReads (StcpBundleSource.init 10 5000000 2) wrapAroundRun
        ++ ringContents
            (run (StcpBundleSource.init 10 5000000 2)
              wrapAroundRun).m_bytesToAckByTcpSendCallbackCb
            (run (StcpBundleSource.init 10 5000000 2)
              wrapAroundRun).m_bytesToAckByTcpSendCallbackCbVec
      = (admitted (StcpBundleSource.init 10 5000000 2) wrapAroundRun).map
          (fun p => p.length + 4) :=
  ⟨by decide, by decide, by decide, by decide,
   (readers_obtain_framed_lengths_in_order 10 5000000 2 wrapAroundRun (by
      intro bundleData numUnackedBundles hmem
      simp only [wrapAroundRun, List.mem_cons, Event.forward.injEq, reduceCtorEq, false_or,
        List.mem_nil_iff, or_false] at hmem
      rcases hmem with ⟨rfl, _⟩ | ⟨rfl, _⟩ | ⟨rfl, _⟩ <;> decide)).1⟩

/-! ## The rate timer and its batch -/

/-- Every event other than a cancelled rate-timer expiry keeps the rate timer
running exactly when a batch is pending. -/
theorem step_running_iff (s : StcpBundleSource) (e : Event)
    (hne : e ≠ Event.onRateTimerExpired ErrorCode.operation_aborted)
    (h : s.m_rateTimerIsRunning = true ↔ s.m_groupingOfBytesToAckByRateVec ≠ []) :
    (step s e).m_rateTimerIsRunning = true ↔
      (step s e).m_groupingOfBytesToAckByRateVec ≠ [] := by
  rcases Event.classify e with ⟨bundleData, numUnackedBundles, rfl⟩ |
    ⟨error, bytes_transferred, rfl⟩ | ⟨ec, rfl⟩ | ⟨ec, rfl⟩ | ⟨hforward, hsend, hsignal, hrate⟩
  · simp only [step]
    cases hret : (Forward s bundleData numUnackedBundles).ret
    · rw [Forward_state_of_rejected s _ _ hret]
      exact h
    · obtain ⟨hready, hrate, htcp⟩ := Forward_of_admitted s _ _ hret
      rw [Forward_of_free s _ _ hready hrate htcp]
      exact h
  · simp only [step]
    rcases HandleTcpSend_cases s error bytes_transferred with
      ⟨ready, isOpen, keepAliveTimer, hframe⟩ | ⟨_, hpos, _, hframe⟩
    · rw [hframe]; exact h
    · rw [hframe]; exact h
  · simp only [step, OnNewData_TimerCancelled]
    split
    · exact TryRestartRateTimer_running_iff _ h
    · exact h
  · simp only [step]
    by_cases hbatch : s.m_groupingOfBytesToAckByRateVec = []
    · rw [OnRate_TimerExpired_of_idle s ec (Or.inr hbatch)]
      simp only [hbatch, ne_eq, not_true_eq_false, iff_false, Bool.not_eq_true]
    · have hec : ec ≠ ErrorCode.operation_aborted := by
        intro heq
        exact hne (by rw [heq])
      rw [OnRate_TimerExpired_of_batch s ec hec hbatch]
      apply TryRestartRateTimer_running_iff
      simp only [ne_eq, not_true_eq_false, iff_false, Bool.not_eq_true]
  · obtain ⟨ready, socketPtr, isOpen, callback, writes, keepAliveTimer, served, hframe⟩ :=
      step_neutral s e hforward hsend hsignal hrate
    rw [hframe]
    exact h

/-- A run without a cancelled rate-timer expiry keeps the rate timer running
exactly when a batch is pending. -/
theorem run_running_iff (s : StcpBundleSource) (events : List Event)
    (hne : Event.onRateTimerExpired ErrorCode.operation_aborted ∉ events)
    (h : s.m_rateTimerIsRunning = true ↔ s.m_groupingOfBytesToAckByRateVec ≠ []) :
    (run s events).m_rateTimerIsRunning = true ↔
      (run s events).m_groupingOfBytesToAckByRateVec ≠ [] := by
  induction events generalizing s with
  | nil => exact h
  | cons e events ih =>
    rw [run_cons]
    apply ih
    · exact fun hmem => hne (List.mem_cons_of_mem _ hmem)
    · apply step_running_iff s e _ h
      intro heq
      exact hne (heq ▸ List.mem_cons_self _ _)

/-- C18, the claim refuted: after a cancelled rate-timer expiry the rate timer
is not running although the batch of one frame is still pending. -/
theorem cancelled_expiry_leaves_batch_without_timer :
    cancelledPacingSender.m_rateTimerIsRunning = false ∧
    cancelledPacingSender.m_groupingOfBytesToAckByRateVec = [5] ∧
    ¬ (cancelledPacingSender.m_rateTimerIsRunning = true ↔
        cancelledPacingSender.m_groupingOfBytesToAckByRateVec ≠ []) := by
  decide

/-- C18 as amended: in every state that a run without a cancelled rate-timer
expiry reaches from a freshly constructed sender (so after the pacer has run
and after a normal rate-timer expiry), the rate timer is running if and only if
the pending batch is not empty.  A cancelled expiry only stops the timer and
leaves the batch as it is; after it, as in every reachable state, a running
timer still has a pending batch. -/
theorem rate_timer_running_iff_batch_pending (keepAlive rateBps maxUnacked : Nat)
    (events : List Event)
    (hne : Event.onRateTimerExpired ErrorCode.operation_aborted ∉ events) :
    ((run (StcpBundleSource.init keepAlive rateBps maxUnacked) events).m_rateTimerIsRunning = true
      ↔ (run (StcpBundleSource.init keepAlive rateBps maxUnacked)
          events).m_groupingOfBytesToAckByRateVec ≠ []) ∧
    (∀ s : StcpBundleSource,
      (OnRate_TimerExpired s ErrorCode.operation_aborted).m_rateTimerIsRunning = false ∧
      (OnRate_TimerExpired s ErrorCode.operation_aborted).m_groupingOfBytesToAckByRateVec
        = s.m_groupingOfBytesToAckByRateVec) ∧
    (∀ later : List Event,
      (run (run (StcpBundleSource.init keepAlive rateBps maxUnacked) events)
          later).m_rateTimerIsRunning = true →
      (run (run (StcpBundleSource.init keepAlive rateBps maxUnacked) events)
          later).m_groupingOfBytesToAckByRateVec ≠ []) := by
  refine ⟨run_running_iff _ events hne ?_, ?_, ?_⟩
  · simp [StcpBundleSource.init]
  · intro s
    rw [OnRate_TimerExpired_of_idle s _ (Or.inl rfl)]
    exact ⟨rfl, rfl⟩
  · intro later
    exact (Consistent_run _ later
      (Consistent_run _ events (Consistent_init keepAlive rateBps maxUnacked))).2.2.2.2.2.2

/-- C18 as amended, at the run with one frame per batch, which ends with the
rate timer stopped and no batch pending after passing through states with a
running timer. -/
theorem rate_timer_running_iff_batch_pending_witness :
    ((run (StcpBundleSource.init 10 5000000 2) oneFramePerBatchRun).m_rateTimerIsRunning = true
      ↔ (run (StcpBundleSource.init 10 5000000 2)
          oneFramePerBatchRun).m_groupingOfBytesToAckByRateVec ≠ []) ∧
    pacingSender.m_rateTimerIsRunning = true ∧
    pacingSender.m_groupingOfBytesToAckByRateVec = [5] :=
  ⟨(rate_timer_running_iff_batch_pending 10 5000000 2 oneFramePerBatchRun (by decide)).1,
    by decide, by decide⟩

/-! ## The keep-alive flag and the ready flag -/

/-- The pacer touches neither the keep-alive flag, nor the socket pointer, nor
the ready flag. -/
theorem TryRestartRateTimer_flags (s : StcpBundleSource) :
    (TryRestartRateTimer s).m_dataServedAsKeepAlive = s.m_dataServedAsKeepAlive ∧
    (TryRestartRateTimer s).m_tcpSocketPtr = s.m_tcpSocketPtr ∧
    (TryRestartRateTimer s).m_readyToForward = s.m_readyToForward := by
  obtain ⟨cb, g, t, running, hframe⟩ := TryRestartRateTimer_frame s
  rw [hframe]
  exact ⟨rfl, rfl, rfl⟩

/-- The rate-timer handler touches neither the keep-alive flag, nor the socket
pointer, nor the ready flag. -/
theorem OnRate_TimerExpired_flags (s : StcpBundleSource) (e : ErrorCode) :
    (OnRate_TimerExpired s e).m_dataServedAsKeepAlive = s.m_dataServedAsKeepAlive ∧
    (OnRate_TimerExpired s e).m_tcpSocketPtr = s.m_tcpSocketPtr ∧
    (OnRate_TimerExpired s e).m_readyToForward = s.m_readyToForward := by
  by_cases hidle : e = ErrorCode.operation_aborted ∨ s.m_groupingOfBytesToAckByRateVec = []
  · rw [OnRate_TimerExpired_of_idle s e hidle]
    exact ⟨rfl, rfl, rfl⟩
  · rw [not_or] at hidle
    rw [OnRate_TimerExpired_of_batch s e hidle.1 hidle.2]
    obtain ⟨h1, h2, h3⟩ := TryRestartRateTimer_flags { s with
        m_rateTimerIsRunning := false
        m_rateTimer := none
        m_totalDataSegmentsAckedByRate :=
          s.m_totalDataSegmentsAckedByRate + s.m_groupingOfBytesToAckByRateVec.length
        m_totalBytesAckedByRate :=
          s.m_totalBytesAckedByRate + s.m_groupingOfBytesToAckByRateVec.sum
        m_groupingOfBytesToAckByRateVec := []
        callbackInvocations :=
          if s.m_onSuccessfulAckCallback
              && decide (s.m_totalDataSegmentsAckedByRate
                  + s.m_groupingOfBytesToAckByRateVec.length
                ≤ s.m_totalDataSegmentsAckedByTcpSendCallback) then
            s.callbackInvocations + 1
          else s.callbackInvocations }
    rw [h1, h2, h3]
    exact ⟨rfl, rfl, rfl⟩

/-- A call of `Forward` sets the keep-alive flag when it is admitted and leaves
it otherwise; it touches neither the socket pointer nor the ready flag. -/
theorem Forward_flags (s : StcpBundleSource) (bundleData : List Nat) (numUnackedBundles : Nat) :
    (Forward s bundleData numUnackedBundles).state.m_dataServedAsKeepAlive
      = (s.m_dataServedAsKeepAlive || (Forward s bundleData numUnackedBundles).ret) ∧
    (Forward s bundleData numUnackedBundles).state.m_tcpSocketPtr = s.m_tcpSocketPtr ∧
    (Forward s bundleData numUnackedBundles).state.m_readyToForward = s.m_readyToForward := by
  cases hret : (Forward s bundleData numUnackedBundles).ret
  · rw [Forward_state_of_rejected s _ _ hret]
    simp
  · obtain ⟨hready, hrate, htcp⟩ := Forward_of_admitted s _ _ hret
    rw [Forward_of_free s _ _ hready hrate htcp]
    simp

/-- An event other than a call of `Forward` and a non-cancelled keep-alive
expiry leaves the keep-alive flag as it is. -/
theorem step_served (s : StcpBundleSource) (e : Event)
    (hforward : ∀ bundleData numUnackedBundles, e ≠ Event.forward bundleData numUnackedBundles)
    (htick : ∀ ec, e = Event.onNeedToSendKeepAliveMessageTimerExpired ec →
      ec = ErrorCode.operation_aborted) :
    (step s e).m_dataServedAsKeepAlive = s.m_dataServedAsKeepAlive := by
  cases e with
  | forward bundleData numUnackedBundles => exact absurd rfl (hforward _ _)
  | setOnSuccessfulAckCallback => rfl
  | onResolve ec => simp only [step, OnResolve]; split <;> rfl
  | onConnect ec => simp only [step, OnConnect]; split <;> rfl
  | handleTcpSend error bytes_transferred =>
    simp only [step]
    rcases HandleTcpSend_cases s error bytes_transferred with
      ⟨ready, isOpen, keepAliveTimer, hframe⟩ | ⟨_, hpos, _, hframe⟩
    · rw [hframe]
    · rw [hframe]
  | handleTcpSendKeepAlive error =>
    simp only [step, HandleTcpSendKeepAlive]
    split
    · obtain ⟨isOpen, h⟩ := DoStcpShutdown_frame s
      rw [h]
    · rfl
  | handleTcpReceiveSome error =>
    simp only [step, HandleTcpReceiveSome]
    split
    · rfl
    · split
      · obtain ⟨isOpen, h⟩ := DoStcpShutdown_frame s
        rw [h]
      · rfl
  | onNewDataTimerCancelled ec =>
    simp only [step, OnNewData_TimerCancelled]
    split
    · rw [(TryRestartRateTimer_flags _).1]
    · rfl
  | onRateTimerExpired ec =>
    simp only [step]
    exact (OnRate_TimerExpired_flags s ec).1
  | onNeedToSendKeepAliveMessageTimerExpired ec =>
    simp only [step, OnNeedToSendKeepAliveMessage_TimerExpired]
    rw [htick ec rfl]
    simp

/-- No event takes the socket away once `OnResolve` has created it. -/
theorem step_socketPtr (s : StcpBundleSource) (e : Event) (h : s.m_tcpSocketPtr = true) :
    (step s e).m_tcpSocketPtr = true := by
  cases e with
  | forward bundleData numUnackedBundles =>
    simp only [step]
    rw [(Forward_flags s _ _).2.1]
    exact h
  | setOnSuccessfulAckCallback => exact h
  | onResolve ec => simp only [step, OnResolve]; split <;> first | exact h | rfl
  | onConnect ec => simp only [step, OnConnect]; split <;> exact h
  | handleTcpSend error bytes_transferred =>
    simp only [step]
    rcases HandleTcpSend_cases s error bytes_transferred with
      ⟨ready, isOpen, keepAliveTimer, hframe⟩ | ⟨_, hpos, _, hframe⟩
    · rw [hframe]; exact h
    · rw [hframe]; exact h
  | handleTcpSendKeepAlive error =>
    simp only [step, HandleTcpSendKeepAlive]
    split
    · obtain ⟨isOpen, hf⟩ := DoStcpShutdown_frame s
      rw [hf]; exact h
    · exact h
  | handleTcpReceiveSome error =>
    simp only [step, HandleTcpReceiveSome]
    split
    · exact h
    · split
      · obtain ⟨isOpen, hf⟩ := DoStcpShutdown_frame s
        rw [hf]; exact h
      · exact h
  | onNewDataTimerCancelled ec =>
    simp only [step, OnNewData_TimerCancelled]
    split
    · rw [(TryRestartRateTimer_flags _).2.1]; exact h
    · exact h
  | onRateTimerExpired ec =>
    simp only [step]
    rw [(OnRate_TimerExpired_flags s ec).2.1]; exact h
  | onNeedToSendKeepAliveMessageTimerExpired ec =>
    simp only [step, OnNeedToSendKeepAliveMessage_TimerExpired]
    repeat' split
    all_goals exact h

/-- No run takes the socket away once `OnResolve` has created it. -/
theorem run_socketPtr (s : StcpBundleSource) (events : List Event)
    (hsock : s.m_tcpSocketPtr = true) : (run s events).m_tcpSocketPtr = true := by
  induction events generalizing s with
  | nil => exact hsock
  | cons e events ih => exact ih (step s e) (step_socketPtr s e hsock)

/-- Over a run without a non-cancelled keep-alive expiry, the keep-alive flag is
set exactly when it was set before or a call of `Forward` was admitted. -/
theorem run_served (s : StcpBundleSource) (events : List Event)
    (htick : ∀ ec, Event.onNeedToSendKeepAliveMessageTimerExpired ec ∈ events →
      ec = ErrorCode.operation_aborted) :
    (run s events).m_dataServedAsKeepAlive
      = (s.m_dataServedAsKeepAlive || !(admitted s events).isEmpty) := by
  induction events generalizing s with
  | nil => simp [run, admitted]
  | cons e events ih =>
    have hrest : ∀ ec, Event.onNeedToSendKeepAliveMessageTimerExpired ec ∈ events →
        ec = ErrorCode.operation_aborted :=
      fun ec hmem => htick ec (List.mem_cons_of_mem _ hmem)
    rw [run_cons, ih (step s e) hrest]
    by_cases hforward : ∀ bundleData numUnackedBundles,
        e ≠ Event.forward bundleData numUnackedBundles
    · rw [admitted_cons_of_not_forward s e events hforward, step_served s e hforward]
      intro ec heq
      exact htick ec (heq ▸ List.mem_cons_self _ _)
    · push_neg at hforward
      obtain ⟨bundleData, numUnackedBundles, rfl⟩ := hforward
      simp only [step, admitted]
      rw [(Forward_flags s _ _).1]
      cases hret : (Forward s bundleData numUnackedBundles).ret <;> simp

/-- What a non-cancelled keep-alive expiry posts on a sender that has a
socket. -/
theorem OnNeedToSendKeepAliveMessage_TimerExpired_writes (s : StcpBundleSource) (e : ErrorCode)
    (he : e ≠ ErrorCode.operation_aborted) (hsock : s.m_tcpSocketPtr = true) :
    (OnNeedToSendKeepAliveMessage_TimerExpired s e).asyncWrites
      = (if s.m_dataServedAsKeepAlive then s.asyncWrites
         else s.asyncWrites
          ++ [{ buffer := [0, 0, 0, 0], handler := WriteHandler.tcpSendKeepAlive }]) ∧
    (OnNeedToSendKeepAliveMessage_TimerExpired s e).m_dataServedAsKeepAlive = false ∧
    (OnNeedToSendKeepAliveMessage_TimerExpired s e).m_tcpSocketPtr = true := by
  unfold OnNeedToSendKeepAliveMessage_TimerExpired
  cases hserved : s.m_dataServedAsKeepAlive <;> simp [he, hsock, hserved]

/-- The keep-alive handler posts nothing while the keep-alive flag is set. -/
theorem OnNeedToSendKeepAliveMessage_TimerExpired_of_served (s : StcpBundleSource)
    (e : ErrorCode) (hserved : s.m_dataServedAsKeepAlive = true) :
    (OnNeedToSendKeepAliveMessage_TimerExpired s e).asyncWrites = s.asyncWrites := by
  unfold OnNeedToSendKeepAliveMessage_TimerExpired
  by_cases he : e = ErrorCode.operation_aborted
  · simp [he]
  · cases hsock : s.m_tcpSocketPtr <;> simp [he, hsock, hserved]

/-! ## The claims about keep-alive and shutdown -/

/-- C19, the claim refuted: at the first keep-alive expiry of a connected sender
on which no `Forward` was called at all, the handler posts no write. -/
theorem first_keepalive_expiry_writes_nothing :
    (connectedSender 2).m_readyToForward = true ∧
    (connectedSender 2).m_tcpSocketPtr = true ∧
    (connectedSender 2).m_totalDataSegmentsSent = 0 ∧
    (OnNeedToSendKeepAliveMessage_TimerExpired (connectedSender 2) ErrorCode.success).asyncWrites
      = [] := by
  decide

/-- C19 as amended: take a sender with a socket, a non-cancelled keep-alive
expiry `e0` on it, any run after that expiry without a further non-cancelled
keep-alive expiry, and then the next non-cancelled expiry `e1`.  The handler
of `e1` posts the write `00 00 00 00` if no `Forward` call of the run returned
true, and posts nothing otherwise.  The first expiry after construction posts
nothing in either case, since the keep-alive flag is constructed as set. -/
theorem keepalive_written_iff_idle_since_previous_expiry (s : StcpBundleSource)
    (between : List Event) (e0 e1 : ErrorCode) (hsock : s.m_tcpSocketPtr = true)
    (h0 : e0 ≠ ErrorCode.operation_aborted) (h1 : e1 ≠ ErrorCode.operation_aborted)
    (hbetween : ∀ ec, Event.onNeedToSendKeepAliveMessageTimerExpired ec ∈ between →
      ec = ErrorCode.operation_aborted) :
    (OnNeedToSendKeepAliveMessage_TimerExpired
        (run (OnNeedToSendKeepAliveMessage_TimerExpired s e0) between) e1).asyncWrites
      = (if admitted (OnNeedToSendKeepAliveMessage_TimerExpired s e0) between = [] then
          (run (OnNeedToSendKeepAliveMessage_TimerExpired s e0) between).asyncWrites
            ++ [{ buffer := [0, 0, 0, 0], handler := WriteHandler.tcpSendKeepAlive }]
        else (run (OnNeedToSendKeepAliveMessage_TimerExpired s e0) between).asyncWrites) ∧
    (∀ (keepAlive rateBps maxUnacked : Nat) (events : List Event) (e : ErrorCode),
      (∀ ec, Event.onNeedToSendKeepAliveMessageTimerExpired ec ∈ events →
        ec = ErrorCode.operation_aborted) →
      (OnNeedToSendKeepAliveMessage_TimerExpired
          (run (StcpBundleSource.init keepAlive rateBps maxUnacked) events) e).asyncWrites
        = (run (StcpBundleSource.init keepAlive rateBps maxUnacked) events).asyncWrites) := by
  constructor
  · obtain ⟨_, hflag, hsock1⟩ := OnNeedToSendKeepAliveMessage_TimerExpired_writes s e0 h0 hsock
    have hsock2 := run_socketPtr _ between hsock1
    have hserved := run_served (OnNeedToSendKeepAliveMessage_TimerExpired s e0) between hbetween
    rw [hflag, Bool.false_or] at hserved
    rw [(OnNeedToSendKeepAliveMessage_TimerExpired_writes _ e1 h1 hsock2).1, hserved]
    cases hadm : admitted (OnNeedToSendKeepAliveMessage_TimerExpired s e0) between <;> simp
  · intro keepAlive rateBps maxUnacked events e hticks
    apply OnNeedToSendKeepAliveMessage_TimerExpired_of_served
    rw [run_served _ events hticks]
    rfl

/-- C19 as amended, at a connected sender: after an expiry and an idle interval
the next expiry posts `00 00 00 00`; after an expiry and an interval with an
admitted `Forward` the next expiry posts nothing more. -/
theorem keepalive_written_iff_idle_since_previous_expiry_witness :
    (OnNeedToSendKeepAliveMessage_TimerExpired
        (run (OnNeedToSendKeepAliveMessage_TimerExpired (connectedSender 2) ErrorCode.success)
          []) ErrorCode.success).asyncWrites
      = [{ buffer := [0, 0, 0, 0], handler := WriteHandler.tcpSendKeepAlive }] ∧
    (OnNeedToSendKeepAliveMessage_TimerExpired
        (run (OnNeedToSendKeepAliveMessage_TimerExpired (connectedSender 2) ErrorCode.success)
          [Event.forward [1] 0]) ErrorCode.success).asyncWrites
      = [{ buffer := [0, 0, 0, 1, 1], handler := WriteHandler.tcpSend }] := by
  constructor
  · rw [(keepalive_written_iff_idle_since_previous_expiry (connectedSender 2) []
      ErrorCode.success ErrorCode.success (by decide) (by decide) (by decide)
      (by intro ec hmem; cases hmem)).1]
    decide
  · rw [(keepalive_written_iff_idle_since_previous_expiry (connectedSender 2)
      [Event.forward [1] 0] ErrorCode.success ErrorCode.success (by decide) (by decide)
      (by decide) (by intro ec hmem; simp at hmem)).1]
    decide

/-- The delay accumulated over no entry is 0. -/
theorem accumulatedDelayMicroSec_nil (rateBps : Nat) :
    accumulatedDelayMicroSec rateBps [] = 0 := rfl

/-- The delay accumulated over a list is the delay of its first entry plus the
delay accumulated over the others. -/
theorem accumulatedDelayMicroSec_cons (rateBps b : Nat) (entries : List Nat) :
    accumulatedDelayMicroSec rateBps (b :: entries)
      = delayMicroSecOf rateBps b + accumulatedDelayMicroSec rateBps entries := by
  simp [accumulatedDelayMicroSec]

/-- The delay accumulated over two lists in a row is the sum of the two. -/
theorem accumulatedDelayMicroSec_append (rateBps : Nat) (xs ys : List Nat) :
    accumulatedDelayMicroSec rateBps (xs ++ ys)
      = accumulatedDelayMicroSec rateBps xs + accumulatedDelayMicroSec rateBps ys := by
  simp [accumulatedDelayMicroSec]

/-- A ring without committed entries has no contents. -/
theorem ringContents_of_len_zero (cb : CircularIndexBuffer) (vec : List Nat) (h : cb.len = 0) :
    ringContents cb vec = [] := by
  unfold ringContents
  rw [h]
  rfl

/-- What the loop of the pacer does when its fuel covers the ring: it moves a
prefix of the ring entries to the end of the batch, adds the delay of each to
the delay it was given, stops at the first entry with which the delay reaches
10,000 microseconds, and otherwise empties the ring. -/
theorem TryRestartRateTimer.loop_drains (fuel : Nat) (s : StcpBundleSource) (delayMicroSec : Nat)
    (hwf : RingWellFormed s.m_bytesToAckByRateCb s.m_bytesToAckByRateCbVec)
    (hfuel : s.m_bytesToAckByRateCb.len ≤ fuel) :
    ∃ reads,
      (TryRestartRateTimer.loop fuel s delayMicroSec).1.m_groupingOfBytesToAckByRateVec
        = s.m_groupingOfBytesToAckByRateVec ++ reads ∧
      ringContents s.m_bytesToAckByRateCb s.m_bytesToAckByRateCbVec
        = reads ++ ringContents
            (TryRestartRateTimer.loop fuel s delayMicroSec).1.m_bytesToAckByRateCb
            s.m_bytesToAckByRateCbVec ∧
      (TryRestartRateTimer.loop fuel s delayMicroSec).2
        = delayMicroSec + accumulatedDelayMicroSec s.M_RATE_BITS_PER_SEC reads ∧
      (∀ k, 0 < k → k < reads.length →
        delayMicroSec + accumulatedDelayMicroSec s.M_RATE_BITS_PER_SEC (reads.take k) < 10000) ∧
      (10000 ≤ (TryRestartRateTimer.loop fuel s delayMicroSec).2
        ∨ (TryRestartRateTimer.loop fuel s delayMicroSec).1.m_bytesToAckByRateCb.len = 0) ∧
      (0 < s.m_bytesToAckByRateCb.len → reads ≠ []) := by
  induction fuel generalizing s delayMicroSec with
  | zero =>
    have hlen : s.m_bytesToAckByRateCb.len = 0 := Nat.le_zero.mp hfuel
    refine ⟨[], by simp [TryRestartRateTimer.loop], by simp [TryRestartRateTimer.loop],
      by simp [TryRestartRateTimer.loop, accumulatedDelayMicroSec], ?_, Or.inr hlen, ?_⟩
    · intro k hk hlt
      simp at hlt
    · intro hpos
      omega
  | succ fuel ih =>
    unfold TryRestartRateTimer.loop
    cases hread : s.m_bytesToAckByRateCb.GetIndexForRead with
    | none =>
      have hlen := GetIndexForRead_eq_none _ hread
      refine ⟨[], by simp, by simp, by simp [accumulatedDelayMicroSec], ?_, Or.inr hlen, ?_⟩
      · intro k hk hlt
        simp at hlt
      · intro hpos
        omega
    | some readIndex =>
      obtain ⟨hidx, hpos⟩ := GetIndexForRead_eq_some _ _ hread
      subst hidx
      have hcontents := ringContents_CommitRead s.m_bytesToAckByRateCb s.m_bytesToAckByRateCbVec
        hpos hwf.2.2
      have hwf2 := RingWellFormed_CommitRead _ _ hwf
      simp only
      split
      · rename_i hreach
        refine ⟨[s.m_bytesToAckByRateCbVec.getD s.m_bytesToAckByRateCb.head 0], rfl,
          by rw [hcontents]; rfl, ?_, ?_, Or.inl hreach, fun _ => by simp⟩
        · simp [accumulatedDelayMicroSec]
        · intro k hk hlt
          simp at hlt
          omega
      · rename_i hshort
        have hfuel2 : s.m_bytesToAckByRateCb.CommitRead.len ≤ fuel := by
          show s.m_bytesToAckByRateCb.len - 1 ≤ fuel
          omega
        have key := ih
          { s with
            m_bytesToAckByRateCb := s.m_bytesToAckByRateCb.CommitRead
            m_groupingOfBytesToAckByRateVec :=
              s.m_groupingOfBytesToAckByRateVec
                ++ [s.m_bytesToAckByRateCbVec.getD s.m_bytesToAckByRateCb.head 0] }
          (delayMicroSec + delayMicroSecOf s.M_RATE_BITS_PER_SEC
            (s.m_bytesToAckByRateCbVec.getD s.m_bytesToAckByRateCb.head 0)) hwf2 hfuel2
        dsimp only at key
        obtain ⟨reads, h1, h2, h3, h4, h5, _⟩ := key
        refine ⟨s.m_bytesToAckByRateCbVec.getD s.m_bytesToAckByRateCb.head 0 :: reads,
          ?_, ?_, ?_, ?_, h5, fun _ => by simp⟩
        · rw [h1]; simp
        · rw [hcontents, List.cons_append]
          exact congrArg _ h2
        · rw [h3, accumulatedDelayMicroSec_cons]
          omega
        · intro k hk hlt
          obtain ⟨j, rfl⟩ := Nat.exists_eq_succ_of_ne_zero (Nat.pos_iff_ne_zero.mp hk)
          rw [List.take_succ_cons, accumulatedDelayMicroSec_cons]
          cases j with
          | zero =>
            simp only [List.take_zero, accumulatedDelayMicroSec_nil]
            omega
          | succ j =>
            have := h4 (j + 1) (Nat.succ_pos j) (by simpa using hlt)
            omega

/-- What the pacer does on a sender whose rate timer is not running and whose
batch is empty: the new batch is a prefix of the ring entries and the rest stays
in the ring; the batch is not empty if the ring was not; no shorter non-empty
prefix reaches 10,000 microseconds; the batch reaches them or is the whole
ring; and the timer is armed with the delay accumulated over the batch exactly
when the batch is not empty. -/
theorem TryRestartRateTimer_of_idle (s : StcpBundleSource)
    (hwf : RingWellFormed s.m_bytesToAckByRateCb s.m_bytesToAckByRateCbVec)
    (hrun : s.m_rateTimerIsRunning = false) (hbatch : s.m_groupingOfBytesToAckByRateVec = []) :
    ringContents s.m_bytesToAckByRateCb s.m_bytesToAckByRateCbVec
      = (TryRestartRateTimer s).m_groupingOfBytesToAckByRateVec
        ++ ringContents (TryRestartRateTimer s).m_bytesToAckByRateCb s.m_bytesToAckByRateCbVec ∧
    (ringContents s.m_bytesToAckByRateCb s.m_bytesToAckByRateCbVec ≠ [] →
      (TryRestartRateTimer s).m_groupingOfBytesToAckByRateVec ≠ []) ∧
    (∀ k, 0 < k → k < (TryRestartRateTimer s).m_groupingOfBytesToAckByRateVec.length →
      accumulatedDelayMicroSec s.M_RATE_BITS_PER_SEC
        ((TryRestartRateTimer s).m_groupingOfBytesToAckByRateVec.take k) < 10000) ∧
    (10000 ≤ accumulatedDelayMicroSec s.M_RATE_BITS_PER_SEC
        (TryRestartRateTimer s).m_groupingOfBytesToAckByRateVec
      ∨ ringContents (TryRestartRateTimer s).m_bytesToAckByRateCb s.m_bytesToAckByRateCbVec
        = []) ∧
    ((TryRestartRateTimer s).m_rateTimerIsRunning = true
      ↔ (TryRestartRateTimer s).m_groupingOfBytesToAckByRateVec ≠ []) ∧
    ((TryRestartRateTimer s).m_groupingOfBytesToAckByRateVec ≠ [] →
      (TryRestartRateTimer s).m_rateTimer
        = some (accumulatedDelayMicroSec s.M_RATE_BITS_PER_SEC
            (TryRestartRateTimer s).m_groupingOfBytesToAckByRateVec)) := by
  obtain ⟨reads, h1, h2, h3, h4, h5, h6⟩ :=
    TryRestartRateTimer.loop_drains s.m_bytesToAckByRateCb.len s 0 hwf (Nat.le_refl _)
  rw [hbatch, List.nil_append] at h1
  simp only [Nat.zero_add] at h3 h4
  have hnonempty : ringContents s.m_bytesToAckByRateCb s.m_bytesToAckByRateCbVec ≠ [] →
      reads ≠ [] := by
    intro hne
    apply h6
    apply Nat.pos_of_ne_zero
    intro hzero
    exact hne (ringContents_of_len_zero _ _ hzero)
  have hrest : 10000 ≤ accumulatedDelayMicroSec s.M_RATE_BITS_PER_SEC reads
      ∨ ringContents
          (TryRestartRateTimer.loop s.m_bytesToAckByRateCb.len s 0).1.m_bytesToAckByRateCb
          s.m_bytesToAckByRateCbVec = [] := by
    rcases h5 with h | h
    · exact Or.inl (h3 ▸ h)
    · exact Or.inr (ringContents_of_len_zero _ _ h)
  obtain ⟨cb, g, hframe⟩ := TryRestartRateTimer.loop_frame s.m_bytesToAckByRateCb.len s 0
  have hrunning : (TryRestartRateTimer.loop s.m_bytesToAckByRateCb.len s 0).1.m_rateTimerIsRunning
      = false := by
    rw [hframe]
    exact hrun
  unfold TryRestartRateTimer
  rw [if_pos (by simp [hrun, hbatch])]
  simp only
  by_cases hempty : reads = []
  · rw [if_neg (by simp [h1, hempty])]
    rw [h1]
    refine ⟨h2, hnonempty, h4, hrest, ?_, fun hne => absurd hempty hne⟩
    rw [hrunning]
    simp [hempty]
  · rw [if_pos (by simpa [h1] using hempty)]
    simp only
    rw [h1]
    refine ⟨h2, hnonempty, h4, hrest, ?_, fun _ => by rw [h3]⟩
    simp [hempty]

/-- The pacer does nothing while the rate timer runs or a batch is pending. -/
theorem TryRestartRateTimer_of_busy (s : StcpBundleSource)
    (h : s.m_rateTimerIsRunning = true ∨ s.m_groupingOfBytesToAckByRateVec ≠ []) :
    TryRestartRateTimer s = s := by
  unfold TryRestartRateTimer
  rw [if_neg]
  rcases h with h | h
  · simp [h]
  · simp [h]

/-- Each entry of a list adds its own delay to the delay accumulated up to and
including it. -/
theorem delayMicroSecOf_le_accumulated_take (rateBps : Nat) (entries : List Nat) (i b : Nat)
    (h : entries[i]? = some b) :
    delayMicroSecOf rateBps b ≤ accumulatedDelayMicroSec rateBps (entries.take (i + 1)) := by
  rw [List.take_succ, h, accumulatedDelayMicroSec_append]
  simp [accumulatedDelayMicroSec]

/-- The halving loop with enough fuel adds to its count the number of binary
digits of `n`. -/
theorem bitLengthAux_spec (fuel : Nat) : ∀ n count : Nat, n ≤ fuel →
    ∃ k, bitLengthAux fuel n count = count + k ∧ n < 2 ^ k ∧ (n = 0 → k = 0) ∧
      (n ≠ 0 → 2 ^ (k - 1) ≤ n) := by
  induction fuel with
  | zero =>
    intro n count hn
    have h0 : n = 0 := Nat.le_zero.mp hn
    subst h0
    exact ⟨0, rfl, by simp, fun _ => rfl, fun h => absurd rfl h⟩
  | succ fuel ih =>
    intro n count hn
    unfold bitLengthAux
    by_cases h0 : n = 0
    · subst h0
      exact ⟨0, by simp, by simp, fun _ => rfl, fun h => absurd rfl h⟩
    · rw [if_neg h0]
      obtain ⟨k, hk, hlt, hzero, hle⟩ := ih (n / 2) (count + 1) (by omega)
      refine ⟨k + 1, by rw [hk]; omega, ?_, fun h => absurd h h0, fun _ => ?_⟩
      · rw [pow_succ]
        omega
      · rw [Nat.add_sub_cancel]
        by_cases hhalf : n / 2 = 0
        · rw [hzero hhalf]
          simp
          omega
        · have := hle hhalf
          obtain ⟨j, rfl⟩ := Nat.exists_eq_succ_of_ne_zero
            (fun hk0 : k = 0 => by rw [hk0] at hlt; simp at hlt; exact hhalf hlt)
          rw [Nat.succ_sub_one] at this
          rw [pow_succ]
          omega

/-- The number of binary digits of `n` is the `k` with `2^(k-1) ≤ n < 2^k`. -/
theorem bitLength_spec (n : Nat) :
    n < 2 ^ bitLength n ∧ (n ≠ 0 → 2 ^ (bitLength n - 1) ≤ n) := by
  obtain ⟨k, hk, hlt, _, hle⟩ := bitLengthAux_spec n n 0 (Nat.le_refl n)
  unfold bitLength
  rw [hk, Nat.zero_add]
  exact ⟨hlt, hle⟩

/-- Scaling back by `2^t / 2^up` may be done in the numerator or in the
denominator. -/
theorem two_pow_balance (t up : Nat) : 2 ^ (t - up) * 2 ^ up = 2 ^ t * 2 ^ (up - t) := by
  rw [← pow_add, ← pow_add]
  congr 1
  omega

/-- Rounding a positive fraction to a `double` gives a positive fraction within
a relative error of `2^-53`: with `2^53 = 9007199254740992`, the result is at
least `(2^53 - 1) / 2^53` and at most `(2^53 + 1) / 2^53` times the fraction. -/
theorem roundToDouble_bounds (n d : Nat) (hn : 0 < n) (hd : 0 < d) :
    0 < (roundToDouble n d).1 ∧ 0 < (roundToDouble n d).2 ∧
    n * (roundToDouble n d).2 * 9007199254740991
      ≤ (roundToDouble n d).1 * d * 9007199254740992 ∧
    (roundToDouble n d).1 * d * 9007199254740992
      ≤ n * (roundToDouble n d).2 * 9007199254740993 := by
  unfold roundToDouble
  rw [if_neg (Nat.pos_iff_ne_zero.mp hn)]
  simp only
  generalize hup : bitLength d + 52 = up
  generalize ht : bitLength (n * 2 ^ up / d) - 53 = t
  generalize hm : (if 2 * (n * 2 ^ up % (d * 2 ^ t)) > d * 2 ^ t
      ∨ (2 * (n * 2 ^ up % (d * 2 ^ t)) = d * 2 ^ t ∧ n * 2 ^ up / (d * 2 ^ t) % 2 = 1)
    then n * 2 ^ up / (d * 2 ^ t) + 1 else n * 2 ^ up / (d * 2 ^ t)) = m
  have hpowup : 0 < 2 ^ up := Nat.pow_pos (by decide)
  have hpowt : 0 < 2 ^ t := Nat.pow_pos (by decide)
  have hden : 0 < d * 2 ^ t := Nat.mul_pos hd hpowt
  -- the scaled quotient has at least 53 binary digits
  have hQ1 : 4503599627370496 ≤ n * 2 ^ up / d := by
    rw [Nat.le_div_iff_mul_le hd]
    have hlt := (bitLength_spec d).1
    have h1 : 4503599627370496 * d ≤ 2 ^ up := by
      rw [← hup, pow_add]
      have : (2 : Nat) ^ 52 = 4503599627370496 := by norm_num
      rw [this, Nat.mul_comm]
      exact Nat.mul_le_mul_right _ (Nat.le_of_lt hlt)
    calc 4503599627370496 * d ≤ 2 ^ up := h1
      _ ≤ n * 2 ^ up := Nat.le_mul_of_pos_left _ hn
  have hspec := bitLength_spec (n * 2 ^ up / d)
  have hbl : 53 ≤ bitLength (n * 2 ^ up / d) := by
    by_contra hlt
    have hle : bitLength (n * 2 ^ up / d) ≤ 52 := by omega
    have h2 : 2 ^ bitLength (n * 2 ^ up / d) ≤ 2 ^ 52 := Nat.pow_le_pow_right (by decide) hle
    have : (2 : Nat) ^ 52 = 4503599627370496 := by norm_num
    have := hspec.1
    omega
  have hscale : 4503599627370496 * (d * 2 ^ t) ≤ n * 2 ^ up := by
    have hlow := hspec.2 (by omega)
    have hexp : bitLength (n * 2 ^ up / d) - 1 = t + 52 := by omega
    rw [hexp, pow_add] at hlow
    have : (2 : Nat) ^ 52 = 4503599627370496 := by norm_num
    rw [this] at hlow
    have hmul := Nat.div_mul_le_self (n * 2 ^ up) d
    calc 4503599627370496 * (d * 2 ^ t) = 2 ^ t * 4503599627370496 * d := by ring
      _ ≤ n * 2 ^ up / d * d := Nat.mul_le_mul_right _ hlow
      _ ≤ n * 2 ^ up := hmul
  have hdivmod := Nat.div_add_mod (n * 2 ^ up) (d * 2 ^ t)
  have hmodlt := Nat.mod_lt (n * 2 ^ up) hden
  -- rounding moves the quotient by at most half a unit
  have hround : 2 * (n * 2 ^ up) ≤ 2 * (m * (d * 2 ^ t)) + d * 2 ^ t ∧
      2 * (m * (d * 2 ^ t)) ≤ 2 * (n * 2 ^ up) + d * 2 ^ t := by
    rw [← hm]
    split
    · rename_i hupward
      rw [Nat.add_mul, Nat.one_mul]
      have : d * 2 ^ t ≤ 2 * (n * 2 ^ up % (d * 2 ^ t)) := by
        rcases hupward with h | h
        · exact Nat.le_of_lt h
        · exact Nat.le_of_eq h.1.symm
      rw [Nat.mul_comm (n * 2 ^ up / (d * 2 ^ t))]
      omega
    · rename_i hdown
      rw [not_or] at hdown
      have := hdown.1
      rw [Nat.mul_comm (n * 2 ^ up / (d * 2 ^ t))]
      omega
  have hmpos : 0 < m := by
    by_contra h0
    have h0 : m = 0 := by omega
    rw [h0] at hround
    omega
  have hcore : n * 2 ^ up * 9007199254740991 ≤ m * (d * 2 ^ t) * 9007199254740992 ∧
      m * (d * 2 ^ t) * 9007199254740992 ≤ n * 2 ^ up * 9007199254740993 := by
    constructor <;> omega
  have hbal := two_pow_balance t up
  refine ⟨Nat.mul_pos hmpos (Nat.pow_pos (by decide)), Nat.pow_pos (by decide), ?_, ?_⟩
  · apply Nat.le_of_mul_le_mul_right _ hpowup
    calc n * 2 ^ (up - t) * 9007199254740991 * 2 ^ up
        = n * 2 ^ up * 9007199254740991 * 2 ^ (up - t) := by ring
      _ ≤ m * (d * 2 ^ t) * 9007199254740992 * 2 ^ (up - t) :=
          Nat.mul_le_mul_right _ hcore.1
      _ = m * d * 9007199254740992 * (2 ^ t * 2 ^ (up - t)) := by ring
      _ = m * d * 9007199254740992 * (2 ^ (t - up) * 2 ^ up) := by rw [hbal]
      _ = m * 2 ^ (t - up) * d * 9007199254740992 * 2 ^ up := by ring
  · apply Nat.le_of_mul_le_mul_right _ hpowup
    calc m * 2 ^ (t - up) * d * 9007199254740992 * 2 ^ up
        = m * d * 9007199254740992 * (2 ^ (t - up) * 2 ^ up) := by ring
      _ = m * d * 9007199254740992 * (2 ^ t * 2 ^ (up - t)) := by rw [hbal]
      _ = m * (d * 2 ^ t) * 9007199254740992 * 2 ^ (up - t) := by ring
      _ ≤ n * 2 ^ up * 9007199254740993 * 2 ^ (up - t) := Nat.mul_le_mul_right _ hcore.2
      _ = n * 2 ^ (up - t) * 9007199254740993 * 2 ^ up := by ring

/-- Four roundings in a row, below: from the bounds of the rounded rate `N1/D1`,
the rounded inverse `N2/D2`, the two rounded products `N3/D3` and `N4/D4`, and
an integer `E` that is at least `N4/D4`, the bits `B` times 10^6 times
`2^53 - 4` are at most `R * 2^53 * E`. -/
theorem delay_chain_lower (R B E N1 D1 N2 D2 N3 D3 N4 D4 : Nat)
    (hD1 : 0 < D1) (hD2 : 0 < D2) (hD3 : 0 < D3) (hD4 : 0 < D4)
    (h1 : N1 * 1 * 9007199254740992 ≤ R * D1 * 9007199254740993)
    (h2 : D1 * D2 * 9007199254740991 ≤ N2 * N1 * 9007199254740992)
    (h3 : N2 * B * D3 * 9007199254740991 ≤ N3 * D2 * 9007199254740992)
    (h4 : N3 * 1000000 * D4 * 9007199254740991 ≤ N4 * D3 * 9007199254740992)
    (h5 : N4 ≤ D4 * E) :
    B * 1000000 * 9007199254740988 ≤ R * 9007199254740992 * E := by
  have a4 : N3 * 1000000 * 9007199254740991 ≤ E * D3 * 9007199254740992 := by
    apply Nat.le_of_mul_le_mul_right _ hD4
    calc N3 * 1000000 * 9007199254740991 * D4
        = N3 * 1000000 * D4 * 9007199254740991 := by ring
      _ ≤ N4 * D3 * 9007199254740992 := h4
      _ ≤ D4 * E * D3 * 9007199254740992 :=
          Nat.mul_le_mul_right _ (Nat.mul_le_mul_right _ h5)
      _ = E * D3 * 9007199254740992 * D4 := by ring
  have a3 : N2 * B * 1000000 * (9007199254740991 * 9007199254740991)
      ≤ E * D2 * (9007199254740992 * 9007199254740992) := by
    apply Nat.le_of_mul_le_mul_right _ hD3
    calc N2 * B * 1000000 * (9007199254740991 * 9007199254740991) * D3
        = N2 * B * D3 * 9007199254740991 * (1000000 * 9007199254740991) := by ring
      _ ≤ N3 * D2 * 9007199254740992 * (1000000 * 9007199254740991) :=
          Nat.mul_le_mul_right _ h3
      _ = N3 * 1000000 * 9007199254740991 * (D2 * 9007199254740992) := by ring
      _ ≤ E * D3 * 9007199254740992 * (D2 * 9007199254740992) := Nat.mul_le_mul_right _ a4
      _ = E * D2 * (9007199254740992 * 9007199254740992) * D3 := by ring
  have a2 : D1 * B * 1000000 * (9007199254740991 * 9007199254740991 * 9007199254740991)
      ≤ E * N1 * (9007199254740992 * 9007199254740992 * 9007199254740992) := by
    apply Nat.le_of_mul_le_mul_right _ hD2
    calc D1 * B * 1000000 * (9007199254740991 * 9007199254740991 * 9007199254740991) * D2
        = D1 * D2 * 9007199254740991
            * (B * 1000000 * (9007199254740991 * 9007199254740991)) := by ring
      _ ≤ N2 * N1 * 9007199254740992
            * (B * 1000000 * (9007199254740991 * 9007199254740991)) :=
          Nat.mul_le_mul_right _ h2
      _ = N2 * B * 1000000 * (9007199254740991 * 9007199254740991)
            * (N1 * 9007199254740992) := by ring
      _ ≤ E * D2 * (9007199254740992 * 9007199254740992) * (N1 * 9007199254740992) :=
          Nat.mul_le_mul_right _ a3
      _ = E * N1 * (9007199254740992 * 9007199254740992 * 9007199254740992) * D2 := by ring
  have a1 : B * 1000000 * (9007199254740991 * 9007199254740991 * 9007199254740991)
      ≤ E * R * (9007199254740992 * 9007199254740992 * 9007199254740993) := by
    apply Nat.le_of_mul_le_mul_right _ hD1
    apply Nat.le_of_mul_le_mul_right _ (show 0 < 9007199254740992 by decide)
    calc B * 1000000 * (9007199254740991 * 9007199254740991 * 9007199254740991) * D1
          * 9007199254740992
        = D1 * B * 1000000 * (9007199254740991 * 9007199254740991 * 9007199254740991)
            * 9007199254740992 := by ring
      _ ≤ E * N1 * (9007199254740992 * 9007199254740992 * 9007199254740992)
            * 9007199254740992 := Nat.mul_le_mul_right _ a2
      _ = N1 * 1 * 9007199254740992
            * (E * (9007199254740992 * 9007199254740992 * 9007199254740992)) := by ring
      _ ≤ R * D1 * 9007199254740993
            * (E * (9007199254740992 * 9007199254740992 * 9007199254740992)) :=
          Nat.mul_le_mul_right _ h1
      _ = E * R * (9007199254740992 * 9007199254740992 * 9007199254740993) * D1
            * 9007199254740992 := by ring
  apply Nat.le_of_mul_le_mul_right _
    (show 0 < 9007199254740992 * 9007199254740993 by decide)
  calc B * 1000000 * 9007199254740988 * (9007199254740992 * 9007199254740993)
      = B * 1000000 * (9007199254740988 * 9007199254740992 * 9007199254740993) := by ring
    _ ≤ B * 1000000 * (9007199254740991 * 9007199254740991 * 9007199254740991) :=
        Nat.mul_le_mul_left _ (by decide)
    _ ≤ E * R * (9007199254740992 * 9007199254740992 * 9007199254740993) := a1
    _ = R * 9007199254740992 * E * (9007199254740992 * 9007199254740993) := by ring

/-- Four roundings in a row, above: from the bounds of the rounded rate `N1/D1`,
the rounded inverse `N2/D2`, the two rounded products `N3/D3` and `N4/D4`, and
an integer `F` that is at most `N4/D4`, `R * 2^53 * F` is at most the bits `B`
times 10^6 times `2^53 + 5`. -/
theorem delay_chain_upper (R B F N1 D1 N2 D2 N3 D3 N4 D4 : Nat)
    (hD1 : 0 < D1) (hD2 : 0 < D2) (hD3 : 0 < D3) (hD4 : 0 < D4)
    (h1 : R * D1 * 9007199254740991 ≤ N1 * 1 * 9007199254740992)
    (h2 : N2 * N1 * 9007199254740992 ≤ D1 * D2 * 9007199254740993)
    (h3 : N3 * D2 * 9007199254740992 ≤ N2 * B * D3 * 9007199254740993)
    (h4 : N4 * D3 * 9007199254740992 ≤ N3 * 1000000 * D4 * 9007199254740993)
    (h5 : F * D4 ≤ N4) :
    R * 9007199254740992 * F ≤ B * 1000000 * 9007199254740997 := by
  have a4 : F * D3 * 9007199254740992 ≤ N3 * 1000000 * 9007199254740993 := by
    apply Nat.le_of_mul_le_mul_right _ hD4
    calc F * D3 * 9007199254740992 * D4
        = F * D4 * (D3 * 9007199254740992) := by ring
      _ ≤ N4 * (D3 * 9007199254740992) := Nat.mul_le_mul_right _ h5
      _ = N4 * D3 * 9007199254740992 := by ring
      _ ≤ N3 * 1000000 * D4 * 9007199254740993 := h4
      _ = N3 * 1000000 * 9007199254740993 * D4 := by ring
  have a3 : F * D2 * (9007199254740992 * 9007199254740992)
      ≤ N2 * B * 1000000 * (9007199254740993 * 9007199254740993) := by
    apply Nat.le_of_mul_le_mul_right _ hD3
    calc F * D2 * (9007199254740992 * 9007199254740992) * D3
        = F * D3 * 9007199254740992 * (D2 * 9007199254740992) := by ring
      _ ≤ N3 * 1000000 * 9007199254740993 * (D2 * 9007199254740992) :=
          Nat.mul_le_mul_right _ a4
      _ = N3 * D2 * 9007199254740992 * (1000000 * 9007199254740993) := by ring
      _ ≤ N2 * B * D3 * 9007199254740993 * (1000000 * 9007199254740993) :=
          Nat.mul_le_mul_right _ h3
      _ = N2 * B * 1000000 * (9007199254740993 * 9007199254740993) * D3 := by ring
  have a2 : F * N1 * (9007199254740992 * 9007199254740992 * 9007199254740992)
      ≤ D1 * B * 1000000 * (9007199254740993 * 9007199254740993 * 9007199254740993) := by
    apply Nat.le_of_mul_le_mul_right _ hD2
    calc F * N1 * (9007199254740992 * 9007199254740992 * 9007199254740992) * D2
        = F * D2 * (9007199254740992 * 9007199254740992) * (N1 * 9007199254740992) := by ring
      _ ≤ N2 * B * 1000000 * (9007199254740993 * 9007199254740993)
            * (N1 * 9007199254740992) := Nat.mul_le_mul_right _ a3
      _ = N2 * N1 * 9007199254740992
            * (B * 1000000 * (9007199254740993 * 9007199254740993)) := by ring
      _ ≤ D1 * D2 * 9007199254740993
            * (B * 1000000 * (9007199254740993 * 9007199254740993)) :=
          Nat.mul_le_mul_right _ h2
      _ = D1 * B * 1000000 * (9007199254740993 * 9007199254740993 * 9007199254740993)
            * D2 := by ring
  have a1 : F * R * (9007199254740991 * 9007199254740992 * 9007199254740992)
      ≤ B * 1000000 * (9007199254740993 * 9007199254740993 * 9007199254740993) := by
    apply Nat.le_of_mul_le_mul_right _ hD1
    apply Nat.le_of_mul_le_mul_right _ (show 0 < 9007199254740992 by decide)
    calc F * R * (9007199254740991 * 9007199254740992 * 9007199254740992) * D1
          * 9007199254740992
        = R * D1 * 9007199254740991
            * (F * (9007199254740992 * 9007199254740992 * 9007199254740992)) := by ring
      _ ≤ N1 * 1 * 9007199254740992
            * (F * (9007199254740992 * 9007199254740992 * 9007199254740992)) :=
          Nat.mul_le_mul_right _ h1
      _ = F * N1 * (9007199254740992 * 9007199254740992 * 9007199254740992)
            * 9007199254740992 := by ring
      _ ≤ D1 * B * 1000000 * (9007199254740993 * 9007199254740993 * 9007199254740993)
            * 9007199254740992 := Nat.mul_le_mul_right _ a2
      _ = B * 1000000 * (9007199254740993 * 9007199254740993 * 9007199254740993) * D1
            * 9007199254740992 := by ring
  apply Nat.le_of_mul_le_mul_right _
    (show 0 < 9007199254740991 * 9007199254740992 by decide)
  calc R * 9007199254740992 * F * (9007199254740991 * 9007199254740992)
      = F * R * (9007199254740991 * 9007199254740992 * 9007199254740992) := by ring
    _ ≤ B * 1000000 * (9007199254740993 * 9007199254740993 * 9007199254740993) := a1
    _ ≤ B * 1000000 * (9007199254740997 * 9007199254740991 * 9007199254740992) :=
        Nat.mul_le_mul_left _ (by decide)
    _ = B * 1000000 * 9007199254740997 * (9007199254740991 * 9007199254740992) := by ring

/-- The delay that the source computes in double precision for one frame, at a
rate of at least 1, against the exact quotient `b * 8 * 10^6 / R`: with
`2^53 = 9007199254740992`, the delay plus 1 is at least `(2^53 - 4) / 2^53`
times the quotient, and the delay is at most `(2^53 + 5) / 2^53` times the
quotient. -/
theorem delayMicroSecOf_bounds (rateBps numBytes : Nat) (hrate : 0 < rateBps) :
    numBytes * 8 * 1000000 * 9007199254740988
      ≤ rateBps * 9007199254740992 * (delayMicroSecOf rateBps numBytes + 1) ∧
    rateBps * 9007199254740992 * delayMicroSecOf rateBps numBytes
      ≤ numBytes * 8 * 1000000 * 9007199254740997 := by
  unfold delayMicroSecOf
  rw [if_neg (Nat.pos_iff_ne_zero.mp hrate)]
  simp only
  obtain ⟨hN1, hD1, h1l, h1u⟩ := roundToDouble_bounds rateBps 1 hrate (by decide)
  generalize roundToDouble rateBps 1 = rate at *
  obtain ⟨hN2, hD2, h2l, h2u⟩ := roundToDouble_bounds rate.2 rate.1 hD1 hN1
  generalize roundToDouble rate.2 rate.1 = inv at *
  rcases Nat.eq_zero_or_pos numBytes with hzero | hpos
  · subst hzero
    simp [roundToDouble]
  · obtain ⟨hN3, hD3, h3l, h3u⟩ := roundToDouble_bounds (inv.1 * (numBytes * 8)) inv.2
      (Nat.mul_pos hN2 (by omega)) hD2
    generalize roundToDouble (inv.1 * (numBytes * 8)) inv.2 = x3 at *
    obtain ⟨_, hD4, h4l, h4u⟩ := roundToDouble_bounds (x3.1 * 1000000) x3.2
      (Nat.mul_pos hN3 (by decide)) hD3
    generalize roundToDouble (x3.1 * 1000000) x3.2 = x4 at *
    constructor
    · have h := delay_chain_lower rateBps (numBytes * 8) (x4.1 / x4.2 + 1)
        rate.1 rate.2 inv.1 inv.2 x3.1 x3.2 x4.1 x4.2 hD1 hD2 hD3 hD4 h1u h2l
        h3l h4l
        (Nat.le_of_lt (Nat.lt_mul_div_succ _ hD4))
      exact h
    · have h := delay_chain_upper rateBps (numBytes * 8) (x4.1 / x4.2)
        rate.1 rate.2 inv.1 inv.2 x3.1 x3.2 x4.1 x4.2 hD1 hD2 hD3 hD4 h1l h2u
        h3u h4u
        (Nat.div_mul_le_self _ _)
      exact h

/-- At a rate of at least 1 bit per second, the bits of a batch times 10^6 are
at most the rate times the accumulated delay plus one microsecond per frame, up
to the relative error `4 / 2^53` of the double arithmetic. -/
theorem bits_le_rate_mul_accumulated (rateBps : Nat) (hpos : 0 < rateBps) (batch : List Nat) :
    batch.sum * 8 * 1000000 * 9007199254740988
      ≤ rateBps * 9007199254740992
        * (accumulatedDelayMicroSec rateBps batch + batch.length) := by
  induction batch with
  | nil => simp
  | cons b batch ih =>
    rw [accumulatedDelayMicroSec_cons, List.sum_cons, List.length_cons]
    have h := (delayMicroSecOf_bounds rateBps b hpos).1
    have e : rateBps * 9007199254740992
          * (delayMicroSecOf rateBps b + accumulatedDelayMicroSec rateBps batch
            + (batch.length + 1))
        = rateBps * 9007199254740992 * (delayMicroSecOf rateBps b + 1)
          + rateBps * 9007199254740992
            * (accumulatedDelayMicroSec rateBps batch + batch.length) := by
      ring
    rw [e]
    omega

/-- At a rate of at least 1 bit per second, the rate times the accumulated delay
of a batch is at most the bits of the batch times 10^6, up to the relative
error `5 / 2^53` of the double arithmetic. -/
theorem rate_mul_accumulated_le_bits (rateBps : Nat) (hpos : 0 < rateBps) (batch : List Nat) :
    rateBps * 9007199254740992 * accumulatedDelayMicroSec rateBps batch
      ≤ batch.sum * 8 * 1000000 * 9007199254740997 := by
  induction batch with
  | nil => simp [accumulatedDelayMicroSec]
  | cons b batch ih =>
    rw [accumulatedDelayMicroSec_cons, List.sum_cons]
    have h := (delayMicroSecOf_bounds rateBps b hpos).2
    rw [Nat.mul_add]
    omega

/-- The delays that the double arithmetic of the source gives where it differs
from the exact quotient: 199 and not 200 microseconds for 125 bytes at
5,000,000 bit/s, 9,999 and not 10,000 for 17 bytes at 13,600 bit/s, 59,199,999
and not 59,200,000 for 111 bytes at 15 bit/s, and 250 for 4,090,439,021 bytes at
130,372,558,438,247 bit/s, where the exact quotient is above 251. -/
theorem delayMicroSecOf_examples :
    delayMicroSecOf 5000000 125 = 199 ∧ delayMicroSecOf 13600 17 = 9999 ∧
    delayMicroSecOf 15 111 = 59199999 ∧
    delayMicroSecOf 130372558438247 4090439021 = 250 ∧
    130372558438247 * 251 < 4090439021 * 8 * 1000000 := by
  decide

/-! ## The claims about the pacer -/

/-- C23, the claim refuted: at 5,000,000 bit/s the pacer arms the timer with
199 microseconds for a batch of one frame of 125 bytes, while
`125 * 8 * 10^6 / 5,000,000` is 200; and at 3,000,000 bit/s three frames of 5
bytes have a delay of 13 microseconds each after truncation, so the pacer arms
the timer with 39 microseconds, while the delay of the batch computed as one
value and truncated once is 40 microseconds. -/
theorem armed_delay_is_not_one_truncation :
    (OnNewData_TimerCancelled (queuedSender 5000000 4 [List.replicate 121 0])
      ErrorCode.operation_aborted).m_groupingOfBytesToAckByRateVec = [125] ∧
    (OnNewData_TimerCancelled (queuedSender 5000000 4 [List.replicate 121 0])
      ErrorCode.operation_aborted).m_rateTimer = some 199 ∧
    delayAsOneValueMicroSec 5000000 [125] = 200 ∧
    (OnNewData_TimerCancelled (queuedSender 3000000 4 [[1], [2], [3]])
      ErrorCode.operation_aborted).m_groupingOfBytesToAckByRateVec = [5, 5, 5] ∧
    (OnNewData_TimerCancelled (queuedSender 3000000 4 [[1], [2], [3]])
      ErrorCode.operation_aborted).m_rateTimer = some 39 ∧
    delayAsOneValueMicroSec 3000000 [5, 5, 5] = 40 := by
  decide

/-- C23 as amended: when the pacer runs at a rate `R ≥ 1` on a sender whose
timer is not running and whose batch is empty, and drains a batch `b_1 .. b_k`
with `k ≥ 1`, the delay with which the timer is armed is the sum over `i` of the
delay of frame `i`, each computed in double precision as the source computes it
(`1.0 / R`, times the bits of the frame, times `1e6`, rounded after each
operation) and truncated to whole microseconds before the sum is taken.  With
`2^53 = 9007199254740992` and `bits` the bits of the whole batch, the armed
delay `d` satisfies `R * 2^53 * d ≤ bits * 10^6 * (2^53 + 5)` and
`bits * 10^6 * (2^53 - 4) ≤ R * 2^53 * (d + k)`: it exceeds the exact value
`bits * 10^6 / R` by no more than the rounding error, and falls short of it by
no more than `k` microseconds and the rounding error. -/
theorem armed_delay_is_sum_of_truncations (s : StcpBundleSource)
    (hrate : 1 ≤ s.M_RATE_BITS_PER_SEC)
    (hwf : RingWellFormed s.m_bytesToAckByRateCb s.m_bytesToAckByRateCbVec)
    (hrun : s.m_rateTimerIsRunning = false) (hbatch : s.m_groupingOfBytesToAckByRateVec = [])
    (hdrained : (TryRestartRateTimer s).m_groupingOfBytesToAckByRateVec ≠ []) :
    (TryRestartRateTimer s).m_rateTimer
      = some (((TryRestartRateTimer s).m_groupingOfBytesToAckByRateVec.map
          (delayMicroSecOf s.M_RATE_BITS_PER_SEC)).sum) ∧
    s.M_RATE_BITS_PER_SEC * 9007199254740992
        * ((TryRestartRateTimer s).m_groupingOfBytesToAckByRateVec.map
            (delayMicroSecOf s.M_RATE_BITS_PER_SEC)).sum
      ≤ (TryRestartRateTimer s).m_groupingOfBytesToAckByRateVec.sum * 8 * 1000000
        * 9007199254740997 ∧
    (TryRestartRateTimer s).m_groupingOfBytesToAckByRateVec.sum * 8 * 1000000
        * 9007199254740988
      ≤ s.M_RATE_BITS_PER_SEC * 9007199254740992
        * (((TryRestartRateTimer s).m_groupingOfBytesToAckByRateVec.map
              (delayMicroSecOf s.M_RATE_BITS_PER_SEC)).sum
            + (TryRestartRateTimer s).m_groupingOfBytesToAckByRateVec.length) :=
  ⟨(TryRestartRateTimer_of_idle s hwf hrun hbatch).2.2.2.2.2 hdrained,
    rate_mul_accumulated_le_bits _ hrate _, bits_le_rate_mul_accumulated _ hrate _⟩

/-- C23 as amended, at a sender of 3,000,000 bit/s with three frames of 5 bytes
in the rate ring: the timer is armed with 13 + 13 + 13 microseconds. -/
theorem armed_delay_is_sum_of_truncations_witness :
    (TryRestartRateTimer (queuedSender 3000000 4 [[1], [2], [3]])).m_rateTimer
      = some (([5, 5, 5].map (delayMicroSecOf 3000000)).sum) ∧
    ([5, 5, 5].map (delayMicroSecOf 3000000)).sum = 39 := by
  have h := (armed_delay_is_sum_of_truncations (queuedSender 3000000 4 [[1], [2], [3]])
    (by decide) (by unfold RingWellFormed; decide) (by decide) (by decide) (by decide)).1
  refine ⟨?_, by decide⟩
  rw [h]
  decide

/-- C24, the claim refuted: at 8,000 bit/s a frame of 10 bytes has a pacing
delay of 10,000 microseconds; queued behind a frame of 5 bytes it is put into
one batch with that frame, and the timer is armed for the delay of both.  And
at 13,600 bit/s a frame of 17 bytes, whose exact delay is 10,000 microseconds,
has a delay of 9,999 microseconds in the double arithmetic of the source; at
the head of the ring it is put into one batch with the frame behind it. -/
theorem slow_frame_shares_batch_with_earlier_frame :
    delayMicroSecOf 8000 10 = 10000 ∧
    (OnNewData_TimerCancelled (queuedSender 8000 4 [[1], [1, 2, 3, 4, 5, 6]])
      ErrorCode.operation_aborted).m_groupingOfBytesToAckByRateVec = [5, 10] ∧
    (OnNewData_TimerCancelled (queuedSender 8000 4 [[1], [1, 2, 3, 4, 5, 6]])
      ErrorCode.operation_aborted).m_rateTimer = some 15000 ∧
    17 * 8 * 1000000 / 13600 = 10000 ∧ delayMicroSecOf 13600 17 = 9999 ∧
    (OnNewData_TimerCancelled
      (queuedSender 13600 4 [List.replicate 13 0, List.replicate 13 0])
      ErrorCode.operation_aborted).m_groupingOfBytesToAckByRateVec = [17, 17] := by
  decide

/-- C24 as amended: the own pacing delay of a frame is the delay that the
source computes for it in double precision, truncated to whole microseconds.
When the pacer runs at a rate `R ≥ 1` on a sender whose timer is not running and
whose batch is empty, a frame at the head of the rate ring whose own pacing
delay is at least 10,000 microseconds is put alone into the batch, the timer is
armed with exactly that delay, and the other entries stay in the ring.  A frame
with such a delay further back in the ring, when it is drained, is the last
frame of its batch, and the timer is armed with at least its delay.  Every
frame of `b` bytes whose exact delay `b * 8 * 10^6 / R` is at least
`10,001 * 2^53 / (2^53 - 4)` microseconds has such a delay. -/
theorem slow_frame_ends_its_batch (s : StcpBundleSource)
    (hrate : 1 ≤ s.M_RATE_BITS_PER_SEC)
    (hwf : RingWellFormed s.m_bytesToAckByRateCb s.m_bytesToAckByRateCbVec)
    (hrun : s.m_rateTimerIsRunning = false) (hbatch : s.m_groupingOfBytesToAckByRateVec = []) :
    (∀ b rest, ringContents s.m_bytesToAckByRateCb s.m_bytesToAckByRateCbVec = b :: rest →
      10000 ≤ delayMicroSecOf s.M_RATE_BITS_PER_SEC b →
      (TryRestartRateTimer s).m_groupingOfBytesToAckByRateVec = [b] ∧
      (TryRestartRateTimer s).m_rateTimer = some (delayMicroSecOf s.M_RATE_BITS_PER_SEC b) ∧
      (TryRestartRateTimer s).m_rateTimerIsRunning = true ∧
      ringContents (TryRestartRateTimer s).m_bytesToAckByRateCb s.m_bytesToAckByRateCbVec
        = rest) ∧
    (∀ i b, (TryRestartRateTimer s).m_groupingOfBytesToAckByRateVec[i]? = some b →
      10000 ≤ delayMicroSecOf s.M_RATE_BITS_PER_SEC b →
      i + 1 = (TryRestartRateTimer s).m_groupingOfBytesToAckByRateVec.length ∧
      ∃ delayMicroSec, (TryRestartRateTimer s).m_rateTimer = some delayMicroSec ∧
        delayMicroSecOf s.M_RATE_BITS_PER_SEC b ≤ delayMicroSec) ∧
    (∀ b, 10001 * s.M_RATE_BITS_PER_SEC * 9007199254740992
        ≤ b * 8 * 1000000 * 9007199254740988 →
      10000 ≤ delayMicroSecOf s.M_RATE_BITS_PER_SEC b) := by
  obtain ⟨h1, h2, h3, _, h5, h6⟩ := TryRestartRateTimer_of_idle s hwf hrun hbatch
  have hlast : ∀ i b, (TryRestartRateTimer s).m_groupingOfBytesToAckByRateVec[i]? = some b →
      10000 ≤ delayMicroSecOf s.M_RATE_BITS_PER_SEC b →
      i + 1 = (TryRestartRateTimer s).m_groupingOfBytesToAckByRateVec.length := by
    intro i b hget hslow
    have hlt : i < (TryRestartRateTimer s).m_groupingOfBytesToAckByRateVec.length := by
      by_contra hge
      rw [List.getElem?_eq_none (Nat.le_of_not_lt hge)] at hget
      cases hget
    by_contra hne
    have hshort := h3 (i + 1) (Nat.succ_pos i) (by omega)
    have hle := delayMicroSecOf_le_accumulated_take s.M_RATE_BITS_PER_SEC _ i b hget
    omega
  refine ⟨?_, ?_, ?_⟩
  · intro b rest hcontents hslow
    have hne : (TryRestartRateTimer s).m_groupingOfBytesToAckByRateVec ≠ [] :=
      h2 (by rw [hcontents]; simp)
    rw [hcontents] at h1
    cases hg : (TryRestartRateTimer s).m_groupingOfBytesToAckByRateVec with
    | nil => exact absurd hg hne
    | cons b2 tail =>
      rw [hg, List.cons_append] at h1
      obtain ⟨hb, hrest⟩ := List.cons.inj h1
      subst hb
      have hlen := hlast 0 b (by rw [hg]; simp) hslow
      rw [hg] at hlen
      have htail : tail = [] := List.length_eq_zero.mp (by simpa using hlen.symm)
      subst htail
      refine ⟨rfl, ?_, ?_, ?_⟩
      · rw [h6 hne, hg]
        simp [accumulatedDelayMicroSec]
      · exact h5.mpr hne
      · simpa using hrest.symm
  · intro i b hget hslow
    have hlen := hlast i b hget hslow
    have hne : (TryRestartRateTimer s).m_groupingOfBytesToAckByRateVec ≠ [] := by
      intro hnil
      rw [hnil] at hlen
      simp at hlen
    refine ⟨hlen, _, h6 hne, ?_⟩
    have hle := delayMicroSecOf_le_accumulated_take s.M_RATE_BITS_PER_SEC _ i b hget
    rw [hlen, List.take_length] at hle
    exact hle
  · intro b hexact
    have hlow := (delayMicroSecOf_bounds s.M_RATE_BITS_PER_SEC b hrate).1
    have hchain : s.M_RATE_BITS_PER_SEC * 9007199254740992 * 10001
        ≤ s.M_RATE_BITS_PER_SEC * 9007199254740992
          * (delayMicroSecOf s.M_RATE_BITS_PER_SEC b + 1) := by
      calc s.M_RATE_BITS_PER_SEC * 9007199254740992 * 10001
          = 10001 * s.M_RATE_BITS_PER_SEC * 9007199254740992 := by ring
        _ ≤ b * 8 * 1000000 * 9007199254740988 := hexact
        _ ≤ _ := hlow
    have := Nat.le_of_mul_le_mul_left hchain
      (Nat.mul_pos hrate (by decide))
    omega

/-- C24 as amended, at a sender of 800 bit/s after one payload of 100 bytes: the
frame of 104 bytes is alone in its batch and the timer is armed with 1,040,000
microseconds. -/
theorem slow_frame_ends_its_batch_witness :
    (TryRestartRateTimer (queuedSender 800 2 [List.replicate 100 0])
      ).m_groupingOfBytesToAckByRateVec = [104] ∧
    (TryRestartRateTimer (queuedSender 800 2 [List.replicate 100 0])).m_rateTimer
      = some 1040000 := by
  have h := (slow_frame_ends_its_batch (queuedSender 800 2 [List.replicate 100 0])
    (by decide) (by unfold RingWellFormed; decide) (by decide) (by decide)).1 104 []
    (by decide) (by decide)
  exact ⟨h.1, h.2.1⟩

/-! ## The claims about the two acknowledgement handlers -/

/-- C25: a rate-timer expiry that is not cancelled and finds a pending batch of
`k ≥ 1` frames stops the timer, adds `k` to the frames and the sum of the batch
to the bytes acknowledged by the pacer, empties the batch, invokes the
registered callback once if the new count of frames acknowledged by the pacer
is at most the count acknowledged by write completions and not at all
otherwise, and then runs the pacer on the sender so changed.  A cancelled
expiry only stops the timer: no counter and not the batch changes. -/
theorem rate_expiry_credits_whole_batch (s : StcpBundleSource) (e : ErrorCode)
    (he : e ≠ ErrorCode.operation_aborted) (hbatch : s.m_groupingOfBytesToAckByRateVec ≠ []) :
    OnRate_TimerExpired s e
      = TryRestartRateTimer { s with
          m_rateTimerIsRunning := false
          m_rateTimer := none
          m_totalDataSegmentsAckedByRate :=
            s.m_totalDataSegmentsAckedByRate + s.m_groupingOfBytesToAckByRateVec.length
          m_totalBytesAckedByRate :=
            s.m_totalBytesAckedByRate + s.m_groupingOfBytesToAckByRateVec.sum
          m_groupingOfBytesToAckByRateVec := []
          callbackInvocations :=
            if s.m_onSuccessfulAckCallback
                && decide (s.m_totalDataSegmentsAckedByRate
                    + s.m_groupingOfBytesToAckByRateVec.length
                  ≤ s.m_totalDataSegmentsAckedByTcpSendCallback) then
              s.callbackInvocations + 1
            else s.callbackInvocations } ∧
    OnRate_TimerExpired s ErrorCode.operation_aborted
      = { s with m_rateTimerIsRunning := false, m_rateTimer := none } :=
  ⟨OnRate_TimerExpired_of_batch s e he hbatch, OnRate_TimerExpired_of_idle s _ (Or.inl rfl)⟩

/-- C25 at a sender with a registered callback whose only frame has completed
its write and sits in the pending batch: the expiry credits one frame of 5
bytes, invokes the callback once and leaves the timer stopped. -/
theorem rate_expiry_credits_whole_batch_witness :
    transportFirstSender.m_groupingOfBytesToAckByRateVec = [5] ∧
    (OnRate_TimerExpired transportFirstSender ErrorCode.success).m_totalDataSegmentsAckedByRate
      = 1 ∧
    (OnRate_TimerExpired transportFirstSender ErrorCode.success).m_totalBytesAckedByRate = 5 ∧
    (OnRate_TimerExpired transportFirstSender ErrorCode.success).m_groupingOfBytesToAckByRateVec
      = [] ∧
    (OnRate_TimerExpired transportFirstSender ErrorCode.success).callbackInvocations = 1 ∧
    (OnRate_TimerExpired transportFirstSender ErrorCode.success).m_rateTimerIsRunning = false := by
  rw [(rate_expiry_credits_whole_batch transportFirstSender ErrorCode.success (by decide)
    (by decide)).1]
  decide

/-- A completion without error whose byte count equals the entry at the head of
the transport ring acknowledges that entry. -/
theorem HandleTcpSend_of_match (s : StcpBundleSource) (bytes_transferred : Nat)
    (hpos : 0 < s.m_bytesToAckByTcpSendCallbackCb.len)
    (hmatch : s.m_bytesToAckByTcpSendCallbackCbVec.getD s.m_bytesToAckByTcpSendCallbackCb.head 0
      = bytes_transferred) :
    HandleTcpSend s ErrorCode.success bytes_transferred
      = { s with
          m_totalDataSegmentsAckedByTcpSendCallback :=
            s.m_totalDataSegmentsAckedByTcpSendCallback + 1
          m_totalBytesAckedByTcpSendCallback :=
            s.m_totalBytesAckedByTcpSendCallback + bytes_transferred
          m_bytesToAckByTcpSendCallbackCb := s.m_bytesToAckByTcpSendCallbackCb.CommitRead
          callbackInvocations :=
            if s.m_onSuccessfulAckCallback
                && decide (s.m_totalDataSegmentsAckedByTcpSendCallback + 1
                    ≤ s.m_totalDataSegmentsAckedByRate) then
              s.callbackInvocations + 1
            else s.callbackInvocations } := by
  rcases HandleTcpSend_cases s ErrorCode.success bytes_transferred with
    ⟨ready, isOpen, keepAliveTimer, hframe⟩ | ⟨_, _, _, hframe⟩
  · exfalso
    have hread : s.m_bytesToAckByTcpSendCallbackCb.GetIndexForRead
        = some s.m_bytesToAckByTcpSendCallbackCb.head := by
      unfold CircularIndexBuffer.GetIndexForRead CircularIndexBuffer.IsEmpty
      simp [Nat.pos_iff_ne_zero.mp hpos]
    have hcount := congrArg StcpBundleSource.m_totalDataSegmentsAckedByTcpSendCallback hframe
    unfold HandleTcpSend at hcount
    simp only [ne_eq, not_true_eq_false, if_false, hread, hmatch, if_true] at hcount
    split at hcount <;> simp at hcount
  · exact hframe

/-- C26: for a write completion without error on a sender whose transport ring
is not empty.  If `bytes_transferred` equals the byte count stored in the head
slot, the frames acknowledged by write completions grow by 1, the bytes by that
count, the head entry is consumed (the head moves on by one slot and the ring
holds one entry less), the registered callback is invoked once if the new
count of frames is at most the frames acknowledged by the pacer and not at all
otherwise, and nothing else changes.  If it differs, the sender is left exactly
as it was: no counter, not the ring, not the callback count and not
`m_readyToForward` changes. -/
theorem write_completion_acks_matching_head (s : StcpBundleSource) (bytes_transferred : Nat)
    (hpos : 0 < s.m_bytesToAckByTcpSendCallbackCb.len) :
    (s.m_bytesToAckByTcpSendCallbackCbVec.getD s.m_bytesToAckByTcpSendCallbackCb.head 0
        = bytes_transferred →
      HandleTcpSend s ErrorCode.success bytes_transferred
        = { s with
            m_totalDataSegmentsAckedByTcpSendCallback :=
              s.m_totalDataSegmentsAckedByTcpSendCallback + 1
            m_totalBytesAckedByTcpSendCallback :=
              s.m_totalBytesAckedByTcpSendCallback + bytes_transferred
            m_bytesToAckByTcpSendCallbackCb :=
              { s.m_bytesToAckByTcpSendCallbackCb with
                head := (s.m_bytesToAckByTcpSendCallbackCb.head + 1)
                  % s.m_bytesToAckByTcpSendCallbackCb.capacity
                len := s.m_bytesToAckByTcpSendCallbackCb.len - 1 }
            callbackInvocations :=
              if s.m_onSuccessfulAckCallback
                  && decide (s.m_totalDataSegmentsAckedByTcpSendCallback + 1
                      ≤ s.m_totalDataSegmentsAckedByRate) then
                s.callbackInvocations + 1
              else s.callbackInvocations }) ∧
    (s.m_bytesToAckByTcpSendCallbackCbVec.getD s.m_bytesToAckByTcpSendCallbackCb.head 0
        ≠ bytes_transferred →
      HandleTcpSend s ErrorCode.success bytes_transferred = s) := by
  constructor
  · intro hmatch
    exact HandleTcpSend_of_match s bytes_transferred hpos hmatch
  · intro hne
    apply HandleTcpSend_of_mismatch s bytes_transferred s.m_bytesToAckByTcpSendCallbackCb.head _ hne
    unfold CircularIndexBuffer.GetIndexForRead CircularIndexBuffer.IsEmpty
    simp [Nat.pos_iff_ne_zero.mp hpos]

/-- C26 at a sender with a registered callback whose only frame of 5 bytes was
acknowledged by the pacer already: a completion of 5 bytes acknowledges the
frame and invokes the callback, a completion of 4 bytes changes nothing. -/
theorem write_completion_acks_matching_head_witness :
    (HandleTcpSend rateFirstSender ErrorCode.success 5).m_totalDataSegmentsAckedByTcpSendCallback
      = 1 ∧
    (HandleTcpSend rateFirstSender ErrorCode.success 5).m_totalBytesAckedByTcpSendCallback = 5 ∧
    (HandleTcpSend rateFirstSender ErrorCode.success 5).m_bytesToAckByTcpSendCallbackCb.len = 0 ∧
    (HandleTcpSend rateFirstSender ErrorCode.success 5).callbackInvocations = 1 ∧
    HandleTcpSend rateFirstSender ErrorCode.success 4 = rateFirstSender := by
  refine ⟨?_, ?_, ?_, ?_,
    (write_completion_acks_matching_head rateFirstSender 4 (by decide)).2 (by decide)⟩
  all_goals
    rw [(write_completion_acks_matching_head rateFirstSender 5 (by decide)).1 (by decide)]
    decide

/-! ## The claims about the output argument and the empty payload -/

/-- C29: a call of `Forward` that returns true leaves 0 in `numUnackedBundles`,
whatever the rings hold, and a call that returns false leaves the value of the
caller. -/
theorem Forward_numUnackedBundles (s : StcpBundleSource) (bundleData : List Nat)
    (numUnackedBundles : Nat) :
    (Forward s bundleData numUnackedBundles).numUnackedBundles
      = if (Forward s bundleData numUnackedBundles).ret then 0 else numUnackedBundles := by
  cases hready : s.m_readyToForward
  · simp [Forward_of_not_ready s _ _ hready]
  · cases hrate : s.m_bytesToAckByRateCb.IsFull
    · cases htcp : s.m_bytesToAckByTcpSendCallbackCb.IsFull
      · simp [Forward_of_free s _ _ hready hrate htcp]
      · simp [Forward_of_transport_full s _ _ htcp]
    · simp [Forward_of_rate_full s _ _ hrate]

/-- C30: on a ready sender with a free slot in both rings, `Forward` with an
empty payload returns true and is counted as a data frame: one frame more is
sent, no bundle byte and 4 framed bytes are added, each ring gains one entry
whose slot holds 4, `m_dataServedAsKeepAlive` is set, and the write posted is
`00 00 00 00`.  These are the bytes of the write that the keep-alive handler
posts when the keep-alive flag is clear; the two writes differ only in the
completion handler bound to them. -/
theorem Forward_admits_empty_payload (s : StcpBundleSource) (numUnackedBundles : Nat)
    (hready : s.m_readyToForward = true)
    (hrate : s.m_bytesToAckByRateCb.IsFull = false)
    (htcp : s.m_bytesToAckByTcpSendCallbackCb.IsFull = false) :
    Forward s [] numUnackedBundles
      = { ret := true
          state := { s with
            m_totalDataSegmentsSent := s.m_totalDataSegmentsSent + 1
            m_totalStcpBytesSent := s.m_totalStcpBytesSent + 4
            m_bytesToAckByRateCbVec := s.m_bytesToAckByRateCbVec.set s.m_bytesToAckByRateCb.tail 4
            m_bytesToAckByRateCb := { s.m_bytesToAckByRateCb with
              len := s.m_bytesToAckByRateCb.len + 1 }
            m_bytesToAckByTcpSendCallbackCbVec :=
              s.m_bytesToAckByTcpSendCallbackCbVec.set s.m_bytesToAckByTcpSendCallbackCb.tail 4
            m_bytesToAckByTcpSendCallbackCb := { s.m_bytesToAckByTcpSendCallbackCb with
              len := s.m_bytesToAckByTcpSendCallbackCb.len + 1 }
            newDataSignalerCancelled := s.newDataSignalerCancelled || !s.m_rateTimerIsRunning
            m_dataServedAsKeepAlive := true
            asyncWrites := s.asyncWrites
              ++ [{ buffer := [0, 0, 0, 0], handler := WriteHandler.tcpSend }] }
          numUnackedBundles := 0 } ∧
    (∀ (t : StcpBundleSource) (e : ErrorCode), e ≠ ErrorCode.operation_aborted →
      t.m_tcpSocketPtr = true → t.m_dataServedAsKeepAlive = false →
      (OnNeedToSendKeepAliveMessage_TimerExpired t e).asyncWrites
        = t.asyncWrites
          ++ [{ buffer := [0, 0, 0, 0], handler := WriteHandler.tcpSendKeepAlive }]) := by
  constructor
  · rw [Forward_of_free s [] numUnackedBundles hready hrate htcp]
    rfl
  · intro t e he hsock hserved
    rw [(OnNeedToSendKeepAliveMessage_TimerExpired_writes t e he hsock).1, hserved]
    rfl

/-- C30 at a connected sender: the empty payload is admitted and the socket is
handed `00 00 00 00`. -/
theorem Forward_admits_empty_payload_witness :
    (Forward (connectedSender 2) [] 7).ret = true ∧
    (Forward (connectedSender 2) [] 7).state.m_totalDataSegmentsSent = 1 ∧
    (Forward (connectedSender 2) [] 7).state.m_totalStcpBytesSent = 4 ∧
    socketStream (Forward (connectedSender 2) [] 7).state = [0, 0, 0, 0] := by
  rw [(Forward_admits_empty_payload (connectedSender 2) 7 (by decide) (by decide)
    (by decide)).1]
  decide

/-! ## Facts about reading data units -/

/-- Below 2^32 the four big-endian bytes determine the number. -/
theorem bigEndianBytes32_injective (n m : Nat) (hn : n < 4294967296) (hm : m < 4294967296)
    (h : bigEndianBytes32 n = bigEndianBytes32 m) : n = m := by
  unfold bigEndianBytes32 at h
  simp only [List.cons.injEq, and_true] at h
  omega

/-- Two data units followed by any bytes that give the same stream have the
same payload and are followed by the same bytes. -/
theorem GenerateDataUnit_append_injective (p q r s : List Nat)
    (hp : p.length ≤ 4294967295) (hq : q.length ≤ 4294967295)
    (h : GenerateDataUnit p p.length ++ r = GenerateDataUnit q q.length ++ s) :
    p = q ∧ r = s := by
  rw [GenerateDataUnit_eq_append p p.length (Nat.le_refl _),
    GenerateDataUnit_eq_append q q.length (Nat.le_refl _), List.take_length, List.take_length,
    List.append_assoc, List.append_assoc] at h
  have hprefix := List.append_inj h
    (by rw [bigEndianBytes32_length, bigEndianBytes32_length])
  have hlen : p.length = q.length :=
    bigEndianBytes32_injective _ _ (by omega) (by omega) hprefix.1
  exact List.append_inj hprefix.2 hlen

/-- Reading a data unit off a stream that starts with the data unit of a
payload gives the payload and what follows. -/
theorem readDataUnit_GenerateDataUnit (p r : List Nat) (hp : p.length ≤ 4294967295) :
    readDataUnit (GenerateDataUnit p p.length ++ r) = some (p, r) := by
  rw [GenerateDataUnit_eq_append p p.length (Nat.le_refl _), List.take_length]
  unfold bigEndianBytes32
  simp only [List.cons_append, List.nil_append, readDataUnit]
  have hsize : p.length / 16777216 % 256 * 16777216 + p.length / 65536 % 256 * 65536
      + p.length / 256 % 256 * 256 + p.length % 256 = p.length := by
    omega
  rw [hsize, if_pos (by simp)]
  simp

/-- The data units of two lists of payloads give the same stream only if the
lists are the same. -/
theorem dataUnits_injective (ps qs : List (List Nat))
    (hps : ∀ p ∈ ps, p.length ≤ 4294967295) (hqs : ∀ q ∈ qs, q.length ≤ 4294967295)
    (h : dataUnits ps = dataUnits qs) : ps = qs := by
  induction ps generalizing qs with
  | nil =>
    cases qs with
    | nil => rfl
    | cons q qs =>
      exfalso
      have hlen := congrArg List.length h
      simp only [dataUnits, List.map_nil, List.flatten_nil, List.length_nil, List.map_cons,
        List.flatten_cons, List.length_append] at hlen
      rw [GenerateDataUnit_length q q.length (Nat.le_refl _)] at hlen
      omega
  | cons p ps ih =>
    cases qs with
    | nil =>
      exfalso
      have hlen := congrArg List.length h
      simp only [dataUnits, List.map_nil, List.flatten_nil, List.length_nil, List.map_cons,
        List.flatten_cons, List.length_append] at hlen
      rw [GenerateDataUnit_length p p.length (Nat.le_refl _)] at hlen
      omega
    | cons q qs =>
      have hpq := GenerateDataUnit_append_injective p q (dataUnits ps) (dataUnits qs)
        (hps p (List.mem_cons_self _ _)) (hqs q (List.mem_cons_self _ _))
        (by simpa [dataUnits] using h)
      rw [hpq.1, ih qs (fun x hx => hps x (List.mem_cons_of_mem _ hx))
        (fun x hx => hqs x (List.mem_cons_of_mem _ hx)) hpq.2]

/-! ## The claim about decoding -/

/-- C28: the frame encoding is uniquely decodable.  For payloads `p` and `q` of
at most 2^32 - 1 bytes and any byte strings `r` and `s`, if the data unit of `p`
followed by `r` is the data unit of `q` followed by `s`, then `p = q` and
`r = s`; reading the four-byte big-endian prefix and then that many bytes off
the data unit of `p` followed by `r` gives `p` and leaves `r`; and the
concatenation of the data units of a list of such payloads determines the
list. -/
theorem data_units_uniquely_decodable (p q r s : List Nat)
    (hp : p.length ≤ 4294967295) (hq : q.length ≤ 4294967295) :
    (GenerateDataUnit p p.length ++ r = GenerateDataUnit q q.length ++ s → p = q ∧ r = s) ∧
    readDataUnit (GenerateDataUnit p p.length ++ r) = some (p, r) ∧
    readDataUnit (GenerateDataUnit q q.length ++ s) = some (q, s) ∧
    (∀ ps qs : List (List Nat), (∀ x ∈ ps, x.length ≤ 4294967295) →
      (∀ x ∈ qs, x.length ≤ 4294967295) → dataUnits ps = dataUnits qs → ps = qs) :=
  ⟨GenerateDataUnit_append_injective p q r s hp hq, readDataUnit_GenerateDataUnit p r hp,
    readDataUnit_GenerateDataUnit q s hq, dataUnits_injective⟩

/-- C28 at the payloads `AA BB CC` and `01`: the stream of the two data units
is read back as the first payload and then the second. -/
theorem data_units_uniquely_decodable_witness :
    dataUnits [[0xAA, 0xBB, 0xCC], [1]] = [0, 0, 0, 3, 0xAA, 0xBB, 0xCC, 0, 0, 0, 1, 1] ∧
    readDataUnit (GenerateDataUnit [0xAA, 0xBB, 0xCC] 3 ++ GenerateDataUnit [1] 1)
      = some ([0xAA, 0xBB, 0xCC], GenerateDataUnit [1] 1) ∧
    readDataUnit (GenerateDataUnit [1] 1 ++ []) = some ([1], []) :=
  ⟨by decide,
    (data_units_uniquely_decodable [0xAA, 0xBB, 0xCC] [1] (GenerateDataUnit [1] 1) []
      (by decide) (by decide)).2.1,
    (data_units_uniquely_decodable [0xAA, 0xBB, 0xCC] [1] (GenerateDataUnit [1] 1) []
      (by decide) (by decide)).2.2.1⟩

/-! ## Facts about timed runs -/

/-- The pacer keeps the configured rate. -/
theorem TryRestartRateTimer_rate (s : StcpBundleSource) :
    (TryRestartRateTimer s).M_RATE_BITS_PER_SEC = s.M_RATE_BITS_PER_SEC := by
  obtain ⟨cb, g, t, running, h⟩ := TryRestartRateTimer_frame s
  rw [h]

/-- No event changes the configured rate. -/
theorem step_rate (s : StcpBundleSource) (e : Event) :
    (step s e).M_RATE_BITS_PER_SEC = s.M_RATE_BITS_PER_SEC := by
  rcases Event.classify e with ⟨bundleData, numUnackedBundles, rfl⟩ |
    ⟨error, bytes_transferred, rfl⟩ | ⟨ec, rfl⟩ | ⟨ec, rfl⟩ | ⟨hforward, hsend, hsignal, hrate⟩
  · simp only [step]
    cases hret : (Forward s bundleData numUnackedBundles).ret
    · rw [Forward_state_of_rejected s _ _ hret]
    · obtain ⟨hready, hrate, htcp⟩ := Forward_of_admitted s _ _ hret
      rw [Forward_of_free s _ _ hready hrate htcp]
  · simp only [step]
    rcases HandleTcpSend_cases s error bytes_transferred with
      ⟨ready, isOpen, keepAliveTimer, hframe⟩ | ⟨_, _, _, hframe⟩
    · rw [hframe]
    · rw [hframe]
  · simp only [step, OnNewData_TimerCancelled]
    split
    · rw [TryRestartRateTimer_rate]
    · rfl
  · simp only [step]
    by_cases h : ec = ErrorCode.operation_aborted ∨ s.m_groupingOfBytesToAckByRateVec = []
    · rw [OnRate_TimerExpired_of_idle s ec h]
    · rw [not_or] at h
      rw [OnRate_TimerExpired_of_batch s ec h.1 h.2, TryRestartRateTimer_rate]
  · obtain ⟨ready, socketPtr, isOpen, callback, writes, keepAliveTimer, served, hframe⟩ :=
      step_neutral s e hforward hsend hsignal hrate
    rw [hframe]

/-- When the pacer runs on a sender whose timer is not running and whose batch
is empty and drains nothing, it leaves the timer as it is. -/
theorem TryRestartRateTimer_timer_of_nothing_drained (s : StcpBundleSource)
    (hdrained : (TryRestartRateTimer s).m_groupingOfBytesToAckByRateVec = []) :
    (TryRestartRateTimer s).m_rateTimer = s.m_rateTimer := by
  obtain ⟨cb, g, hframe⟩ := TryRestartRateTimer.loop_frame s.m_bytesToAckByRateCb.len s 0
  unfold TryRestartRateTimer at hdrained ⊢
  split
  · rename_i hcond
    rw [if_pos hcond] at hdrained
    simp only at hdrained ⊢
    split
    · rename_i hne
      rw [if_pos hne] at hdrained
      simp only at hdrained
      rw [hdrained] at hne
      exact absurd rfl hne
    · rw [hframe]
  · rfl

/-- The pacer keeps what is kept about an armed rate timer. -/
theorem PacerKept_TryRestartRateTimer (s : StcpBundleSource)
    (hwf : RingWellFormed s.m_bytesToAckByRateCb s.m_bytesToAckByRateCbVec)
    (h : PacerKept s) : PacerKept (TryRestartRateTimer s) := by
  by_cases hbusy : s.m_rateTimerIsRunning = true ∨ s.m_groupingOfBytesToAckByRateVec ≠ []
  · rw [TryRestartRateTimer_of_busy s hbusy]
    exact h
  · rw [not_or, Bool.not_eq_true, not_not] at hbusy
    obtain ⟨_, _, _, _, h5, h6⟩ := TryRestartRateTimer_of_idle s hwf hbusy.1 hbusy.2
    intro delayMicroSec htimer
    by_cases hdrained : (TryRestartRateTimer s).m_groupingOfBytesToAckByRateVec = []
    · rw [TryRestartRateTimer_timer_of_nothing_drained s hdrained] at htimer
      have := (h delayMicroSec htimer).1
      rw [hbusy.1] at this
      exact absurd this (by decide)
    · rw [h6 hdrained] at htimer
      rw [TryRestartRateTimer_rate]
      exact ⟨h5.mpr hdrained, (Option.some.inj htimer).symm⟩

/-- Every event keeps what is kept about an armed rate timer. -/
theorem PacerKept_step (s : StcpBundleSource) (e : Event) (hc : Consistent s)
    (h : PacerKept s) : PacerKept (step s e) := by
  rcases Event.classify e with ⟨bundleData, numUnackedBundles, rfl⟩ |
    ⟨error, bytes_transferred, rfl⟩ | ⟨ec, rfl⟩ | ⟨ec, rfl⟩ | ⟨hforward, hsend, hsignal, hrate⟩
  · simp only [step]
    cases hret : (Forward s bundleData numUnackedBundles).ret
    · rw [Forward_state_of_rejected s _ _ hret]
      exact h
    · obtain ⟨hready, hrate, htcp⟩ := Forward_of_admitted s _ _ hret
      rw [Forward_of_free s _ _ hready hrate htcp]
      exact h
  · simp only [step]
    rcases HandleTcpSend_cases s error bytes_transferred with
      ⟨ready, isOpen, keepAliveTimer, hframe⟩ | ⟨_, _, _, hframe⟩
    · rw [hframe]
      exact h
    · rw [hframe]
      exact h
  · simp only [step, OnNewData_TimerCancelled]
    split
    · refine PacerKept_TryRestartRateTimer _ ?_ ?_
      · exact hc.2.1
      · exact h
    · exact h
  · simp only [step]
    by_cases hidle : ec = ErrorCode.operation_aborted ∨ s.m_groupingOfBytesToAckByRateVec = []
    · rw [OnRate_TimerExpired_of_idle s ec hidle]
      intro delayMicroSec htimer
      cases htimer
    · rw [not_or] at hidle
      rw [OnRate_TimerExpired_of_batch s ec hidle.1 hidle.2]
      refine PacerKept_TryRestartRateTimer _ ?_ ?_
      · exact hc.2.1
      · intro delayMicroSec htimer
        cases htimer
  · obtain ⟨ready, socketPtr, isOpen, callback, writes, keepAliveTimer, served, hframe⟩ :=
      step_neutral s e hforward hsend hsignal hrate
    rw [hframe]
    exact h

/-- A freshly constructed sender has no armed rate timer. -/
theorem PacerKept_init (keepAlive rateBps maxUnacked : Nat) :
    PacerKept (StcpBundleSource.init keepAlive rateBps maxUnacked) := by
  intro delayMicroSec htimer
  cases htimer

/-- An event that does not arm the rate timer and leaves it armed found it
armed with the same delay. -/
theorem step_timer_of_not_armed (s : StcpBundleSource) (e : Event)
    (hk : PacerKept (step s e)) (harm : armsRateTimer s e = false)
    (hsome : (step s e).m_rateTimer ≠ none) :
    (step s e).m_rateTimer = s.m_rateTimer := by
  obtain ⟨delayMicroSec, htimer⟩ := Option.ne_none_iff_exists'.mp hsome
  have hrunning := (hk delayMicroSec htimer).1
  rcases Event.classify e with ⟨bundleData, numUnackedBundles, rfl⟩ |
    ⟨error, bytes_transferred, rfl⟩ | ⟨ec, rfl⟩ | ⟨ec, rfl⟩ | ⟨hforward, hsend, hsignal, hrate⟩
  · simp only [step]
    cases hret : (Forward s bundleData numUnackedBundles).ret
    · rw [Forward_state_of_rejected s _ _ hret]
    · obtain ⟨hready, hrate, htcp⟩ := Forward_of_admitted s _ _ hret
      rw [Forward_of_free s _ _ hready hrate htcp]
  · simp only [step]
    rcases HandleTcpSend_cases s error bytes_transferred with
      ⟨ready, isOpen, keepAliveTimer, hframe⟩ | ⟨_, _, _, hframe⟩
    · rw [hframe]
    · rw [hframe]
  · simp only [step] at hrunning ⊢
    simp only [armsRateTimer, hrunning, Bool.and_true, Bool.not_eq_false'] at harm
    unfold OnNewData_TimerCancelled
    split
    · rw [TryRestartRateTimer_of_busy { s with newDataSignalerCancelled := false }
        (Or.inl harm)]
    · rfl
  · simp only [step] at hrunning
    simp only [armsRateTimer, hrunning] at harm
    cases harm
  · obtain ⟨ready, socketPtr, isOpen, callback, writes, keepAliveTimer, served, hframe⟩ :=
      step_neutral s e hforward hsend hsignal hrate
    rw [hframe]

/-- A rate-timer expiry that is not cancelled happens only on an armed timer,
and no earlier than its delay after the arming. -/
theorem mayHappenAt_of_expiry (s : StcpBundleSource) (armedAt t : Nat) (ec : ErrorCode)
    (hec : ec ≠ ErrorCode.operation_aborted)
    (h : mayHappenAt s armedAt t (Event.onRateTimerExpired ec) = true) :
    ∃ delayMicroSec, s.m_rateTimer = some delayMicroSec ∧ armedAt + delayMicroSec ≤ t := by
  unfold mayHappenAt at h
  cases htimer : s.m_rateTimer with
  | none => simp [hec, htimer] at h
  | some delayMicroSec =>
    refine ⟨delayMicroSec, rfl, ?_⟩
    simpa [hec, htimer] using h

/-- An event credits nothing inside the window, or it is a rate-timer expiry
inside the window that is not cancelled and credits the pending batch. -/
theorem creditedAt_cases (windowStart windowEnd : Nat) (s : StcpBundleSource) (t : Nat)
    (e : Event) :
    creditedAt windowStart windowEnd s t e = [] ∨
    (∃ ec, e = Event.onRateTimerExpired ec ∧ ec ≠ ErrorCode.operation_aborted ∧
      windowStart ≤ t ∧ t ≤ windowEnd ∧ s.m_groupingOfBytesToAckByRateVec ≠ [] ∧
      creditedAt windowStart windowEnd s t e = [s.m_groupingOfBytesToAckByRateVec]) := by
  cases e with
  | onRateTimerExpired ec =>
    simp only [creditedAt]
    by_cases h : ec ≠ ErrorCode.operation_aborted ∧ windowStart ≤ t ∧ t ≤ windowEnd
        ∧ s.m_groupingOfBytesToAckByRateVec ≠ []
    · rw [if_pos h]
      exact Or.inr ⟨ec, rfl, h.1, h.2.1, h.2.2.1, h.2.2.2, rfl⟩
    · rw [if_neg h]
      exact Or.inl rfl
  | _ => exact Or.inl rfl

/-- The bound behind the rate cap.  In an admissible timed run of a sender with
a rate of at least 1 bit per second, let `anchor` be a time that is not later
than the arming of the rate timer, if it is armed, and not later than now, if it
is not.  Then the bits credited up to the end of the window, times 10^6, are at
most the rate times the microseconds from `anchor` to the end of the window plus
one microsecond per credited frame, up to the relative error `4 / 2^53` of the
double arithmetic. -/
theorem creditedInWindow_bound_from (windowStart windowEnd rateBps : Nat) (hrate : 0 < rateBps)
    (events : List (Nat × Event)) :
    ∀ (s : StcpBundleSource) (now armedAt anchor : Nat),
      s.M_RATE_BITS_PER_SEC = rateBps → Consistent s → PacerKept s →
      timedAdmissible s now armedAt events = true → armedAt ≤ now →
      (s.m_rateTimer ≠ none → anchor ≤ armedAt) → (s.m_rateTimer = none → anchor ≤ now) →
      (creditedInWindow windowStart windowEnd s events).flatten.sum * 8 * 1000000
          * 9007199254740988
        ≤ rateBps * 9007199254740992 * ((windowEnd - anchor)
            + (creditedInWindow windowStart windowEnd s events).flatten.length) := by
  induction events with
  | nil =>
    intro s now armedAt anchor _ _ _ _ _ _ _
    simp [creditedInWindow]
  | cons te events ih =>
    obtain ⟨t, e⟩ := te
    intro s now armedAt anchor hR hc hk hadm harmed hanchor1 hanchor2
    simp only [timedAdmissible, Bool.and_eq_true, decide_eq_true_eq] at hadm
    obtain ⟨⟨hnow, hmay⟩, hrest⟩ := hadm
    have hR2 : (step s e).M_RATE_BITS_PER_SEC = rateBps := by rw [step_rate, hR]
    have hc2 := Consistent_step s e hc
    have hk2 := PacerKept_step s e hc hk
    have harmed2 : (if armsRateTimer s e then t else armedAt) ≤ t := by
      split
      · exact Nat.le_refl _
      · omega
    have hanchor_t : anchor ≤ t := by
      cases htimer : s.m_rateTimer with
      | none => exact Nat.le_trans (hanchor2 htimer) hnow
      | some d => exact Nat.le_trans (hanchor1 (by rw [htimer]; simp)) (Nat.le_trans harmed hnow)
    simp only [creditedInWindow]
    rcases creditedAt_cases windowStart windowEnd s t e with hnone |
      ⟨ec, rfl, hec, _, hend, hbatch, hsome⟩
    · rw [hnone, List.nil_append]
      refine ih (step s e) t _ anchor hR2 hc2 hk2 hrest harmed2 ?_ (fun _ => hanchor_t)
      intro htimer2
      cases harm : armsRateTimer s e
      · simp only [Bool.false_eq_true, if_false]
        apply hanchor1
        rw [← step_timer_of_not_armed s e hk2 harm htimer2]
        exact htimer2
      · simp only [if_true]
        exact hanchor_t
    · obtain ⟨d, htimer, hfire⟩ := mayHappenAt_of_expiry s armedAt t ec hec hmay
      have hd := (hk d htimer).2
      rw [hR] at hd
      have hanchor_armed : anchor ≤ armedAt := hanchor1 (by rw [htimer]; simp)
      have hbits := bits_le_rate_mul_accumulated rateBps hrate s.m_groupingOfBytesToAckByRateVec
      rw [← hd] at hbits
      have hlater := ih (step s (Event.onRateTimerExpired ec)) t _ t hR2 hc2 hk2 hrest harmed2
        (by
          intro htimer2
          obtain ⟨d2, hd2⟩ := Option.ne_none_iff_exists'.mp htimer2
          have hrunning := (hk2 d2 hd2).1
          have harm : armsRateTimer s (Event.onRateTimerExpired ec) = true := hrunning
          rw [harm]
          exact Nat.le_refl _)
        (fun _ => Nat.le_refl _)
      rw [hsome]
      simp only [List.singleton_append, List.flatten_cons, List.sum_append, List.length_append]
      have hsum : (s.m_groupingOfBytesToAckByRateVec.sum
            + (creditedInWindow windowStart windowEnd (step s (Event.onRateTimerExpired ec))
                events).flatten.sum) * 8 * 1000000 * 9007199254740988
          ≤ rateBps * 9007199254740992 * ((d + s.m_groupingOfBytesToAckByRateVec.length)
              + ((windowEnd - t)
                + (creditedInWindow windowStart windowEnd
                    (step s (Event.onRateTimerExpired ec)) events).flatten.length)) := by
        rw [Nat.mul_add (rateBps * 9007199254740992)]
        omega
      exact Nat.le_trans hsum (Nat.mul_le_mul_left (rateBps * 9007199254740992) (by omega))

/-- In an admissible timed run of a sender with a rate of at least 1 bit per
second, the bits credited inside a window after the first batch credited in
it, times 10^6, are at most the rate times the microseconds of the window plus
one microsecond per frame credited after the first batch, up to the relative
error `4 / 2^53` of the double arithmetic. -/
theorem creditedInWindow_tail_bound (windowStart windowEnd rateBps : Nat) (hrate : 0 < rateBps)
    (events : List (Nat × Event)) :
    ∀ (s : StcpBundleSource) (now armedAt : Nat),
      s.M_RATE_BITS_PER_SEC = rateBps → Consistent s → PacerKept s →
      timedAdmissible s now armedAt events = true → armedAt ≤ now →
      (creditedInWindow windowStart windowEnd s events).tail.flatten.sum * 8 * 1000000
          * 9007199254740988
        ≤ rateBps * 9007199254740992 * ((windowEnd - windowStart)
            + (creditedInWindow windowStart windowEnd s events).tail.flatten.length) := by
  induction events with
  | nil =>
    intro s now armedAt _ _ _ _ _
    simp [creditedInWindow]
  | cons te events ih =>
    obtain ⟨t, e⟩ := te
    intro s now armedAt hR hc hk hadm harmed
    have hadm2 := hadm
    simp only [timedAdmissible, Bool.and_eq_true, decide_eq_true_eq] at hadm2
    obtain ⟨⟨hnow, _⟩, hrest⟩ := hadm2
    have hR2 : (step s e).M_RATE_BITS_PER_SEC = rateBps := by rw [step_rate, hR]
    have hc2 := Consistent_step s e hc
    have hk2 := PacerKept_step s e hc hk
    have harmed2 : (if armsRateTimer s e then t else armedAt) ≤ t := by
      split
      · exact Nat.le_refl _
      · omega
    simp only [creditedInWindow]
    rcases creditedAt_cases windowStart windowEnd s t e with hnone |
      ⟨ec, rfl, _, hstart, _, _, hsome⟩
    · rw [hnone, List.nil_append]
      exact ih (step s e) t _ hR2 hc2 hk2 hrest harmed2
    · rw [hsome]
      simp only [List.singleton_append, List.tail_cons]
      have hlater := creditedInWindow_bound_from windowStart windowEnd rateBps hrate events
        (step s (Event.onRateTimerExpired ec)) t _ t hR2 hc2 hk2 hrest harmed2
        (by
          intro htimer2
          obtain ⟨d2, hd2⟩ := Option.ne_none_iff_exists'.mp htimer2
          have hrunning := (hk2 d2 hd2).1
          have harm : armsRateTimer s (Event.onRateTimerExpired ec) = true := hrunning
          rw [harm]
          exact Nat.le_refl _)
        (fun _ => Nat.le_refl _)
      exact Nat.le_trans hlater
        (Nat.mul_le_mul_left (rateBps * 9007199254740992) (by omega))

/-- The bytes that the rate-timer expiries of a timed run credit up to a time
that no event of the run exceeds are the growth of the counter
`m_totalBytesAckedByRate` over the run. -/
theorem creditedInWindow_total (windowEnd : Nat) (events : List (Nat × Event)) :
    ∀ s : StcpBundleSource, (∀ te ∈ events, te.1 ≤ windowEnd) →
      s.m_totalBytesAckedByRate + (creditedInWindow 0 windowEnd s events).flatten.sum
        = (run s (events.map Prod.snd)).m_totalBytesAckedByRate := by
  induction events with
  | nil =>
    intro s _
    simp [creditedInWindow, run]
  | cons te events ih =>
    obtain ⟨t, e⟩ := te
    intro s htimes
    have ht : t ≤ windowEnd := htimes (t, e) (List.mem_cons_self _ _)
    simp only [creditedInWindow, List.map_cons, run, List.foldl_cons, List.flatten_append,
      List.sum_append]
    have hrest := ih (step s e) (fun te hte => htimes te (List.mem_cons_of_mem _ hte))
    simp only [run] at hrest
    rw [← hrest, ← Nat.add_assoc]
    congr 1
    rcases Event.classify e with ⟨bundleData, numUnackedBundles, rfl⟩ |
      ⟨error, bytes_transferred, rfl⟩ | ⟨ec, rfl⟩ | ⟨ec, rfl⟩ | ⟨hforward, hsend, hsignal, hrate⟩
    · simp only [step, creditedAt, List.flatten_nil, List.sum_nil, Nat.add_zero]
      cases hret : (Forward s bundleData numUnackedBundles).ret
      · rw [Forward_state_of_rejected s _ _ hret]
      · obtain ⟨hready, hrate, htcp⟩ := Forward_of_admitted s _ _ hret
        rw [Forward_of_free s _ _ hready hrate htcp]
    · simp only [step, creditedAt, List.flatten_nil, List.sum_nil, Nat.add_zero]
      rcases HandleTcpSend_cases s error bytes_transferred with
        ⟨ready, isOpen, keepAliveTimer, hframe⟩ | ⟨_, _, _, hframe⟩
      · rw [hframe]
      · rw [hframe]
    · simp only [step, creditedAt, List.flatten_nil, List.sum_nil, Nat.add_zero,
        OnNewData_TimerCancelled]
      split
      · obtain ⟨cb, g, timer, running, hframe⟩ :=
          TryRestartRateTimer_frame { s with newDataSignalerCancelled := false }
        rw [hframe]
      · rfl
    · simp only [step, creditedAt]
      by_cases hidle : ec = ErrorCode.operation_aborted ∨ s.m_groupingOfBytesToAckByRateVec = []
      · rw [OnRate_TimerExpired_of_idle s ec hidle, if_neg]
        · simp
        · intro hcredit
          rcases hidle with h | h
          · exact hcredit.1 h
          · exact hcredit.2.2.2 h
      · rw [not_or] at hidle
        rw [OnRate_TimerExpired_of_batch s ec hidle.1 hidle.2,
          if_pos ⟨hidle.1, Nat.zero_le _, ht, hidle.2⟩]
        obtain ⟨cb, g, timer, running, hframe⟩ := TryRestartRateTimer_frame { s with
          m_rateTimerIsRunning := false
          m_rateTimer := none
          m_totalDataSegmentsAckedByRate :=
            s.m_totalDataSegmentsAckedByRate + s.m_groupingOfBytesToAckByRateVec.length
          m_totalBytesAckedByRate :=
            s.m_totalBytesAckedByRate + s.m_groupingOfBytesToAckByRateVec.sum
          m_groupingOfBytesToAckByRateVec := []
          callbackInvocations :=
            if s.m_onSuccessfulAckCallback
                && decide (s.m_totalDataSegmentsAckedByRate
                    + s.m_groupingOfBytesToAckByRateVec.length
                  ≤ s.m_totalDataSegmentsAckedByTcpSendCallback) then
              s.callbackInvocations + 1
            else s.callbackInvocations }
        rw [hframe]
        simp
    · obtain ⟨ready, socketPtr, isOpen, callback, writes, keepAliveTimer, served, hframe⟩ :=
        step_neutral s e hforward hsend hsignal hrate
      rw [hframe]
      have hnone : creditedAt 0 windowEnd s t e = [] := by
        rcases creditedAt_cases 0 windowEnd s t e with h | ⟨ec, rfl, _⟩
        · exact h
        · exact absurd rfl (hrate ec)
      rw [hnone]
      simp

/-! ## The claim about the rate cap -/

/-- C21, the claim refuted: in the timed run `slowTimedRun` of a sender of
3 bit/s every rate timer fires no earlier than its delay after it is armed, and
the window of 26,666,666 microseconds that starts with the first expiry holds
three credited batches of 40 bits each; the 120 bits, times 10^6, exceed
`R * T` with `T` in microseconds plus the bits of any one batch times 10^6.
At 40,000,001 bit/s the delay of a frame of 5 bytes is below one microsecond and
is truncated to 0, so the pacer arms the timer with a delay of 0 for a whole
ring of such frames.  And at 130,372,558,438,247 bit/s the double arithmetic of
the source gives a frame of 4,090,439,021 bytes a delay of 250 microseconds
where the exact delay is above 251, so that frame is credited more than one
microsecond early. -/
theorem rate_cap_exceeded_by_truncation :
    timedAdmissible (StcpBundleSource.init 10 3 4) 0 0 slowTimedRun = true ∧
    creditedInWindow 13333333 39999999 (StcpBundleSource.init 10 3 4) slowTimedRun
      = [[5], [5], [5]] ∧
    1000000 ≤ 39999999 - 13333333 ∧
    (∀ batch ∈ creditedInWindow 13333333 39999999 (StcpBundleSource.init 10 3 4) slowTimedRun,
      3 * (39999999 - 13333333) + batch.sum * 8 * 1000000
        < (creditedInWindow 13333333 39999999 (StcpBundleSource.init 10 3 4)
            slowTimedRun).flatten.sum * 8 * 1000000) ∧
    delayMicroSecOf 40000001 5 = 0 ∧
    (OnNewData_TimerCancelled (queuedSender 40000001 4 [[1], [2], [3]])
      ErrorCode.operation_aborted).m_groupingOfBytesToAckByRateVec = [5, 5, 5] ∧
    (OnNewData_TimerCancelled (queuedSender 40000001 4 [[1], [2], [3]])
      ErrorCode.operation_aborted).m_rateTimer = some 0 ∧
    delayMicroSecOf 130372558438247 4090439021 = 250 ∧
    130372558438247 * (250 + 1) < 4090439021 * 8 * 1000000 := by
  decide

/-- C21 as amended: in a timed run in which a rate timer armed with delay `d`
fires no earlier than `d` microseconds after it is armed, for every rate
`R ≥ 1` of a freshly constructed sender and every window of `T` microseconds,
the bits of framed bytes credited by rate-acks inside the window, not counting
the first batch credited in it, times `10^6 * (2^53 - 4)`, are at most
`R * 2^53` times the sum of `T` and the number of frames in those batches
(`2^53 = 9007199254740992`).  So the bits credited in a window of `T` seconds
are at most `R * T` plus the bits of one batch plus `R / 10^6` bits per
credited frame, all three larger by the relative error `4 / 2^53` of the
double arithmetic: the source computes the delay of each frame in double
precision and truncates it to whole microseconds before the delays are
summed. -/
theorem rate_credit_bounded_up_to_truncation (keepAlive rateBps maxUnacked : Nat)
    (hrate : 1 ≤ rateBps) (events : List (Nat × Event))
    (hadm : timedAdmissible (StcpBundleSource.init keepAlive rateBps maxUnacked) 0 0 events
      = true)
    (windowStart windowEnd : Nat) :
    (creditedInWindow windowStart windowEnd
        (StcpBundleSource.init keepAlive rateBps maxUnacked) events).tail.flatten.sum
        * 8 * 1000000 * 9007199254740988
      ≤ rateBps * 9007199254740992 * ((windowEnd - windowStart)
          + (creditedInWindow windowStart windowEnd
              (StcpBundleSource.init keepAlive rateBps maxUnacked)
              events).tail.flatten.length) :=
  creditedInWindow_tail_bound windowStart windowEnd rateBps hrate events
    (StcpBundleSource.init keepAlive rateBps maxUnacked) 0 0 rfl
    (Consistent_init keepAlive rateBps maxUnacked) (PacerKept_init keepAlive rateBps maxUnacked)
    hadm (Nat.le_refl 0)

/-- C21 as amended, at the timed run `slowTimedRun`: the two batches credited
after the first in the window of 26,666,666 microseconds have 80 bits, and
`80 * 10^6 * (2^53 - 4)` is at most `3 * 2^53 * (26,666,666 + 2)`. -/
theorem rate_credit_bounded_up_to_truncation_witness :
    (creditedInWindow 13333333 39999999 (StcpBundleSource.init 10 3 4)
        slowTimedRun).tail.flatten.sum * 8 * 1000000 * 9007199254740988
      ≤ 3 * 9007199254740992 * ((39999999 - 13333333)
          + (creditedInWindow 13333333 39999999 (StcpBundleSource.init 10 3 4)
              slowTimedRun).tail.flatten.length) :=
  rate_credit_bounded_up_to_truncation 10 3 4 (by decide) slowTimedRun (by decide)
    13333333 39999999

end Stcp

namespace ForwardListQueue

variable {T : Type}

/-! ## Facts about the forward-list queue -/

/-- Linking a node in behind the last node of a list appends it. -/
theorem insert_after_last (fl : List (Nat × T)) (n node : Nat × T)
    (hnodup : ((fl ++ [n]).map Prod.fst).Nodup) :
    insert_after (fl ++ [n]) n.1 node = some (fl ++ [n, node]) := by
  induction fl with
  | nil => simp [insert_after]
  | cons m fl ih =>
    rw [List.cons_append, List.map_cons, List.nodup_cons] at hnodup
    have hne : m.1 ≠ n.1 := by
      intro heq
      apply hnodup.1
      rw [heq]
      exact List.mem_map_of_mem Prod.fst (List.mem_append_right _ (List.mem_singleton_self n))
    have hnodup2 : ((fl ++ [n]).map Prod.fst).Nodup := hnodup.2
    rw [List.cons_append]
    unfold insert_after
    rw [if_neg hne, ih hnodup2]
    rfl

/-- The node found at the address of the last node is the last node. -/
theorem find_last (fl : List (Nat × T)) (n : Nat × T)
    (hnodup : ((fl ++ [n]).map Prod.fst).Nodup) :
    (fl ++ [n]).find? (fun m => decide (m.1 = n.1)) = some n := by
  induction fl with
  | nil => simp
  | cons m fl ih =>
    rw [List.cons_append, List.map_cons, List.nodup_cons] at hnodup
    have hne : m.1 ≠ n.1 := by
      intro heq
      apply hnodup.1
      rw [heq]
      exact List.mem_map_of_mem Prod.fst (List.mem_append_right _ (List.mem_singleton_self n))
    have hnodup2 : ((fl ++ [n]).map Prod.fst).Nodup := hnodup.2
    rw [List.cons_append, List.find?_cons_of_neg _ (by simpa using hne)]
    exact ih hnodup2

/-- The default-constructed queue is linked. -/
theorem Linked_init : Linked (init : ForwardListQueue T) :=
  ⟨List.nodup_nil, fun _ h => absurd h (List.not_mem_nil _), fun h => absurd rfl h⟩

/-- On a linked non-empty queue `back` is the last element. -/
theorem back_of_Linked (q : ForwardListQueue T) (h : Linked q) (hne : q.m_fl ≠ []) :
    q.back = q.elements.getLast? := by
  obtain ⟨hnodup, _, hlast⟩ := h
  obtain ⟨fl, n, hfl⟩ : ∃ fl n, q.m_fl = fl ++ [n] :=
    ⟨q.m_fl.dropLast, q.m_fl.getLast hne, (List.dropLast_append_getLast hne).symm⟩
  have hit := hlast hne
  rw [hfl] at hnodup
  rw [hfl, List.getLast?_concat] at hit
  unfold back elements
  rw [hit, hfl, List.map_append, List.map_cons, List.map_nil, List.getLast?_concat]
  simp only [Option.map_some']
  rw [find_last fl n hnodup]
  rfl

/-- On a linked queue `push_back` is defined, appends the element behind the
last one, and leaves the queue linked. -/
theorem Linked_push_back (q : ForwardListQueue T) (h : Linked q) (val : T) :
    ∃ q2, q.push_back val = some q2 ∧ Linked q2 ∧ q2.elements = q.elements ++ [val] := by
  obtain ⟨hnodup, hfresh, hlast⟩ := h
  by_cases hempty : q.m_fl = []
  · refine ⟨{ m_fl := [(q.nextNode, val)], m_flLastIt := some q.nextNode,
              nextNode := q.nextNode + 1 }, by simp [push_back, hempty], ?_,
      by simp [elements, hempty]⟩
    exact ⟨by simp, by simp, by simp⟩
  · obtain ⟨fl, n, hfl⟩ : ∃ fl n, q.m_fl = fl ++ [n] :=
      ⟨q.m_fl.dropLast, q.m_fl.getLast hempty, (List.dropLast_append_getLast hempty).symm⟩
    have hit := hlast hempty
    rw [hfl] at hnodup hfresh
    rw [hfl, List.getLast?_concat] at hit
    simp only [Option.map_some'] at hit
    refine ⟨{ m_fl := fl ++ [n, (q.nextNode, val)], m_flLastIt := some q.nextNode,
              nextNode := q.nextNode + 1 }, ?_, ?_, ?_⟩
    · unfold push_back
      rw [hit, hfl, if_neg (by simp)]
      simp only
      rw [insert_after_last fl n _ hnodup]
    · refine ⟨?_, ?_, ?_⟩
      · have happend : fl ++ [n, (q.nextNode, val)] = (fl ++ [n]) ++ [(q.nextNode, val)] := by
          simp
        show ((fl ++ [n, (q.nextNode, val)]).map Prod.fst).Nodup
        rw [happend, List.map_append, List.nodup_append]
        refine ⟨hnodup, by simp, ?_⟩
        intro a ha hb
        simp only [List.map_cons, List.map_nil, List.mem_singleton] at hb
        obtain ⟨m, hm, hma⟩ := List.mem_map.mp ha
        have := hfresh m hm
        omega
      · intro m hm
        show m.1 < q.nextNode + 1
        have happend : fl ++ [n, (q.nextNode, val)] = (fl ++ [n]) ++ [(q.nextNode, val)] := by
          simp
        have hm2 : m ∈ (fl ++ [n]) ++ [(q.nextNode, val)] := happend ▸ hm
        rcases List.mem_append.mp hm2 with hm3 | hm3
        · have := hfresh m hm3
          omega
        · simp only [List.mem_singleton] at hm3
          rw [hm3]
          exact Nat.lt_succ_self _
      · intro _
        show some q.nextNode = (fl ++ [n, (q.nextNode, val)]).getLast?.map Prod.fst
        simp [List.getLast?_append]
    · simp [elements, hfl]

/-- The member `emplace_back` is `push_back`. -/
theorem emplace_back_eq_push_back (q : ForwardListQueue T) (val : T) :
    q.emplace_back val = q.push_back val := rfl

/-- The member `emplace_front` is `push_front`. -/
theorem emplace_front_eq_push_front (q : ForwardListQueue T) (val : T) :
    q.emplace_front val = q.push_front val := rfl

/-- On a linked queue `push_front` puts the element before the first one and
leaves the queue linked. -/
theorem Linked_push_front (q : ForwardListQueue T) (h : Linked q) (val : T) :
    Linked (q.push_front val) ∧ (q.push_front val).elements = val :: q.elements := by
  obtain ⟨hnodup, hfresh, hlast⟩ := h
  refine ⟨⟨?_, ?_, ?_⟩, rfl⟩
  · show (((q.nextNode, val) :: q.m_fl).map Prod.fst).Nodup
    rw [List.map_cons, List.nodup_cons]
    refine ⟨?_, hnodup⟩
    intro hmem
    obtain ⟨m, hm, hma⟩ := List.mem_map.mp hmem
    have := hfresh m hm
    simp only at hma
    omega
  · intro m hm
    show m.1 < q.nextNode + 1
    rcases List.mem_cons.mp hm with hm2 | hm2
    · rw [hm2]
      exact Nat.lt_succ_self _
    · have := hfresh m hm2
      omega
  · intro _
    show (if q.m_fl.isEmpty then some q.nextNode else q.m_flLastIt)
      = ((q.nextNode, val) :: q.m_fl).getLast?.map Prod.fst
    by_cases hempty : q.m_fl = []
    · simp [hempty]
    · rw [if_neg (by simpa using hempty), hlast hempty]
      obtain ⟨m, fl, hfl⟩ := List.exists_cons_of_ne_nil hempty
      rw [hfl, List.getLast?_cons_cons]

/-- On a linked queue `pop` removes the first element and leaves the queue
linked. -/
theorem Linked_pop (q q2 : ForwardListQueue T) (h : Linked q) (hpop : q.pop = some q2) :
    Linked q2 ∧ ∃ val, q.elements = val :: q2.elements := by
  obtain ⟨hnodup, hfresh, hlast⟩ := h
  unfold pop at hpop
  cases hfl : q.m_fl with
  | nil => simp [hfl] at hpop
  | cons n fl =>
    simp only [hfl, Option.some.injEq] at hpop
    subst hpop
    rw [hfl] at hnodup hfresh
    refine ⟨⟨?_, ?_, ?_⟩, n.2, by simp [elements, hfl]⟩
    · exact (List.nodup_cons.mp hnodup).2
    · intro m hm
      exact hfresh m (List.mem_cons_of_mem _ hm)
    · intro hne
      have hne2 : fl ≠ [] := hne
      show q.m_flLastIt = fl.getLast?.map Prod.fst
      rw [hlast (by rw [hfl]; simp), hfl]
      obtain ⟨m, fl2, hfl2⟩ := List.exists_cons_of_ne_nil hne2
      rw [hfl2, List.getLast?_cons_cons]

/-- A cleared queue is linked. -/
theorem Linked_clear (q : ForwardListQueue T) : Linked q.clear :=
  ⟨List.nodup_nil, fun _ h => absurd h (List.not_mem_nil _), fun h => absurd rfl h⟩

/-- Every call on a linked queue that is defined leaves it linked. -/
theorem Linked_apply (q q2 : ForwardListQueue T) (op : Op T) (h : Linked q)
    (hop : q.apply op = some q2) : Linked q2 := by
  cases op with
  | push_back val =>
    obtain ⟨q3, h3, hl, _⟩ := Linked_push_back q h val
    simp only [apply, h3, Option.some.injEq] at hop
    exact hop ▸ hl
  | emplace_back val =>
    obtain ⟨q3, h3, hl, _⟩ := Linked_push_back q h val
    simp only [apply, emplace_back_eq_push_back, h3, Option.some.injEq] at hop
    exact hop ▸ hl
  | push_front val =>
    simp only [apply, Option.some.injEq] at hop
    exact hop ▸ (Linked_push_front q h val).1
  | emplace_front val =>
    simp only [apply, emplace_front_eq_push_front, Option.some.injEq] at hop
    exact hop ▸ (Linked_push_front q h val).1
  | pop => exact (Linked_pop q q2 h hop).1
  | clear =>
    simp only [apply, Option.some.injEq] at hop
    exact hop ▸ Linked_clear q

/-- Every queue reached from a linked queue is linked. -/
theorem Linked_runOps (ops : List (Op T)) :
    ∀ q q2 : ForwardListQueue T, Linked q → runOps q ops = some q2 → Linked q2 := by
  induction ops with
  | nil =>
    intro q q2 h hrun
    simp only [runOps, Option.some.injEq] at hrun
    exact hrun ▸ h
  | cons op ops ih =>
    intro q q2 h hrun
    unfold runOps at hrun
    cases hop : q.apply op with
    | none => simp [hop] at hrun
    | some q3 =>
      simp only [hop] at hrun
      exact ih q3 q2 (Linked_apply q q3 op h hop) hrun

/-- On every non-empty queue reached from the default constructor, `back` is
the last element and `front` the first, and `push_back` on every queue so
reached appends behind the last element: the queue is first-in first-out. -/
theorem default_constructed_queue_is_fifo (ops : List (Op T)) (q : ForwardListQueue T)
    (hrun : runOps init ops = some q) :
    (q.empty = false → q.back = q.elements.getLast? ∧ q.front = q.elements.head?) ∧
    ∀ val, ∃ q2, q.push_back val = some q2 ∧ q2.elements = q.elements ++ [val] := by
  have h := Linked_runOps ops init q Linked_init hrun
  constructor
  · intro hne
    refine ⟨back_of_Linked q h ?_, ?_⟩
    · intro hnil
      simp [empty, hnil] at hne
    · simp [front, elements, List.head?_map]
  · intro val
    obtain ⟨q2, h2, _, helems⟩ := Linked_push_back q h val
    exact ⟨q2, h2, helems⟩

/-! ## The claim about the forward-list queue -/

/-- C27 at the queue built from the initializer list `1, 2`: the queue is not
empty and its last element is 2, but `back` dereferences the iterator that the
constructor never set, and so does `push_back`, in place of appending behind
the 2.  On the default-constructed queue the same two elements pushed at the
back are found by `back`. -/
theorem back_of_initializer_list_queue :
    (initFromList [1, 2]).empty = false ∧
    (initFromList [1, 2]).elements = [1, 2] ∧
    (initFromList [1, 2]).front = some 1 ∧
    (initFromList [1, 2]).back = none ∧
    (initFromList [1, 2]).push_back 3 = none ∧
    ((runOps init [Op.push_back 1, Op.push_back 2]).map elements = some [1, 2] ∧
     (runOps init [Op.push_back 1, Op.push_back 2]).bind back = some 2) := by
  decide

end ForwardListQueue
